import Mathlib

/-!
# cyber-range: instance lifecycle, flags and ports

A shallow embedding of the Go sources of the challenge-instance orchestrator
(`internal/service`, `internal/infra/redis`, `internal/infra/docker`,
`internal/infra/db`) together with theorems about it.

Conventions of the embedding

* Go `string` is `String`; Go `int`/`int64` is `Int`, and arithmetic that can
  leave the 64-bit range goes through `wrapInt64`.
* The state index (Redis), the authoritative store (tables) and the container
  engines are fields of one `State` value; every operation takes the state and
  returns its result together with the new state.
* What the code reads from outside the state (clock, random sources, outcomes
  of engine calls) is passed in an `Env` value, one per call.
* Commands sent to the state index and to the store are executed as the
  commands specify; a command fails only for a reason visible in the state
  (for instance a duplicate primary key).
-/

namespace CyberRange

/-! ## Go primitives -/

/-- Two's-complement wrap-around of a 64-bit signed Go `int`. -/
def wrapInt64 (x : Int) : Int := (x + 2 ^ 63) % 2 ^ 64 - 2 ^ 63

/-- The values a 64-bit signed Go `int` can hold. -/
def isInt64 (x : Int) : Prop := -(2 ^ 63) ≤ x ∧ x < 2 ^ 63

instance (x : Int) : Decidable (isInt64 x) := by unfold isInt64; infer_instance

/-- Result of a Go call: a value, a returned `error`, or a run-time panic. -/
inductive Result (α : Type) where
  | ok (a : α)
  | error (msg : String)
  | panic (msg : String)
  deriving DecidableEq, Repr

/-- Table of `encoding/hex`: `hextable = "0123456789abcdef"`. -/
def hextable : List Char := "0123456789abcdef".toList

/-- One hexadecimal digit, `hextable[n]`. -/
def hexDigit (n : Nat) : Char := hextable.getD n '0'

/-- Encoding of one byte `v`: `hextable[v>>4]`, `hextable[v&0x0f]`. -/
def hexByte (v : Nat) : List Char := [hexDigit (v % 256 / 16), hexDigit (v % 256 % 16)]

/-- Function `hex.EncodeToString`. -/
def hexEncode (bs : List Nat) : String := String.mk (bs.flatMap hexByte)

/-- Function `rand.Read(b)` for a slice of `n` bytes: the slice is filled from
the random source `src`. -/
def randRead (n : Nat) (src : List Nat) : List Nat :=
  (List.range n).map (fun i => src.getD i 0 % 256)

/-- Operands of `fmt.Sprintf` that occur in this repository. -/
inductive FmtArg where
  | str (s : String)
  | int (n : Int)
  | bytes (b : List Nat)

/-- Output of one formatting verb applied to its operand (`%s`, `%d`, `%x`). -/
def formatVerb (v : Char) (a : FmtArg) : List Char :=
  match a with
  | .str s => if v = 's' then s.toList else '%' :: '!' :: [v]
  | .int n => if v = 'd' then (toString n).toList else '%' :: '!' :: [v]
  | .bytes b => if v = 'x' then (hexEncode b).toList else '%' :: '!' :: [v]

/-- Interpreter of a `fmt.Sprintf` format over its operands; `pending` says
that the previous character was the `%` that opens a verb. -/
def sprintfAux (pending : Bool) : List Char → List FmtArg → List Char
  | [], _ => if pending then "%!(NOVERB)".toList else []
  | c :: rest, args =>
    if pending then
      match args with
      | a :: args' => formatVerb c a ++ sprintfAux false rest args'
      | [] => '%' :: '!' :: c :: "(MISSING)".toList ++ sprintfAux false rest []
    else if c = '%' then sprintfAux true rest args
    else c :: sprintfAux false rest args

/-- Function `fmt.Sprintf`. -/
def sprintf (format : String) (args : List FmtArg) : String :=
  String.mk (sprintfAux false format.toList args)

/-! ## Flags and identifiers (`internal/service/challenge_service.go`) -/

/-- Method `ChallengeService.generateFlag`: `timestamp` is `time.Now().Unix()`
and `src` is the source that `rand.Read` draws the four bytes from. -/
def generateFlag (userID : String) (timestamp : Int) (src : List Nat) : String :=
  let randomBytes := randRead 4 src
  let randomStr := hexEncode randomBytes
  sprintf "flag\x7b%s_%d_%s\x7d" [.str userID, .int timestamp, .str randomStr]

/-- Function `generateID`: sixteen random bytes printed as
`%x-%x-%x-%x-%x` over `b[0:4]`, `b[4:6]`, `b[6:8]`, `b[8:10]`, `b[10:]`. -/
def generateID (src : List Nat) : String :=
  let b := randRead 16 src
  sprintf "%x-%x-%x-%x-%x"
    [.bytes (b.take 4), .bytes ((b.drop 4).take 2), .bytes ((b.drop 6).take 2),
     .bytes ((b.drop 8).take 2), .bytes (b.drop 10)]

/-! ## Regular expressions, for the flag pattern of the specification -/

/-- Regular expressions over characters, with character classes. -/
inductive Regex where
  | none
  | eps
  | sat (p : Char → Bool)
  | cat (r s : Regex)
  | alt (r s : Regex)
  | star (r : Regex)

namespace Regex

/-- The words of a regular expression. -/
inductive Matches : Regex → List Char → Prop where
  | eps : Matches .eps []
  | sat (p : Char → Bool) (c : Char) : p c = true → Matches (.sat p) [c]
  | cat {r s : Regex} {x y : List Char} :
      Matches r x → Matches s y → Matches (.cat r s) (x ++ y)
  | altL {r s : Regex} {x : List Char} : Matches r x → Matches (.alt r s) x
  | altR {r s : Regex} {x : List Char} : Matches s x → Matches (.alt r s) x
  | starNil {r : Regex} : Matches (.star r) []
  | starCons {r : Regex} {x y : List Char} :
      Matches r x → Matches (.star r) y → Matches (.star r) (x ++ y)

/-- Whether the empty word is a word of the expression. -/
def nullable : Regex → Bool
  | .none => false
  | .eps => true
  | .sat _ => false
  | .cat r s => nullable r && nullable s
  | .alt r s => nullable r || nullable s
  | .star _ => true

/-- Derivative of an expression by a character. -/
def deriv : Regex → Char → Regex
  | .none, _ => .none
  | .eps, _ => .none
  | .sat p, c => if p c then .eps else .none
  | .cat r s, c =>
    if nullable r then .alt (.cat (deriv r c) s) (deriv s c) else .cat (deriv r c) s
  | .alt r s, c => .alt (deriv r c) (deriv s c)
  | .star r, c => .cat (deriv r c) (.star r)

/-- Whole-word matching by derivatives. -/
def rmatch : Regex → List Char → Bool
  | r, [] => nullable r
  | r, c :: cs => rmatch (deriv r c) cs

/-- The expression of a literal string. -/
def lit : List Char → Regex
  | [] => .eps
  | c :: cs => .cat (.sat (fun x => x == c)) (lit cs)

/-- One or more repetitions, `r+`. -/
def plus (r : Regex) : Regex := .cat r (.star r)

/-- Exactly `n` repetitions, `r{n}`. -/
def rep (r : Regex) : Nat → Regex
  | 0 => .eps
  | n + 1 => .cat r (rep r n)

/-- Class `.`: any character except a line feed. -/
def dot : Regex := .sat (fun c => c != '\n')

/-- Class `\d`. -/
def digit : Regex := .sat (fun c => '0' ≤ c && c ≤ '9')

/-- Class `[0-9a-f]`. -/
def lowerHex : Regex := .sat (fun c => ('0' ≤ c && c ≤ '9') || ('a' ≤ c && c ≤ 'f'))

end Regex

/-- The flag pattern of the specification, `flag\{.+_\d+_[0-9a-f]{8}\}`. -/
def flagPattern : Regex :=
  .cat (Regex.lit "flag\x7b".toList)
    (.cat (Regex.plus Regex.dot)
      (.cat (Regex.lit ['_'])
        (.cat (Regex.plus Regex.digit)
          (.cat (Regex.lit ['_'])
            (.cat (Regex.rep Regex.lowerHex 8) (Regex.lit ['}']))))))

/-! ## Rows of the authoritative store (`internal/model`) -/

/-- Row of table `challenges` (`model.Challenge`). -/
structure Challenge where
  id : String
  title : String
  description : String
  hint : String
  category : String
  difficulty : String
  image : String
  imageID : String
  port : Int
  memoryLimit : Int
  /-- Field `CPULimit`, a `float64`, held as its IEEE 754 bit pattern. -/
  cpuLimit : Nat
  privileged : Bool
  flag : String
  points : Int
  dockerHostID : String
  status : String
  deriving DecidableEq, Repr

/-- Row of table `docker_hosts` (`model.DockerHost`). -/
structure DockerHost where
  id : String
  name : String
  host : String
  tlsVerify : Bool
  certPath : String
  portRangeMin : Int
  portRangeMax : Int
  memoryLimit : Int
  /-- Field `CPULimit`, a `float64`, held as its IEEE 754 bit pattern
  (`math.Float64bits`). -/
  cpuLimit : Nat
  enabled : Bool
  isDefault : Bool
  deriving DecidableEq, Repr

/-- Row of table `docker_images` (`model.DockerImage`). -/
structure DockerImage where
  id : String
  name : String
  tag : String
  registry : String
  isAvailable : Bool
  deriving DecidableEq, Repr

/-- Row of table `instances` (`model.Instance`); times are Unix seconds. -/
structure Instance where
  id : String
  userID : String
  challengeID : String
  containerID : String
  dockerHostID : String
  flag : String
  port : Int
  status : String
  expiresAt : Int
  createdAt : Int
  deriving DecidableEq, Repr

/-- Row of table `users` (`model.User`). -/
structure User where
  id : String
  username : String
  totalPoints : Int
  deriving DecidableEq, Repr

/-- Row of table `submissions` (`model.Submission`). -/
structure Submission where
  id : String
  userID : String
  challengeID : String
  flag : String
  isCorrect : Bool
  points : Int
  submittedAt : Int
  deriving DecidableEq, Repr

/-- The authoritative store: one list of rows per table. -/
structure DB where
  challenges : List Challenge
  dockerHosts : List DockerHost
  dockerImages : List DockerImage
  instances : List Instance
  users : List User
  submissions : List Submission
  deriving DecidableEq, Repr

/-! ## Keyed collections -/

/-- Value stored under key `k`, if any. -/
def kvGet {β : Type} : List (String × β) → String → Option β
  | [], _ => none
  | p :: m, k => if p.1 = k then some p.2 else kvGet m k

/-- Store `v` under key `k`, replacing what was there. -/
def kvSet {β : Type} (m : List (String × β)) (k : String) (v : β) : List (String × β) :=
  match kvGet m k with
  | some _ => m.map (fun p => if p.1 = k then (k, v) else p)
  | none => m ++ [(k, v)]

/-- Remove key `k`. -/
def kvDel {β : Type} (m : List (String × β)) (k : String) : List (String × β) :=
  m.filter (fun p => decide (p.1 ≠ k))

/-! ## The state index (`internal/infra/redis/redis.go`)

Key `instance:{id}` is entry `id` of `hashes`, key `user_instances:{u}` is
entry `u` of `sets`, and `zset` is the sorted set `expired_instances`. -/

/-- A Redis hash as `HGETALL` returns it, `map[string]string`. -/
abbrev Hash := List (String × String)

/-- Go map read `data[k]`: the empty string for an absent field. -/
def hget (h : Hash) (k : String) : String := (kvGet h k).getD ""

/-- The contents of the state index. -/
structure Redis where
  hashes : List (String × Hash)
  sets : List (String × List String)
  zset : List (String × Int)
  deriving DecidableEq, Repr

/-- Command `HSET key field value [field value ...]`. -/
def Redis.hset (r : Redis) (key : String) (fields : List (String × String)) : Redis :=
  { r with hashes :=
      kvSet r.hashes key (fields.foldl (fun h f => kvSet h f.1 f.2) ((kvGet r.hashes key).getD [])) }

/-- Command `HGETALL key`: the empty map for an absent key. -/
def Redis.hgetall (r : Redis) (key : String) : Hash := (kvGet r.hashes key).getD []

/-- Command `DEL key` on a hash key. -/
def Redis.del (r : Redis) (key : String) : Redis := { r with hashes := kvDel r.hashes key }

/-- Command `SMEMBERS key`. -/
def Redis.smembers (r : Redis) (key : String) : List String := (kvGet r.sets key).getD []

/-- Command `SADD key member`. -/
def Redis.sadd (r : Redis) (key member : String) : Redis :=
  if member ∈ r.smembers key then r
  else { r with sets := kvSet r.sets key (r.smembers key ++ [member]) }

/-- Command `SREM key member`; a set left empty is removed. -/
def Redis.srem (r : Redis) (key member : String) : Redis :=
  let rest := (r.smembers key).filter (fun m => decide (m ≠ member))
  if rest = [] then { r with sets := kvDel r.sets key }
  else { r with sets := kvSet r.sets key rest }

/-- Command `ZADD key score member`. -/
def Redis.zadd (r : Redis) (member : String) (score : Int) : Redis :=
  { r with zset := kvSet r.zset member score }

/-- Command `ZREM key member`. -/
def Redis.zrem (r : Redis) (member : String) : Redis := { r with zset := kvDel r.zset member }

/-- Order of a sorted set: by score, then by member. -/
def zsetLE (a b : String × Int) : Prop := a.2 < b.2 ∨ (a.2 = b.2 ∧ a.1 ≤ b.1)

instance : DecidableRel zsetLE := fun a b => by unfold zsetLE; infer_instance

/-- Command `ZRANGEBYSCORE key -inf max`. -/
def Redis.zrangeByScoreUpTo (r : Redis) (max : Int) : List String :=
  ((r.zset.filter (fun p => decide (p.2 ≤ max))).insertionSort zsetLE).map (·.1)

/-- The map `data` that `StoreInstance` writes with `HSET`. -/
def instanceData (userID challengeID containerID flag : String) (port : Int)
    (expiresAt : Int) : List (String × String) :=
  [("user_id", userID), ("challenge_id", challengeID), ("container_id", containerID),
   ("flag", flag), ("port", toString port), ("expires_at", toString expiresAt)]

/-- Function `StoreInstance`; `now` is the clock that `time.Until` reads. -/
def storeInstance (r : Redis) (instanceID userID challengeID containerID flag : String)
    (port : Int) (expiresAt now : Int) : Result Unit × Redis :=
  let data := instanceData userID challengeID containerID flag port expiresAt
  if expiresAt - now ≤ 0 then (.error "expiry time is in the past", r)
  else (.ok (), ((r.hset instanceID data).sadd userID instanceID).zadd instanceID expiresAt)

/-- Function `GetInstance`. -/
def getInstance (r : Redis) (instanceID : String) : Hash := r.hgetall instanceID

/-- Function `GetUserActiveInstances`. -/
def getUserActiveInstances (r : Redis) (userID : String) : List String := r.smembers userID

/-- Function `DeleteInstance`. -/
def deleteInstance (r : Redis) (instanceID userID : String) : Redis :=
  ((r.del instanceID).srem userID instanceID).zrem instanceID

/-- Function `RemoveFromExpiredSet`. -/
def removeFromExpiredSet (r : Redis) (instanceID : String) : Redis := r.zrem instanceID

/-- Function `GetExpiredInstances`; `now` is `time.Now().Unix()`. -/
def getExpiredInstances (r : Redis) (now : Int) : List String := r.zrangeByScoreUpTo now

/-- The loop of `GetInstanceByUserAndChallenge` over the user's instance ids. -/
def findInstanceData (r : Redis) (challengeID : String) : List String → Option Hash
  | [] => none
  | instanceID :: rest =>
    let data := getInstance r instanceID
    if hget data "challenge_id" = challengeID then some data
    else findInstanceData r challengeID rest

/-- Function `GetInstanceByUserAndChallenge`: `none` is the `nil` map. -/
def getInstanceByUserAndChallenge (r : Redis) (userID challengeID : String) : Option Hash :=
  findInstanceData r challengeID (getUserActiveInstances r userID)

/-! ## Queries on the store (`internal/infra/db/repository.go` and the
`gormDB` calls of the services) -/

/-- Query `First(&challenge, "id = ?", id)`. -/
def DB.firstChallenge (db : DB) (id : String) : Option Challenge :=
  db.challenges.find? (fun c => decide (c.id = id))

/-- Query `First(&instance, "id = ?", id)`. -/
def DB.firstInstance (db : DB) (id : String) : Option Instance :=
  db.instances.find? (fun i => decide (i.id = id))

/-- Query `First(&dockerImg, "id = ?", id)`. -/
def DB.firstDockerImage (db : DB) (id : String) : Option DockerImage :=
  db.dockerImages.find? (fun i => decide (i.id = id))

/-- Method `Repository.GetDockerHostByID`. -/
def getDockerHostByID (db : DB) (id : String) : Result DockerHost :=
  match db.dockerHosts.find? (fun h => decide (h.id = id)) with
  | some host => .ok host
  | none => .error ("Docker 主机不存在: " ++ id)

/-- The row that `First` returns among `rows`: the one with the least
primary key. -/
def firstByID (rows : List DockerHost) : Option DockerHost :=
  rows.foldl (fun acc r =>
    match acc with
    | none => some r
    | some b => if r.id < b.id then some r else some b) none

/-- Method `Repository.GetDefaultDockerHost`. -/
def getDefaultDockerHost (db : DB) : Result DockerHost :=
  match firstByID (db.dockerHosts.filter (fun h => h.isDefault && h.enabled)) with
  | some host => .ok host
  | none => .error "未找到启用的默认 Docker 主机"

/-- Call `gormDB.Create(instance)`: refused when the primary key exists. -/
def DB.createInstance (db : DB) (inst : Instance) : Result Unit × DB :=
  if db.instances.any (fun i => decide (i.id = inst.id)) then
    (.error "duplicate primary key", db)
  else (.ok (), { db with instances := db.instances ++ [inst] })

/-- Call `Model(&model.Instance{}).Where("id = ?", id).Update("status", status)`. -/
def DB.updateInstanceStatus (db : DB) (id status : String) : DB :=
  { db with instances :=
      db.instances.map (fun i => if i.id = id then { i with status := status } else i) }

/-- Call `Model(&model.User{}).Where("id = ?", userID).Update("total_points",
gorm.Expr("total_points + ?", points))`. -/
def DB.addUserPoints (db : DB) (userID : String) (points : Int) : DB :=
  { db with users :=
      db.users.map (fun u =>
        if u.id = userID then { u with totalPoints := u.totalPoints + points } else u) }

/-- Call `gormDB.Create(submission)`: refused when the primary key exists. -/
def DB.createSubmission (db : DB) (sub : Submission) : Result Unit × DB :=
  if db.submissions.any (fun x => decide (x.id = sub.id)) then
    (.error "duplicate primary key", db)
  else (.ok (), { db with submissions := db.submissions ++ [sub] })

/-- Method `DockerImage.GetFullName`. -/
def DockerImage.getFullName (img : DockerImage) : String :=
  sprintf "%s/%s:%s" [.str img.registry, .str img.name, .str img.tag]

/-! ## Container engines (`internal/infra/docker`) -/

/-- Struct `DockerClient`; `endpoint`, `tls` and `certPath` stand for the
connection `cli` it wraps (`endpoint = ""` is the engine of the environment). -/
structure DockerClient where
  endpoint : String
  tls : Bool
  certPath : String
  hostID : String
  portRangeMin : Int
  portRangeMax : Int
  memoryLimit : Int
  /-- Field `cpuLimit`, a `float64`, held as its IEEE 754 bit pattern. -/
  cpuLimit : Nat
  deriving DecidableEq, Repr

/-- A container as created by `ContainerCreate`. -/
structure Container where
  id : String
  image : String
  env : List String
  exposedPort : String
  hostIP : String
  hostPort : String
  memory : Int
  /-- The effective CPU limit in cores, a `float64` held as its IEEE 754 bit
  pattern; the request carries `NanoCPUs = int64(cpu * 1e9)`. -/
  cpu : Nat
  privileged : Bool
  running : Bool
  deriving DecidableEq, Repr

/-- What one call reads from outside the state. -/
structure Env where
  /-- Reading `time.Now().Unix()`. -/
  now : Int
  /-- Source of `crypto/rand` for the flag. -/
  flagRand : List Nat
  /-- Source of `crypto/rand` for the generated id. -/
  idRand : List Nat
  /-- Draw of the `math/rand` generator behind `rand.Intn`. -/
  portRand : Nat
  /-- Whether `client.NewClientWithOpts` returns an error. -/
  newClientFails : Bool
  /-- Whether `EnsureImage` returns an error. -/
  ensureImageFails : Bool
  /-- Answer of `ContainerCreate`: the new container id, or an error. -/
  containerCreate : Option String
  /-- Whether `ContainerStart` returns an error. -/
  containerStartFails : Bool
  /-- Whether `ContainerStop` returns an error on an existing container. -/
  containerStopFails : Bool
  /-- Whether `ContainerRemove` returns an error. -/
  containerRemoveFails : Bool
  deriving DecidableEq, Repr

/-- The whole system: configuration, store, state index, client pool
(`DockerHostManager.clients`) and the containers of every engine, each paired
with the endpoint of its engine. -/
structure State where
  ttlHours : Int
  db : DB
  redis : Redis
  clients : List (String × DockerClient)
  containers : List (String × Container)
  deriving DecidableEq, Repr

/-- Function `rand.Intn(n)`: panics unless `n > 0`. -/
def randIntn (n : Int) (draw : Nat) : Result Int :=
  if n ≤ 0 then .panic "invalid argument to Intn" else .ok ((draw : Int) % n)

/-- Method `DockerClient.AllocatePort`. -/
def DockerClient.allocatePort (d : DockerClient) (draw : Nat) : Result Int :=
  let portRange := wrapInt64 (d.portRangeMax - d.portRangeMin + 1)
  match randIntn portRange draw with
  | .ok n => .ok (wrapInt64 (d.portRangeMin + n))
  | .error m => .error m
  | .panic m => .panic m

/-- Method `DockerHostManager.GetOrCreateClient`. -/
def getOrCreateClient (s : State) (host : DockerHost) (e : Env) : Result DockerClient × State :=
  match kvGet s.clients host.id with
  | some cli => (.ok cli, s)
  | none =>
    if e.newClientFails then (.error "创建 Docker 客户端失败", s)
    else
      let dc : DockerClient :=
        { endpoint := host.host
          tls := host.tlsVerify && decide (host.certPath ≠ "")
          certPath := host.certPath
          hostID := host.id
          portRangeMin := host.portRangeMin
          portRangeMax := host.portRangeMax
          memoryLimit := host.memoryLimit
          cpuLimit := host.cpuLimit }
      (.ok dc, { s with clients := kvSet s.clients host.id dc })

/-- Method `DockerHostManager.RemoveClient`. -/
def removeClient (s : State) (hostID : String) : State :=
  { s with clients := kvDel s.clients hostID }

/-- Whether the engine at `endpoint` has a container `containerID`. -/
def hasContainer (s : State) (endpoint containerID : String) : Bool :=
  s.containers.any (fun p => decide (p.1 = endpoint) && decide (p.2.id = containerID))

/-- Comparison `x > 0` of a `float64` given by its bit pattern: the sign bit
is clear, the value is not zero and it is not a NaN. -/
def floatPositive (bits : Nat) : Bool :=
  decide (0 < bits) && decide (bits ≤ 0x7FF0000000000000)

/-- The container that `ContainerCreate` makes from the request that
`StartContainer` builds: `container.Config` with image, environment and
exposed port, `container.HostConfig` with the resources, the port binding and
the privileged bit. -/
def DockerClient.createdContainer (d : DockerClient) (respID imageName : String)
    (envVars : List String) (containerPort : Int) (privileged : Bool) (memoryLimit : Int)
    (cpuLimit : Nat) (allocatedPort : Int) : Container :=
  let effectiveMemory := if memoryLimit > 0 then memoryLimit else d.memoryLimit
  let effectiveCPU := if floatPositive cpuLimit then cpuLimit else d.cpuLimit
  let portStr := sprintf "%d/tcp" [.int containerPort]
  { id := respID, image := imageName, env := envVars, exposedPort := portStr
    hostIP := "0.0.0.0", hostPort := sprintf "%d" [.int allocatedPort]
    memory := effectiveMemory, cpu := effectiveCPU, privileged := privileged, running := false }

/-- Method `DockerClient.StartContainer`. -/
def DockerClient.startContainer (d : DockerClient) (s : State) (imageName : String)
    (envVars : List String) (containerPort : Int) (privileged : Bool) (memoryLimit : Int)
    (cpuLimit : Nat) (e : Env) : Result (String × Int) × State :=
  if e.ensureImageFails then (.error "镜像准备失败", s)
  else
    match d.allocatePort e.portRand with
    | .panic m => (.panic m, s)
    | .error m => (.error m, s)
    | .ok allocatedPort =>
      match e.containerCreate with
      | none => (.error "容器创建失败", s)
      | some respID =>
        let c := d.createdContainer respID imageName envVars containerPort privileged
          memoryLimit cpuLimit allocatedPort
        if e.containerStartFails then
          (.error "启动容器失败", { s with containers := s.containers ++ [(d.endpoint, c)] })
        else
          (.ok (respID, allocatedPort),
           { s with containers := s.containers ++ [(d.endpoint, { c with running := true })] })

/-- Method `DockerClient.StopContainer`: `ContainerStop`, then
`ContainerRemove` with `Force`. The engine refuses a container it does not
have. -/
def DockerClient.stopContainer (d : DockerClient) (s : State) (containerID : String)
    (e : Env) : Result Unit × State :=
  if !hasContainer s d.endpoint containerID || e.containerStopFails then
    (.error "容器停止失败", s)
  else
    let stopped := s.containers.map (fun p =>
      if p.1 = d.endpoint ∧ p.2.id = containerID then (p.1, { p.2 with running := false }) else p)
    if e.containerRemoveFails then (.error "容器删除失败", { s with containers := stopped })
    else
      let kept := stopped.filter (fun p =>
        !(decide (p.1 = d.endpoint) && decide (p.2.id = containerID)))
      (.ok (), { s with containers := kept })

/-! ## The lifecycle service (`internal/service/challenge_service.go`) -/

/-- Method `ChallengeService.GetChallenge`. -/
def getChallenge (db : DB) (id : String) : Result Challenge :=
  match db.firstChallenge id with
  | some challenge => .ok challenge
  | none => .error "challenge not found"

/-- Seconds of `time.Duration(TTLHours) * time.Hour`, a 64-bit count of
nanoseconds. -/
def ttlSeconds (ttlHours : Int) : Int :=
  wrapInt64 (wrapInt64 ttlHours * 3600000000000) / 1000000000

/-- Message of `StartInstance` for a second instance of one challenge. -/
def alreadyStartedMsg : String := "你已经启动了该题目的实例，请先停止后再重新启动"

/-- Step 3 of `StartInstance`: the host id of the challenge, or the id of the
default host. -/
def resolveHostID (db : DB) (challenge : Challenge) : Result String :=
  if challenge.dockerHostID = "" then
    match getDefaultDockerHost db with
    | .ok defaultHost => .ok defaultHost.id
    | .error m => .error ("未找到默认 Docker 主机: " ++ m)
    | .panic m => .panic m
  else .ok challenge.dockerHostID

/-- Steps 3 and 4 of `StartInstance`: the host row the instance will run on. -/
def chosenHost (db : DB) (ch : Challenge) : Result DockerHost :=
  match resolveHostID db ch with
  | .ok id => getDockerHostByID db id
  | .error m => .error m
  | .panic m => .panic m

/-- Step 8 of `StartInstance`, the image name: the full name of the linked
image row when there is one, otherwise `challenge.Image`. -/
def resolveImageName (db : DB) (challenge : Challenge) : String :=
  if challenge.imageID ≠ "" then
    match db.firstDockerImage challenge.imageID with
    | some dockerImg => dockerImg.getFullName
    | none => challenge.image
  else challenge.image

/-- Step 9 of `StartInstance`: the instance record. -/
def newInstance (ttlHours : Int) (userID challengeID : String) (dockerHost : DockerHost)
    (flag containerID : String) (port : Int) (e : Env) : Instance :=
  { id := generateID e.idRand
    userID := userID
    challengeID := challengeID
    containerID := containerID
    dockerHostID := dockerHost.id
    flag := flag
    port := port
    status := "running"
    expiresAt := e.now + ttlSeconds ttlHours
    createdAt := e.now }

/-- The state after steps 9 and 10 of `StartInstance` went through on `s`: the
index holds the instance and the store has received its row. -/
def recorded (s : State) (inst : Instance) : State :=
  { s with
    redis := ((s.redis.hset inst.id
        (instanceData inst.userID inst.challengeID inst.containerID inst.flag inst.port
          inst.expiresAt)).sadd inst.userID inst.id).zadd inst.id inst.expiresAt
    db := (s.db.createInstance inst).2 }

/-- Steps 9 and 10 of `StartInstance`: the instance record, the write to the
state index (with the rollback of the container when it fails) and the row. -/
def recordInstance (s : State) (userID challengeID : String) (dockerHost : DockerHost)
    (dockerClient : DockerClient) (flag containerID : String) (port : Int) (e : Env) :
    Result Instance × State :=
  let inst := newInstance s.ttlHours userID challengeID dockerHost flag containerID port e
  match storeInstance s.redis inst.id userID challengeID containerID flag port
      inst.expiresAt e.now with
  | (.ok _, redis') =>
    (.ok inst, { s with redis := redis', db := (s.db.createInstance inst).2 })
  | (.error m, _) =>
    (.error ("failed to store instance in Redis: " ++ m),
     (dockerClient.stopContainer s containerID e).2)
  | (.panic m, _) => (.panic m, s)

/-- Steps 6 to 10 of `StartInstance`, on the chosen and enabled host. -/
def startOnHost (s : State) (userID challengeID : String) (challenge : Challenge)
    (dockerHost : DockerHost) (e : Env) : Result Instance × State :=
  match getOrCreateClient s dockerHost e with
  | (.error m, s1) => (.error ("连接 Docker 主机失败: " ++ m), s1)
  | (.panic m, s1) => (.panic m, s1)
  | (.ok dockerClient, s1) =>
    let flag := generateFlag userID e.now e.flagRand
    let imageName := resolveImageName s1.db challenge
    let envVars := [sprintf "FLAG=%s" [.str flag]]
    match dockerClient.startContainer s1 imageName envVars challenge.port
        challenge.privileged challenge.memoryLimit challenge.cpuLimit e with
    | (.error m, s2) => (.error ("failed to start container: " ++ m), s2)
    | (.panic m, s2) => (.panic m, s2)
    | (.ok (containerID, port), s2) =>
      recordInstance s2 userID challengeID dockerHost dockerClient flag containerID port e

/-- Method `ChallengeService.StartInstance`. -/
def startInstance (s : State) (userID challengeID : String) (e : Env) :
    Result Instance × State :=
  match getChallenge s.db challengeID with
  | .error m => (.error ("challenge not found: " ++ m), s)
  | .panic m => (.panic m, s)
  | .ok challenge =>
    match getInstanceByUserAndChallenge s.redis userID challengeID with
    | some _ => (.error alreadyStartedMsg, s)
    | none =>
      match resolveHostID s.db challenge with
      | .error m => (.error m, s)
      | .panic m => (.panic m, s)
      | .ok dockerHostID =>
        match getDockerHostByID s.db dockerHostID with
        | .error m => (.error ("Docker 主机配置不存在: " ++ m), s)
        | .panic m => (.panic m, s)
        | .ok dockerHost =>
          if !dockerHost.enabled then (.error ("Docker 主机已禁用: " ++ dockerHost.name), s)
          else startOnHost s userID challengeID challenge dockerHost e

/-- The loop of `StopInstance` over the user's instance ids: the id of the
first instance of the challenge, or the empty string. -/
def findTargetInstance (r : Redis) (challengeID : String) : List String → String
  | [] => ""
  | instID :: rest =>
    if hget (getInstance r instID) "challenge_id" = challengeID then instID
    else findTargetInstance r challengeID rest

/-- Message of `StopInstance` when the user has no instance of the challenge. -/
def noInstanceMsg : String := "no active instance found for this challenge"

/-- Method `ChallengeService.StopInstance`. -/
def stopInstance (s : State) (userID challengeID : String) (e : Env) : Result Unit × State :=
  let activeInstances := getUserActiveInstances s.redis userID
  let targetInstanceID := findTargetInstance s.redis challengeID activeInstances
  if targetInstanceID = "" then (.error noInstanceMsg, s)
  else
    let instData := getInstance s.redis targetInstanceID
    let containerID := hget instData "container_id"
    match s.db.firstInstance targetInstanceID with
    | none =>
      (.error "instance not found in database: record not found",
       { s with redis := deleteInstance s.redis targetInstanceID userID })
    | some inst =>
      match getDockerHostByID s.db inst.dockerHostID with
      | .error m =>
        (.error ("Docker 主机配置不存在: " ++ m),
         { s with redis := deleteInstance s.redis targetInstanceID userID
                  db := s.db.updateInstanceStatus targetInstanceID "stopped" })
      | .panic m => (.panic m, s)
      | .ok dockerHost =>
        match getOrCreateClient s dockerHost e with
        | (.error m, s1) =>
          (.error ("连接 Docker 主机失败: " ++ m),
           { s1 with redis := deleteInstance s1.redis targetInstanceID userID
                     db := s1.db.updateInstanceStatus targetInstanceID "stopped" })
        | (.panic m, s1) => (.panic m, s1)
        | (.ok dockerClient, s1) =>
          let s2 := (dockerClient.stopContainer s1 containerID e).2
          (.ok (),
           { s2 with redis := deleteInstance s2.redis targetInstanceID userID
                     db := s2.db.updateInstanceStatus targetInstanceID "stopped" })

/-- The loop of `VerifyFlag` over the user's instance ids: the flag of the
first instance of the challenge, or the empty string. -/
def findCorrectFlag (r : Redis) (challengeID : String) : List String → String
  | [] => ""
  | instID :: rest =>
    let instData := getInstance r instID
    if hget instData "challenge_id" = challengeID then hget instData "flag"
    else findCorrectFlag r challengeID rest

/-- Message of `VerifyFlag` when the user has no instance of the challenge. -/
def noActiveInstanceMsg : String := "No active instance found. Please start the challenge first."

/-- Lines 261 to 267 of `VerifyFlag`: the points of the submission and the
store after the award. `challenge` is what `GetChallenge` returned, `none` for
the `nil` pointer, which is dereferenced only for a correct flag. -/
def awardPoints (db : DB) (challenge : Option Challenge) (userID : String)
    (isCorrect : Bool) : Result (Int × DB) :=
  if isCorrect then
    match challenge with
    | some ch => .ok (ch.points, db.addUserPoints userID ch.points)
    | none => .panic "invalid memory address or nil pointer dereference"
  else .ok (0, db)

/-- The Submission row that `VerifyFlag` builds. -/
def newSubmission (userID challengeID submittedFlag : String) (isCorrect : Bool)
    (points : Int) (e : Env) : Submission :=
  { id := generateID e.idRand
    userID := userID
    challengeID := challengeID
    flag := submittedFlag
    isCorrect := isCorrect
    points := points
    submittedAt := e.now }

/-- Method `ChallengeService.VerifyFlag`; the value is the pair
`(isCorrect, message)` returned with a `nil` error. -/
def verifyFlag (s : State) (userID challengeID submittedFlag : String) (e : Env) :
    Result (Bool × String) × State :=
  let activeInstances := getUserActiveInstances s.redis userID
  let correctFlag := findCorrectFlag s.redis challengeID activeInstances
  if correctFlag = "" then (.ok (false, noActiveInstanceMsg), s)
  else
    let isCorrect := decide (correctFlag = submittedFlag)
    match awardPoints s.db (s.db.firstChallenge challengeID) userID isCorrect with
    | .panic m => (.panic m, s)
    | .error m => (.error m, s)
    | .ok (points, db1) =>
      let submission := newSubmission userID challengeID submittedFlag isCorrect points e
      let db2 := (db1.createSubmission submission).2
      if isCorrect then (.ok (true, "回答正确！你获得了积分。"), { s with db := db2 })
      else (.ok (false, "Flag 错误，请重试。"), { s with db := db2 })

/-! ## The reaper (`internal/service/reaper.go`) -/

/-- Method `Reaper.killInstance`. -/
def killInstance (s : State) (instanceID : String) (e : Env) : State :=
  let instData := getInstance s.redis instanceID
  match s.db.firstInstance instanceID with
  | none => { s with redis := removeFromExpiredSet s.redis instanceID }
  | some inst =>
    let containerID :=
      if instData.length > 0 ∧ hget instData "container_id" ≠ "" then
        hget instData "container_id"
      else inst.containerID
    let userID := inst.userID
    match getDockerHostByID s.db inst.dockerHostID with
    | .ok dockerHost =>
      match getOrCreateClient s dockerHost e with
      | (.ok dockerClient, s1) =>
        let s2 := (dockerClient.stopContainer s1 containerID e).2
        { s2 with redis := deleteInstance s2.redis instanceID userID
                  db := s2.db.updateInstanceStatus instanceID "expired" }
      | (_, s1) =>
        { s1 with redis := deleteInstance s1.redis instanceID userID
                  db := s1.db.updateInstanceStatus instanceID "expired" }
    | _ =>
      { s with redis := deleteInstance s.redis instanceID userID
               db := s.db.updateInstanceStatus instanceID "expired" }

/-- Method `Reaper.reapExpiredInstances` at clock reading `now`; `envOf id` is
what the call of `killInstance` for `id` reads from outside. -/
def reapExpiredInstances (s : State) (now : Int) (envOf : String → Env) : State :=
  (getExpiredInstances s.redis now).foldl (fun st id => killInstance st id (envOf id)) s

/-! ## Runs of the system -/

/-- The ids in `user_instances:{u}` that have a hash whose `challenge_id` is
`c`. -/
def liveIds (r : Redis) (u c : String) : List String :=
  (r.smembers u).filter (fun i =>
    match kvGet r.hashes i with
    | some h => decide (hget h "challenge_id" = c)
    | none => false)

/-- The instance rows of `(u, c)` with status `running`. -/
def runningRows (db : DB) (u c : String) : List Instance :=
  db.instances.filter (fun i =>
    decide (i.userID = u) && decide (i.challengeID = c) && decide (i.status = "running"))

/-- The empty state: nothing in the state index, no instance row, no
container, no pooled client. Configuration, challenges, hosts, images and
users are whatever the deployment has. -/
def State.isEmpty (s : State) : Prop :=
  s.redis = { hashes := [], sets := [], zset := [] } ∧ s.db.instances = [] ∧
    s.containers = [] ∧ s.clients = []

instance (s : State) : Decidable s.isEmpty := by unfold State.isEmpty; infer_instance

/-- The id `id` is not in use: no set of the index has it, no hash is stored
under it, no instance row carries it, and the expiry index does not list it. -/
def FreshId (s : State) (id : String) : Prop :=
  (∀ p ∈ s.redis.sets, id ∉ p.2) ∧ kvGet s.redis.hashes id = none ∧
    (∀ i ∈ s.db.instances, i.id ≠ id) ∧ kvGet s.redis.zset id = none

instance (s : State) (id : String) : Decidable (FreshId s id) := by
  unfold FreshId; infer_instance

/-- One call, executed alone: `StartInstance` (whose `generateID` draws an id
that is not in use), `StopInstance`, `VerifyFlag`, or `killInstance` of the
reaper. -/
inductive Step : State → State → Prop where
  | start (s : State) (u c : String) (e : Env) :
      FreshId s (generateID e.idRand) → Step s (startInstance s u c e).2
  | stop (s : State) (u c : String) (e : Env) : Step s (stopInstance s u c e).2
  | verify (s : State) (u c f : String) (e : Env) : Step s (verifyFlag s u c f e).2
  | reap (s : State) (id : String) (e : Env) : Step s (killInstance s id e)

/-- The states that sequences of calls lead to from `s`. -/
def Steps (s s' : State) : Prop := Relation.ReflTransGen Step s s'

/-- The states that sequences of calls lead to from an empty state. -/
def Reachable (s : State) : Prop := ∃ s0 : State, s0.isEmpty ∧ Steps s0 s

/-- Consistency of the state index with the instance rows, kept by every call
that is executed alone. -/
structure Inv (s : State) : Prop where
  index_row : ∀ u, ∀ i ∈ s.redis.smembers u, ∃ h row,
    kvGet s.redis.hashes i = some h ∧ row ∈ s.db.instances ∧ row.id = i ∧ row.userID = u ∧
      row.status = "running" ∧ hget h "challenge_id" = row.challengeID ∧
      hget h "flag" = row.flag
  row_index : ∀ row ∈ s.db.instances, row.status = "running" →
    row.id ∈ s.redis.smembers row.userID
  row_ids : (s.db.instances.map (·.id)).Nodup
  set_nodup : ∀ u, (s.redis.smembers u).Nodup
  one_running : ∀ a ∈ s.db.instances, ∀ b ∈ s.db.instances, a.status = "running" →
    b.status = "running" → a.userID = b.userID → a.challengeID = b.challengeID → a = b

/-- The pooled client of the host, if there is one, carries the port range of
the host row. -/
def poolCoherent (s : State) (host : DockerHost) : Prop :=
  match kvGet s.clients host.id with
  | some cl => cl.portRangeMin = host.portRangeMin ∧ cl.portRangeMax = host.portRangeMax
  | none => True

instance (s : State) (host : DockerHost) : Decidable (poolCoherent s host) := by
  unfold poolCoherent; split <;> infer_instance

/-- The clean-up that `StopInstance` and `killInstance` share once
the instance row is read: host, client, container stop, index entries, row
status. -/
def cleanup (s : State) (instanceID userID containerID hostID status : String) (e : Env) :
    State :=
  match getDockerHostByID s.db hostID with
  | .ok dockerHost =>
    match getOrCreateClient s dockerHost e with
    | (.ok dockerClient, s1) =>
      let s2 := (dockerClient.stopContainer s1 containerID e).2
      { s2 with redis := deleteInstance s2.redis instanceID userID
                db := s2.db.updateInstanceStatus instanceID status }
    | (_, s1) =>
      { s1 with redis := deleteInstance s1.redis instanceID userID
                db := s1.db.updateInstanceStatus instanceID status }
  | _ =>
    { s with redis := deleteInstance s.redis instanceID userID
             db := s.db.updateInstanceStatus instanceID status }

/-! ## Hosts in the store (`internal/infra/db/repository.go`) -/

/-- The row that gorm's `Create` inserts for a host: a column whose model tag
carries a `default` takes that default where the field holds the zero value
(`port_range_min` 20000, `port_range_max` 40000, `memory_limit` 134217728,
`cpu_limit` 0.50, `enabled` true; for `tls_verify` and `is_default` the default
is the zero value itself). -/
def DockerHost.withColumnDefaults (h : DockerHost) : DockerHost :=
  { h with
    portRangeMin := if h.portRangeMin = 0 then 20000 else h.portRangeMin
    portRangeMax := if h.portRangeMax = 0 then 40000 else h.portRangeMax
    memoryLimit := if h.memoryLimit = 0 then 134217728 else h.memoryLimit
    cpuLimit := if h.cpuLimit = 0 then 0x3FE0000000000000 else h.cpuLimit
    enabled := true }

/-- Statement `Model(&model.DockerHost{}).Where("is_default = ?", true).
Update("is_default", false)`. -/
def DB.clearDefaultHosts (db : DB) : DB :=
  { db with dockerHosts :=
      db.dockerHosts.map (fun h => if h.isDefault then { h with isDefault := false } else h) }

/-- Statement `Model(&model.DockerHost{}).Where("is_default = ? AND id != ?",
true, id).Update("is_default", false)`. -/
def DB.clearDefaultHostsExcept (db : DB) (id : String) : DB :=
  { db with dockerHosts :=
      db.dockerHosts.map (fun h =>
        if h.isDefault ∧ h.id ≠ id then { h with isDefault := false } else h) }

/-- Call `Create(host)` on table `docker_hosts`: refused when the primary key
exists. -/
def DB.insertDockerHost (db : DB) (host : DockerHost) : Result Unit × DB :=
  if db.dockerHosts.any (fun h => decide (h.id = host.id)) then
    (.error "duplicate primary key", db)
  else (.ok (), { db with dockerHosts := db.dockerHosts ++ [host.withColumnDefaults] })

/-- Call `Save(host)` on table `docker_hosts`: an insert when the primary key is
the zero value; otherwise every column of the row with that key is written, and
when there is no such row the host is inserted. -/
def DB.saveDockerHost (db : DB) (host : DockerHost) : Result Unit × DB :=
  if host.id = "" then db.insertDockerHost host
  else if db.dockerHosts.any (fun h => decide (h.id = host.id)) then
    (.ok (), { db with dockerHosts :=
      db.dockerHosts.map (fun h => if h.id = host.id then host else h) })
  else (.ok (), { db with dockerHosts := db.dockerHosts ++ [host.withColumnDefaults] })

/-- Method `Repository.CreateDockerHost`. -/
def createDockerHost (db : DB) (host : DockerHost) : Result Unit × DB :=
  let db1 := if host.isDefault then db.clearDefaultHosts else db
  match db1.insertDockerHost host with
  | (.ok _, db2) => (.ok (), db2)
  | (.error m, db2) => (.error ("创建 Docker 主机失败: " ++ m), db2)
  | (.panic m, db2) => (.panic m, db2)

/-- Method `Repository.UpdateDockerHost`. -/
def updateDockerHost (db : DB) (host : DockerHost) : Result Unit × DB :=
  let db1 := if host.isDefault then db.clearDefaultHostsExcept host.id else db
  match db1.saveDockerHost host with
  | (.ok _, db2) => (.ok (), db2)
  | (.error m, db2) => (.error ("更新 Docker 主机失败: " ++ m), db2)
  | (.panic m, db2) => (.panic m, db2)

/-- Method `Repository.DeleteDockerHost`. -/
def deleteDockerHost (db : DB) (id : String) : Result Unit × DB :=
  let count : Int := ((db.challenges.filter (fun c => decide (c.dockerHostID = id))).length : Nat)
  if count > 0 then
    (.error (sprintf "无法删除：有 %d 个题目关联此 Docker 主机" [.int count]), db)
  else (.ok (), { db with dockerHosts := db.dockerHosts.filter (fun h => decide (h.id ≠ id)) })

/-- The host rows with `is_default = true`. -/
def defaultHosts (db : DB) : List DockerHost := db.dockerHosts.filter (fun h => h.isDefault)

/-- Table `docker_hosts` has a primary key: no two rows share an id. -/
def hostKeysUnique (db : DB) : Prop := (db.dockerHosts.map (·.id)).Nodup

instance (db : DB) : Decidable (hostKeysUnique db) := by unfold hostKeysUnique; infer_instance

/-- One call of `CreateDockerHost` or `UpdateDockerHost`, whatever it returns. -/
inductive HostStep : DB → DB → Prop where
  | create (db : DB) (host : DockerHost) : HostStep db (createDockerHost db host).2
  | update (db : DB) (host : DockerHost) : HostStep db (updateDockerHost db host).2

/-- The stores that sequences of host creations and updates lead to. -/
def HostSteps (db db' : DB) : Prop := Relation.ReflTransGen HostStep db db'

/-! ## Administration of challenges (`internal/api/handlers/admin_handler.go`) -/

/-- What a handler answers: the HTTP status with the `code` and `msg` of the
`APIResponse` body. -/
structure APIResponse where
  status : Nat
  code : Int
  msg : String
  deriving DecidableEq, Repr

/-- Struct `CreateChallengeRequest`. -/
structure CreateChallengeRequest where
  title : String
  descriptionHtml : String
  hintHtml : String
  category : String
  difficulty : String
  image : String
  imageID : String
  dockerHostID : String
  port : Int
  memoryLimit : Int
  /-- Field `CPULimit`, a `float64`, held as its IEEE 754 bit pattern. -/
  cpuLimit : Nat
  privileged : Bool
  flag : String
  points : Int
  status : String
  deriving DecidableEq, Repr

/-- Text of one failed `binding` tag, as the validator prints it. -/
def fieldError (field tag : String) : String :=
  sprintf "Key: '%s.%s' Error:Field validation for '%s' failed on the '%s' tag"
    [.str "CreateChallengeRequest", .str field, .str field, .str tag]

/-- Tags `required,oneof=...` on a string field. -/
def checkOneOf (field value : String) (allowed : List String) : List String :=
  if value = "" then [fieldError field "required"]
  else if value ∈ allowed then [] else [fieldError field "oneof"]

/-- The failed `binding` tags of a decoded `CreateChallengeRequest`, in the
order of the fields. -/
def bindingErrors (r : CreateChallengeRequest) : List String :=
  (if r.title = "" then [fieldError "Title" "required"] else []) ++
  checkOneOf "Category" r.category
    ["Web", "Pwn", "Crypto", "Reverse", "Misc", "web", "pwn", "crypto", "reverse", "misc"] ++
  checkOneOf "Difficulty" r.difficulty ["Easy", "Medium", "Hard", "easy", "medium", "hard"] ++
  (if r.port = 0 then [fieldError "Port" "required"] else []) ++
  (if r.points = 0 then [fieldError "Points" "required"] else [])

/-- Call `c.ShouldBindJSON(&req)`: `body` is the request body decoded into the
struct, or the error of the decoder. -/
def shouldBindJSON (body : Except String CreateChallengeRequest) :
    Except String CreateChallengeRequest :=
  match body with
  | .error err => .error err
  | .ok req =>
    if bindingErrors req = [] then .ok req else .error ("\n".intercalate (bindingErrors req))

/-- The row that gorm's `Create` inserts for a challenge: the columns `port`,
`points` and `status` take their defaults where the field holds the zero
value. -/
def Challenge.withColumnDefaults (c : Challenge) : Challenge :=
  { c with
    port := if c.port = 0 then 80 else c.port
    points := if c.points = 0 then 100 else c.points
    status := if c.status = "" then "unpublished" else c.status }

/-- Call `Create(challenge)` on table `challenges`: refused when the primary
key exists. -/
def DB.createChallenge (db : DB) (challenge : Challenge) : Result Unit × DB :=
  if db.challenges.any (fun c => decide (c.id = challenge.id)) then
    (.error "duplicate primary key", db)
  else (.ok (), { db with challenges := db.challenges ++ [challenge.withColumnDefaults] })

/-- Method `DockerImage.GetShortName`. -/
def DockerImage.getShortName (img : DockerImage) : String :=
  sprintf "%s:%s" [.str img.name, .str img.tag]

/-- The challenge that `CreateChallenge` builds from an accepted request. -/
def newChallenge (newID : String) (req : CreateChallengeRequest) (status : String) : Challenge :=
  { id := newID
    title := req.title
    description := req.descriptionHtml
    hint := req.hintHtml
    category := req.category
    difficulty := req.difficulty
    image := req.image
    imageID := req.imageID
    dockerHostID := req.dockerHostID
    port := req.port
    memoryLimit := req.memoryLimit
    cpuLimit := req.cpuLimit
    privileged := req.privileged
    flag := req.flag
    points := req.points
    status := status }

/-- Handler `AdminHandler.CreateChallenge`; `newID` is the string of
`uuid.New()`. -/
def createChallenge (db : DB) (body : Except String CreateChallengeRequest) (newID : String) :
    APIResponse × DB :=
  match shouldBindJSON body with
  | .error err => (⟨400, 400, "Invalid request format: " ++ err⟩, db)
  | .ok req =>
    if req.flag = "" then (⟨400, 400, "Flag 不能为空"⟩, db)
    else if req.image = "" ∧ req.imageID = "" then (⟨400, 400, "必须指定镜像或镜像ID"⟩, db)
    else if req.points < 1 ∨ req.points > 10000 then (⟨400, 400, "分值必须在 1-10000 之间"⟩, db)
    else if req.port < 1 ∨ req.port > 65535 then (⟨400, 400, "端口必须在 1-65535 之间"⟩, db)
    else
      let status := if req.status = "" then "unpublished" else req.status
      if status ≠ "published" ∧ status ≠ "unpublished" then
        (⟨400, 400, "状态必须是 published 或 unpublished"⟩, db)
      else
        let challenge := newChallenge newID req status
        match db.createChallenge challenge with
        | (.ok _, db1) => (⟨200, 200, "Challenge created successfully"⟩, db1)
        | (_, db1) => (⟨500, 500, "创建失败"⟩, db1)

/-- Lines 266 to 272 of `UpdateChallenge`: the image name of the request, or
the short name of the image row that the request links. -/
def filledImageName (db : DB) (req : CreateChallengeRequest) : String :=
  if req.imageID ≠ "" then
    match db.firstDockerImage req.imageID with
    | some dockerImage => dockerImage.getShortName
    | none => req.image
  else req.image

/-- Lines 274 to 288 of `UpdateChallenge`: the image name that the update will
write, or `none` where the handler answers that the name is empty. -/
def updatedImageName (db : DB) (existing : Challenge) (req : CreateChallengeRequest) :
    Option String :=
  let image := filledImageName db req
  if image = "" then
    if existing.image ≠ "" ∧ req.imageID = "" then some existing.image else none
  else some image

/-- Call `Model(&existing).Updates(updates)` of `UpdateChallenge`: the columns
of the map are written on the row whose key is `existing.ID`. -/
def DB.updateChallenge (db : DB) (existing : Challenge) (req : CreateChallengeRequest)
    (image : String) : DB :=
  { db with challenges :=
      db.challenges.map (fun c =>
        if c.id = existing.id then
          { c with
            title := req.title
            description := req.descriptionHtml
            hint := req.hintHtml
            category := req.category
            difficulty := req.difficulty
            image := image
            imageID := req.imageID
            dockerHostID := req.dockerHostID
            port := req.port
            memoryLimit := req.memoryLimit
            cpuLimit := req.cpuLimit
            privileged := req.privileged
            flag := req.flag
            points := req.points
            status := if req.status ≠ "" then req.status else c.status }
        else c) }

/-- Handler `AdminHandler.UpdateChallenge`. -/
def updateChallenge (db : DB) (challengeID : String)
    (body : Except String CreateChallengeRequest) : APIResponse × DB :=
  match shouldBindJSON body with
  | .error err => (⟨400, 400, "Invalid request format: " ++ err⟩, db)
  | .ok req =>
    if req.points < 1 ∨ req.points > 10000 then (⟨400, 400, "分值必须在 1-10000 之间"⟩, db)
    else if req.port < 1 ∨ req.port > 65535 then (⟨400, 400, "端口必须在 1-65535 之间"⟩, db)
    else
      match db.firstChallenge challengeID with
      | none => (⟨404, 404, "题目不存在"⟩, db)
      | some existing =>
        match updatedImageName db existing req with
        | none => (⟨400, 400, "镜像名称不能为空"⟩, db)
        | some image => (⟨200, 200, "Challenge updated successfully"⟩,
            db.updateChallenge existing req image)

/-- Handler `AdminHandler.DeleteChallenge`. -/
def deleteChallenge (db : DB) (challengeID : String) : APIResponse × DB :=
  let runningCount := (db.instances.filter (fun i =>
    decide (i.challengeID = challengeID) && decide (i.status = "running"))).length
  if runningCount > 0 then (⟨400, 400, "该题目有正在运行的实例，无法删除"⟩, db)
  else
    (⟨200, 200, "Challenge deleted successfully"⟩,
     { db with challenges := db.challenges.filter (fun c => decide (c.id ≠ challengeID)) })

/-- The invariant of a challenge row in the specification: points from 1 to
10000, container port from 1 to 65535, and an image name or an image id. -/
def challengeRowValid (c : Challenge) : Prop :=
  1 ≤ c.points ∧ c.points ≤ 10000 ∧ 1 ≤ c.port ∧ c.port ≤ 65535 ∧
    (c.image ≠ "" ∨ c.imageID ≠ "")

instance (c : Challenge) : Decidable (challengeRowValid c) := by
  unfold challengeRowValid; infer_instance

/-- A request breaks the invariant of the specification. -/
def requestViolates (r : CreateChallengeRequest) : Prop :=
  r.points < 1 ∨ 10000 < r.points ∨ r.port < 1 ∨ 65535 < r.port ∨
    (r.image = "" ∧ r.imageID = "")

instance (r : CreateChallengeRequest) : Decidable (requestViolates r) := by
  unfold requestViolates; infer_instance

/-! ## The request log queue (`internal/infra/logstore/log_store.go`) -/

/-- Row of table `api_logs` (`model.APILog`). -/
structure APILog where
  id : String
  traceID : String
  method : String
  path : String
  status : Int
  latencyMs : Int
  ip : String
  userAgent : String
  userID : String
  errorMessage : String
  requestBody : String
  responseBody : String
  deriving DecidableEq, Repr

/-- A buffered Go channel of log entries: its capacity, the buffered entries
(oldest first) and whether it has been closed. -/
structure LogChan where
  cap : Nat
  buf : List APILog
  closed : Bool
  deriving DecidableEq, Repr

/-- Struct `MySQLLogStore`; `flushInterval` is in seconds and `stopChanClosed`
says whether `stopChan` has been closed. -/
structure MySQLLogStore where
  logChan : LogChan
  batchSize : Nat
  flushInterval : Nat
  stopChanClosed : Bool
  deriving DecidableEq, Repr

/-- Function `NewMySQLLogStore`. -/
def newMySQLLogStore : MySQLLogStore :=
  { logChan := { cap := 1000, buf := [], closed := false }
    batchSize := 100
    flushInterval := 5
    stopChanClosed := false }

/-- Method `MySQLLogStore.Store`; `newID` is the string of `uuid.New()`. The
value lists the warnings that the call logs. A send on a closed channel
panics; otherwise the `select` sends when the buffer has room and takes the
`default` branch when it is full. -/
def MySQLLogStore.store (s : MySQLLogStore) (log : APILog) (newID : String) :
    Result (List String) × MySQLLogStore :=
  let log1 := if log.id = "" then { log with id := newID } else log
  if s.logChan.closed then (.panic "send on closed channel", s)
  else if s.logChan.buf.length < s.logChan.cap then
    (.ok [], { s with logChan := { s.logChan with buf := s.logChan.buf ++ [log1] } })
  else (.ok ["LogStore: channel full, dropping log"], s)

/-! ## The batch writer of the log store (`internal/infra/logstore/log_store.go`) -/

/-- Call `CreateInBatches(batch, len(batch))` on table `api_logs`: one insert
of all the rows, refused (`none`) when a primary key is in the table already
or occurs twice in the batch. -/
def insertLogBatch (table batch : List APILog) : Option (List APILog) :=
  if (batch.map (·.id)).Nodup ∧ ∀ l ∈ batch, l.id ∉ table.map (·.id) then some (table ++ batch)
  else none

/-- The log store with its writer goroutine and the table it writes:
`batch` is the local slice of `batchWriter`, `table` is `api_logs`, and
`writerDone` says that `batchWriter` has returned. -/
structure LogSystem where
  store : MySQLLogStore
  batch : List APILog
  table : List APILog
  writerDone : Bool
  deriving DecidableEq, Repr

/-- Function `NewMySQLLogStore` with the writer it starts, over a table. -/
def newLogSystem (table : List APILog) : LogSystem :=
  { store := newMySQLLogStore, batch := [], table := table, writerDone := false }

/-- Closure `flush` of `batchWriter`; the flag says that no insert failed. A
batch whose insert fails is dropped. -/
def LogSystem.flush (sys : LogSystem) : LogSystem × Bool :=
  if sys.batch.length = 0 then (sys, true)
  else
    match insertLogBatch sys.table sys.batch with
    | some table1 => ({ sys with table := table1, batch := [] }, true)
    | none => ({ sys with batch := [] }, false)

/-- What can happen to the log store while it runs: a request calls `Store`,
the writer receives one entry from the channel, or the ticker of the writer
fires. -/
inductive LogEvent where
  | store (log : APILog) (newID : String)
  | receive
  | tick
  deriving DecidableEq, Repr

/-- The entries that one `Store` call puts into the queue. -/
def MySQLLogStore.enqueued (s : MySQLLogStore) (log : APILog) (newID : String) : List APILog :=
  (s.store log newID).2.logChan.buf.drop s.logChan.buf.length

/-- One event; the flag says that no insert failed. The cases `receive` and
`tick` are the first two cases of the `select` in `batchWriter`. -/
def LogSystem.step (sys : LogSystem) : LogEvent → LogSystem × Bool
  | .store log newID => ({ sys with store := (sys.store.store log newID).2 }, true)
  | .receive =>
    if sys.writerDone then (sys, true)
    else
      match sys.store.logChan.buf with
      | [] => (sys, true)
      | log :: rest =>
        let sys1 : LogSystem :=
          { sys with
            store := { sys.store with logChan := { sys.store.logChan with buf := rest } }
            batch := sys.batch ++ [log] }
        if sys1.batch.length ≥ sys1.store.batchSize then sys1.flush else (sys1, true)
  | .tick => if sys.writerDone then (sys, true) else sys.flush

/-- A sequence of events; the flag says that no insert failed. -/
def LogSystem.run (sys : LogSystem) : List LogEvent → LogSystem × Bool
  | [] => (sys, true)
  | ev :: evs => (((sys.step ev).1.run evs).1, (sys.step ev).2 && ((sys.step ev).1.run evs).2)

/-- The entries accepted into the queue along a sequence of events, in the
order of their acceptance. -/
def LogSystem.accepted (sys : LogSystem) : List LogEvent → List APILog
  | [] => []
  | .store log newID :: evs =>
    sys.store.enqueued log newID ++ (sys.step (.store log newID)).1.accepted evs
  | .receive :: evs => (sys.step .receive).1.accepted evs
  | .tick :: evs => (sys.step .tick).1.accepted evs

/-- The stop case of the `select` in `batchWriter`, up to its flush: the
writer closes the channel and folds the entries left in it into the batch. -/
def LogSystem.drain (sys : LogSystem) : LogSystem :=
  { sys with
    store := { sys.store with logChan := { sys.store.logChan with buf := [], closed := true } }
    batch := sys.batch ++ sys.store.logChan.buf }

/-- Method `MySQLLogStore.Shutdown`: `close(s.stopChan)`, then `wg.Wait()`
while the writer takes the stop case of its `select`: it drains the channel,
flushes once and returns. What the writer receives or flushes before it takes
the stop case counts as events before the call. The flag says that the insert
did not fail. -/
def LogSystem.shutdown (sys : LogSystem) : Result Unit × LogSystem × Bool :=
  if sys.store.stopChanClosed then (.panic "close of closed channel", sys, true)
  else
    let stopped : LogSystem := { sys with store := { sys.store with stopChanClosed := true } }
    (.ok (), { stopped.drain.flush.1 with writerDone := true }, stopped.drain.flush.2)

/-! ## Reaper and log cleaner as `main` stops them -/

/-- The ticker and the stop channel of struct `Reaper`. -/
structure Reaper where
  tickerStopped : Bool
  stopChanClosed : Bool
  deriving DecidableEq, Repr

/-- Function `NewReaper`. -/
def newReaper : Reaper := { tickerStopped := false, stopChanClosed := false }

/-- Method `Reaper.Stop`: `r.ticker.Stop()`, then `close(r.stopChan)`; closing
a closed channel panics. -/
def Reaper.stop (r : Reaper) : Result Unit × Reaper :=
  let r1 := { r with tickerStopped := true }
  if r1.stopChanClosed then (.panic "close of closed channel", r1)
  else (.ok (), { r1 with stopChanClosed := true })

/-- Struct `LogCleaner`. -/
structure LogCleaner where
  retentionDays : Int
  tickerStopped : Bool
  stopChanClosed : Bool
  deriving DecidableEq, Repr

/-- Function `NewLogCleaner`. -/
def newLogCleaner (retentionDays : Int) : LogCleaner :=
  { retentionDays := if retentionDays ≤ 0 then 7 else retentionDays
    tickerStopped := false, stopChanClosed := false }

/-- Method `LogCleaner.Stop`. -/
def LogCleaner.stop (c : LogCleaner) : Result Unit × LogCleaner :=
  let c1 := { c with tickerStopped := true }
  if c1.stopChanClosed then (.panic "close of closed channel", c1)
  else (.ok (), { c1 with stopChanClosed := true })

/-- The services that `main` stops. -/
structure Services where
  reaper : Reaper
  logCleaner : LogCleaner
  logs : LogSystem
  deriving DecidableEq, Repr

/-- The end of `main` after the signal: `reaper.Stop()`, `logCleaner.Stop()`,
`logStore.Shutdown()`, and on return the deferred `reaper.Stop()`. The value
names the step that panicked, if one did. -/
def shutdownSequence (sv : Services) : Result Unit × Services :=
  match sv.reaper.stop with
  | (.panic m, r1) => (.panic ("reaper.Stop: " ++ m), { sv with reaper := r1 })
  | (.error m, r1) => (.error m, { sv with reaper := r1 })
  | (.ok _, r1) =>
    match sv.logCleaner.stop with
    | (.panic m, c1) =>
      (.panic ("logCleaner.Stop: " ++ m), { sv with reaper := r1, logCleaner := c1 })
    | (.error m, c1) => (.error m, { sv with reaper := r1, logCleaner := c1 })
    | (.ok _, c1) =>
      match sv.logs.shutdown with
      | (.panic m, l1, _) =>
        (.panic ("logStore.Shutdown: " ++ m), { reaper := r1, logCleaner := c1, logs := l1 })
      | (.error m, l1, _) => (.error m, { reaper := r1, logCleaner := c1, logs := l1 })
      | (.ok _, l1, _) =>
        match r1.stop with
        | (.panic m, r2) =>
          (.panic ("deferred reaper.Stop: " ++ m), { reaper := r2, logCleaner := c1, logs := l1 })
        | (.error m, r2) => (.error m, { reaper := r2, logCleaner := c1, logs := l1 })
        | (.ok _, r2) => (.ok (), { reaper := r2, logCleaner := c1, logs := l1 })

/-! ## Bodies in the request log (`internal/api/middleware/logger.go`) -/

/-- The marker `"...(truncated)"` as bytes. -/
def truncationMarker : List Nat := "...(truncated)".toList.map Char.toNat

/-- The body that `LoggerMiddleware` records for a body of bytes `b`: `b`
when `len(b) <= 4096`, otherwise `b[:4096]` with the marker appended. -/
def truncateBody (b : List Nat) : List Nat :=
  if b.length > 4096 then b.take 4096 ++ truncationMarker else b

/-- The request body recorded: empty when `c.Request.Body` is nil. -/
def recordedRequestBody (body : Option (List Nat)) : List Nat :=
  match body with
  | some bodyBytes => truncateBody bodyBytes
  | none => []

/-- The response body recorded, from what the handler wrote. -/
def recordedResponseBody (respBody : List Nat) : List Nat := truncateBody respBody

/-- The log store is running: nothing is closed, the writer has not returned,
and the batch is below the flush size of `NewMySQLLogStore`. -/
def LogSystem.Running (sys : LogSystem) : Prop :=
  sys.store.logChan.closed = false ∧ sys.store.stopChanClosed = false ∧ sys.writerDone = false ∧
    sys.store.batchSize = 100 ∧ sys.batch.length < 100

/-- Everything the log store holds, oldest first: the table, then the batch
of the writer, then the queue. -/
def LogSystem.content (sys : LogSystem) : List APILog :=
  sys.table ++ sys.batch ++ sys.store.logChan.buf

/-! ## Functions of package `strings` and `bufio`, on the characters of a string

The separators and the marker that the repository passes are ASCII, so
splitting the characters agrees with splitting the bytes. -/

/-- Function `strings.Contains(s, substr)`. -/
def stringsContains (s substr : List Char) : Bool :=
  s.tails.any (fun t => substr.isPrefixOf t)

/-- The part of `s` before the first `sep` and, when there is one, the part
after it. -/
def cutAt (sep : Char) : List Char → List Char × Option (List Char)
  | [] => ([], none)
  | c :: cs =>
    if c = sep then ([], some cs)
    else ((c :: (cutAt sep cs).1), (cutAt sep cs).2)

/-- Function `strings.SplitN(s, sep, 2)` for a separator of one character. -/
def stringsSplitN2 (s : List Char) (sep : Char) : List (List Char) :=
  match cutAt sep s with
  | (before, some after) => [before, after]
  | (before, none) => [before]

/-- Function `strings.Split(s, sep)` for a separator of one character. -/
def stringsSplit : List Char → Char → List (List Char)
  | [], _ => [[]]
  | c :: cs, sep =>
    if c = sep then [] :: stringsSplit cs sep
    else
      match stringsSplit cs sep with
      | [] => [[c]]
      | part :: parts => (c :: part) :: parts

/-- Function `unicode.IsSpace`. -/
def isSpace (c : Char) : Bool :=
  let n := c.toNat
  (decide (0x09 ≤ n) && decide (n ≤ 0x0D)) || n == 0x20 || n == 0x85 || n == 0xA0 ||
    n == 0x1680 || (decide (0x2000 ≤ n) && decide (n ≤ 0x200A)) || n == 0x2028 ||
    n == 0x2029 || n == 0x202F || n == 0x205F || n == 0x3000

/-- Function `strings.TrimSpace`. -/
def stringsTrimSpace (s : List Char) : List Char :=
  ((s.dropWhile isSpace).reverse.dropWhile isSpace).reverse

/-- One line without the carriage return that may end it (`dropCR`). -/
def dropCR (line : List Char) : List Char :=
  match line.reverse with
  | '\r' :: rest => rest.reverse
  | _ => line

/-- The tokens of a `bufio.Scanner` with the default split function
`ScanLines`, for lines below the token limit of the scanner: the text is cut
at each newline, a final line needs no newline, and no empty line follows the
last newline. -/
def scanLines (s : List Char) : List (List Char) :=
  let parts := stringsSplit s '\n'
  (if parts.getLast? = some [] then parts.dropLast else parts).map dropCR

/-! ## Images (`internal/service/image_service.go`) -/

/-- One step of the search for the row with the least primary key. -/
def pickLeast {α : Type} (key : α → String) (best : Option α) (row : α) : Option α :=
  match best with
  | none => some row
  | some b => if key row < key b then some row else some b

/-- Call `First(&row)` after `Where(...)`: of the rows that match, the one
with the least primary key. -/
def firstMatch {α : Type} (key : α → String) (p : α → Bool) (rows : List α) : Option α :=
  (rows.filter p).foldl (pickLeast key) none

/-- Method `Repository.GetImageByName`; `none` is the error return. -/
def DB.getImageByName (db : DB) (name tag : String) : Option DockerImage :=
  firstMatch (·.id) (fun i => decide (i.name = name) && decide (i.tag = tag)) db.dockerImages

/-- The row that `Create` writes for an image: a column that has a default in
the `gorm` tag takes it when the field holds the zero value (`tag` latest,
`registry` localhost:5000, `is_available` true). -/
def DockerImage.withColumnDefaults (img : DockerImage) : DockerImage :=
  { img with
    tag := if img.tag = "" then "latest" else img.tag
    registry := if img.registry = "" then "localhost:5000" else img.registry
    isAvailable := true }

/-- Method `Repository.CreateImage`: refused when the primary key exists. -/
def DB.createImage (db : DB) (img : DockerImage) : Result Unit × DB :=
  if db.dockerImages.any (fun i => decide (i.id = img.id)) then
    (.error "创建镜像失败: duplicate primary key", db)
  else (.ok (), { db with dockerImages := db.dockerImages ++ [img.withColumnDefaults] })

/-- Method `Repository.UpdateImage`, a `Save`: an insert when the primary key
is the zero value; otherwise every column of the row with that key is written,
and when there is no such row the image is inserted. -/
def DB.updateImage (db : DB) (img : DockerImage) : Result Unit × DB :=
  if img.id = "" then
    match db.createImage img with
    | (.ok _, db1) => (.ok (), db1)
    | (_, db1) => (.error "更新镜像失败: duplicate primary key", db1)
  else if db.dockerImages.any (fun i => decide (i.id = img.id)) then
    (.ok (), { db with dockerImages :=
      db.dockerImages.map (fun i => if i.id = img.id then img else i) })
  else (.ok (), { db with dockerImages := db.dockerImages ++ [img.withColumnDefaults] })

/-- Answer of the registry to `GET /v2/_catalog`: no connection, a status
other than 200 with its body, a body that does not decode, or the
repositories. -/
inductive CatalogResponse where
  | unreachable (err : String)
  | status (status body : String)
  | undecodable (err : String)
  | ok (repositories : List String)
  deriving Repr

/-- What a registry answers: the catalog, and for a repository its tags, with
`none` when the request fails, the status is not 200 or the body does not
decode. -/
structure Registry where
  catalog : CatalogResponse
  tags : String → Option (List String)

/-- The variables of the loops of `SyncFromRegistry`: the store, the counter
`syncedCount`, and how many ids `uuid.New()` has handed out. -/
structure SyncState where
  db : DB
  syncedCount : Nat
  drawn : Nat
  deriving DecidableEq, Repr

/-- The body of the inner loop of `SyncFromRegistry` for one tag; `ids k` is
the string of the call number `k` of `uuid.New()`. -/
def syncTag (ids : Nat → String) (repo : String) (st : SyncState) (tag : String) : SyncState :=
  match st.db.getImageByName repo tag with
  | some _ => st
  | none =>
    let image : DockerImage :=
      { id := ids st.drawn, name := repo, tag := tag, registry := "localhost:5000"
        isAvailable := true }
    match st.db.createImage image with
    | (.ok _, db1) => { db := db1, syncedCount := st.syncedCount + 1, drawn := st.drawn + 1 }
    | (_, db1) => { db := db1, syncedCount := st.syncedCount, drawn := st.drawn + 1 }

/-- The body of the outer loop of `SyncFromRegistry` for one repository. -/
def syncRepo (ids : Nat → String) (tags : String → Option (List String)) (st : SyncState)
    (repo : String) : SyncState :=
  match tags repo with
  | none => st
  | some ts => ts.foldl (syncTag ids repo) st

/-- Method `ImageService.SyncFromRegistry`. -/
def syncFromRegistry (db : DB) (registry : Registry) (ids : Nat → String) : Result Nat × DB :=
  match registry.catalog with
  | .unreachable err => (.error ("无法连接到 Registry: " ++ err), db)
  | .status status body => (.error (sprintf "Registry 返回错误: %s - %s" [.str status, .str body]), db)
  | .undecodable err => (.error ("解析 Registry 响应失败: " ++ err), db)
  | .ok repositories =>
    let st := repositories.foldl (syncRepo ids registry.tags)
      { db := db, syncedCount := 0, drawn := 0 }
    (.ok st.syncedCount, st.db)

/-- The two loops of `SyncFromRegistry` as one loop over the listed pairs. -/
def syncPair (ids : Nat → String) (st : SyncState) (p : String × String) : SyncState :=
  syncTag ids p.1 st p.2

/-- The `(repo, tag)` pairs of one repository; one without a tag list has
none. -/
def repoPairs (tags : String → Option (List String)) (repo : String) : List (String × String) :=
  match tags repo with
  | none => []
  | some ts => ts.map (fun tag => (repo, tag))

/-- The `(repo, tag)` pairs that a registry lists, in the order of the
listing. -/
def listedPairs (registry : Registry) : List (String × String) :=
  match registry.catalog with
  | .ok repositories => repositories.flatMap (repoPairs registry.tags)
  | _ => []

/-- The distinct listed pairs that no row of the image table matches. -/
def missingPairs (db : DB) (registry : Registry) : List (String × String) :=
  ((listedPairs registry).filter (fun p => (db.getImageByName p.1 p.2).isNone)).dedup

/-- Name and tag of an image row. -/
def pairOf (img : DockerImage) : String × String := (img.name, img.tag)

/-- The pairs of `ps` that are not in `seen`, each once, in the order of their
first occurrence. -/
def newPairs (seen : List (String × String)) : List (String × String) → List (String × String)
  | [] => []
  | p :: ps => if p ∈ seen then newPairs seen ps else p :: newPairs (seen ++ [p]) ps

/-- What `ImportFromTar` reads from outside: the combined output of
`docker load` and whether it failed, whether `docker tag` and `docker push`
fail, and the string of `uuid.New()`. -/
structure ImportEnv where
  loadOutput : String
  loadFails : Bool
  tagFails : Bool
  pushFails : Bool
  newID : String
  deriving DecidableEq, Repr

/-- Struct `ImportResult`. -/
structure ImportResult where
  imageName : String
  registryTag : String
  pushed : Bool
  deriving DecidableEq, Repr

/-- The body of the loop of the scanner in `ImportFromTar` for one line. -/
def loadedImageStep (loadedImage : String) (line : List Char) : String :=
  if stringsContains line "Loaded image:".toList then
    match stringsSplitN2 line ':' with
    | _ :: part :: _ => String.mk (stringsTrimSpace part)
    | _ => loadedImage
  else loadedImage

/-- Step 2 of `ImportFromTar`: the loop of the scanner over the output. -/
def loadedImageOf (loadOutput : String) : String :=
  (scanLines loadOutput.toList).foldl loadedImageStep ""

/-- Step 3 of `ImportFromTar`: name and tag of the loaded image. -/
def imageNameAndTag (loadedImage : String) : String × String :=
  let split : String × String :=
    if stringsContains loadedImage.toList [':'] then
      match stringsSplitN2 loadedImage.toList ':' with
      | name :: tag :: _ => (String.mk name, String.mk tag)
      | _ => (loadedImage, "latest")
    else (loadedImage, "latest")
  let imageName :=
    if stringsContains split.1.toList ['/'] then
      String.mk (((stringsSplit split.1.toList '/').getLast?).getD [])
    else split.1
  (imageName, split.2)

/-- Method `ImageService.ImportFromTar`. The third component lists the `docker`
commands that the call runs, in order. -/
def importFromTar (db : DB) (tarFilePath : String) (e : ImportEnv) :
    Result ImportResult × DB × List (List String) :=
  let loadCmd := ["docker", "load", "-i", tarFilePath]
  if e.loadFails then (.error ("docker load 失败: " ++ e.loadOutput), db, [loadCmd])
  else
    let loadedImage := loadedImageOf e.loadOutput
    if loadedImage = "" then
      (.error ("无法解析镜像名，docker load 输出: " ++ e.loadOutput), db, [loadCmd])
    else
      let imageName := (imageNameAndTag loadedImage).1
      let imageTag := (imageNameAndTag loadedImage).2
      let registryHost := "localhost:5000"
      let registryTag := sprintf "%s/%s:%s" [.str registryHost, .str imageName, .str imageTag]
      let tagCmd := ["docker", "tag", loadedImage, registryTag]
      if e.tagFails then (.error "docker tag 失败", db, [loadCmd, tagCmd])
      else
        let pushCmd := ["docker", "push", registryTag]
        if e.pushFails then (.error "docker push 失败", db, [loadCmd, tagCmd, pushCmd])
        else
          let img : DockerImage :=
            { id := e.newID, name := imageName, tag := imageTag, registry := registryHost
              isAvailable := true }
          let db1 :=
            match db.getImageByName imageName imageTag with
            | none => (db.createImage img).2
            | some existing => (db.updateImage existing).2
          (.ok { imageName := loadedImage, registryTag := registryTag, pushed := true }, db1,
            [loadCmd, tagCmd, pushCmd])

/-! ## Operator tokens (`pkg/jwt/jwt.go`)

Package `github.com/golang-jwt/jwt/v5` is not part of the repository. Its
encodings and its HMAC are parameters (`JWTLib`); the order of the steps of
`Token.SignedString` and of `Parser.ParseWithClaims` is written out. -/

/-- Struct `AdminClaims` with the timing claims of `jwt.RegisteredClaims` that
the repository sets; a `jwt.NumericDate` is a number of whole seconds, `none`
is the nil pointer. -/
structure AdminClaims where
  adminID : String
  username : String
  expiresAt : Option Int
  issuedAt : Option Int
  notBefore : Option Int
  deriving DecidableEq, Repr

/-- What the token functions take from the library: the segment of a header
with a given `alg` and of a set of claims, their decoders, and signing and
verifying of a signing string (`SigningMethod.Sign`, `SigningMethod.Verify`)
under a key. -/
structure JWTLib where
  encodeHeader : String → String
  decodeHeader : String → Option String
  encodeClaims : AdminClaims → String
  decodeClaims : String → Option AdminClaims
  sign : String → String → List Nat → String
  verify : String → String → String → List Nat → Bool

/-- The names under which the library registers a signing method. -/
def signingMethods : List String :=
  ["HS256", "HS384", "HS512", "RS256", "RS384", "RS512", "ES256", "ES384", "ES512",
   "PS256", "PS384", "PS512", "EdDSA", "none"]

/-- The signing methods of type `*jwt.SigningMethodHMAC`. -/
def hmacMethods : List String := ["HS256", "HS384", "HS512"]

/-- Function `GenerateAdminToken`; `tExp`, `tIat` and `tNbf` are the readings
of its three calls of `time.Now()`, in whole seconds. The token is the signing
string `header.claims`, a dot and the signature. -/
def generateAdminToken (lib : JWTLib) (jwtSecret : List Nat) (adminID username : String)
    (tExp tIat tNbf : Int) : Result String :=
  let claims : AdminClaims :=
    { adminID := adminID, username := username
      expiresAt := some (tExp + 24 * 3600), issuedAt := some tIat, notBefore := some tNbf }
  let signingString := lib.encodeHeader "HS256" ++ "." ++ lib.encodeClaims claims
  .ok (signingString ++ "." ++ lib.sign "HS256" signingString jwtSecret)

/-- The check of the timing claims by the validator of the library at clock
reading `now`: `now` must lie before `exp` and not before `nbf`; `iat` is not
checked. The value is the error, if any. -/
def validateClaims (claims : AdminClaims) (now : Int) : Option String :=
  if claims.expiresAt.any (fun exp => decide (¬ now < exp)) then
    some "token has invalid claims: token is expired"
  else if claims.notBefore.any (fun nbf => decide (now < nbf)) then
    some "token has invalid claims: token is not valid yet"
  else none

/-- Function `ParseAdminToken` at clock reading `now`: `ParseWithClaims` cuts
the token into three segments, decodes header and claims, looks up the signing
method, calls the key function of the repository (which accepts the HMAC
methods only), verifies the signature and validates the claims. -/
def parseAdminToken (lib : JWTLib) (jwtSecret : List Nat) (tokenString : String) (now : Int) :
    Result AdminClaims :=
  match stringsSplit tokenString.toList '.' with
  | [header, claimsSeg, signature] =>
    match lib.decodeHeader (String.mk header) with
    | none => .error "token is malformed: could not decode header"
    | some alg =>
      match lib.decodeClaims (String.mk claimsSeg) with
      | none => .error "token is malformed: could not decode claim"
      | some claims =>
        if alg ∉ signingMethods then
          .error "token is unverifiable: signing method (alg) is unavailable"
        else if alg ∉ hmacMethods then
          .error ("token is unverifiable: error while executing keyfunc: " ++
            sprintf "unexpected signing method: %s" [.str alg])
        else if !lib.verify alg (String.mk header ++ "." ++ String.mk claimsSeg)
            (String.mk signature) jwtSecret then
          .error "token signature is invalid: signature is invalid"
        else
          match validateClaims claims now with
          | some err => .error err
          | none => .ok claims
  | _ => .error "token is malformed: token contains an invalid number of segments"

/-- What the round trip of one token needs from the library: the three
segments of the token hold no dot, header and claims decode to what was
encoded, and the signature verifies under the key that signed. -/
def JWTLib.RoundTrips (lib : JWTLib) (claims : AdminClaims) (key : List Nat) : Prop :=
  '.' ∉ (lib.encodeHeader "HS256").toList ∧
    lib.decodeHeader (lib.encodeHeader "HS256") = some "HS256" ∧
    '.' ∉ (lib.encodeClaims claims).toList ∧
    lib.decodeClaims (lib.encodeClaims claims) = some claims ∧
    '.' ∉ (lib.sign "HS256" (lib.encodeHeader "HS256" ++ "." ++ lib.encodeClaims claims)
      key).toList ∧
    lib.verify "HS256" (lib.encodeHeader "HS256" ++ "." ++ lib.encodeClaims claims)
      (lib.sign "HS256" (lib.encodeHeader "HS256" ++ "." ++ lib.encodeClaims claims) key)
      key = true

/-! ## Operator login (`internal/service/admin_service.go`) -/

/-- Row of table `admins` (`model.Admin`); `lastLoginAt` is in Unix seconds. -/
structure Admin where
  id : String
  username : String
  email : String
  passwordHash : String
  name : String
  isActive : Bool
  lastLoginAt : Option Int
  deriving DecidableEq, Repr

/-- Statement `Model(&dbAdmin).Update("last_login_at", now)`: the rows with the
primary key of `dbAdmin` are written; without a primary key the statement has
no condition and is refused. -/
def updateLastLogin (admins : List Admin) (id : String) (now : Int) : List Admin :=
  if id = "" then admins
  else admins.map (fun a => if a.id = id then { a with lastLoginAt := some now } else a)

/-- Method `AdminService.Login` on table `admins`.
`compareHashAndPassword hash password` says whether
`bcrypt.CompareHashAndPassword` returns nil, `now` is the reading of the clock
in `Login`, and `tExp`, `tIat`, `tNbf` are the readings in
`GenerateAdminToken`. -/
def login (lib : JWTLib) (jwtSecret : List Nat) (compareHashAndPassword : String → String → Bool)
    (admins : List Admin) (username password : String) (now tExp tIat tNbf : Int) :
    Result (String × Admin) × List Admin :=
  match firstMatch (·.id) (fun a => decide (a.username = username)) admins with
  | none => (.error "用户名或密码错误", admins)
  | some dbAdmin =>
    if !dbAdmin.isActive then (.error "账号已被禁用", admins)
    else if !compareHashAndPassword dbAdmin.passwordHash password then
      (.error "用户名或密码错误", admins)
    else
      let dbAdmin1 := { dbAdmin with lastLoginAt := some now }
      let admins1 := updateLastLogin admins dbAdmin1.id now
      match generateAdminToken lib jwtSecret dbAdmin1.id dbAdmin1.username tExp tIat tNbf with
      | .ok token => (.ok (token, dbAdmin1), admins1)
      | .error m => (.error m, admins1)
      | .panic m => (.panic m, admins1)

/-- The unique index on column `username` of table `admins`. -/
def usernamesUnique (admins : List Admin) : Prop := (admins.map (·.username)).Nodup

instance (admins : List Admin) : Decidable (usernamesUnique admins) := by
  unfold usernamesUnique; infer_instance

instance (lib : JWTLib) (claims : AdminClaims) (key : List Nat) :
    Decidable (lib.RoundTrips claims key) := by
  unfold JWTLib.RoundTrips; infer_instance

/-! ## Sample deployment, for evaluating the definitions -/

/-- A default host with the port range of the specification's scenario S1. -/
def demoHost : DockerHost :=
  { id := "h1", name := "local", host := "unix:///var/run/docker.sock", tlsVerify := false,
    certPath := "", portRangeMin := 20000, portRangeMax := 40000, memoryLimit := 134217728,
    cpuLimit := 0x3FE0000000000000,
    enabled := true, isDefault := true }

/-- The challenge of scenario S1. -/
def demoChallenge : Challenge :=
  { id := "c1", title := "nginx", description := "", hint := "", category := "Web",
    difficulty := "Easy", image := "nginx:alpine", imageID := "", port := 80, memoryLimit := 0,
    cpuLimit := 0, privileged := false,
    flag := "flag\x7bstatic\x7d", points := 100, dockerHostID := "", status := "published" }

/-- An empty state of a deployment with one host, one challenge and two users. -/
def demoState : State :=
  { ttlHours := 1
    db := { challenges := [demoChallenge], dockerHosts := [demoHost], dockerImages := [],
            instances := [],
            users := [{ id := "u1", username := "alice", totalPoints := 0 },
                      { id := "u2", username := "bob", totalPoints := 0 }],
            submissions := [] }
    redis := { hashes := [], sets := [], zset := [] }
    clients := []
    containers := [] }

/-- Outside readings of one call in which every engine call goes through. -/
def demoEnv : Env :=
  { now := 1700000000, flagRand := [1, 2, 3, 4], idRand := [7], portRand := 12345,
    newClientFails := false, ensureImageFails := false, containerCreate := some "cont1",
    containerStartFails := false, containerStopFails := false, containerRemoveFails := false }

/-- The instance that `StartInstance` returns for user `u1` on `demoState`. -/
def demoInstance : Instance :=
  { id := "07000000-0000-0000-0000-000000000000", userID := "u1", challengeID := "c1",
    containerID := "cont1", dockerHostID := "h1", flag := "flag\x7bu1_1700000000_01020304\x7d",
    port := 32345, status := "running", expiresAt := 1700003600, createdAt := 1700000000 }

/-- The state after `StartInstance` for user `u1` on `demoState`. -/
def demoStarted : State := (startInstance demoState "u1" "c1" demoEnv).2

/-- The state `demoStarted` once the challenge row has been removed from the
store (as `cmd/seed` does with `DELETE FROM challenges`, or `DeleteChallenge`
once the instance rows are gone): the index still holds the instance. -/
def orphanState : State := { demoStarted with db := { demoStarted.db with challenges := [] } }

/-- Outside readings of a second call, one hundred seconds later. -/
def demoEnv2 : Env :=
  { demoEnv with now := 1700000100, flagRand := [5, 6, 7, 8], idRand := [8], portRand := 777,
                 containerCreate := some "cont2" }

/-- The instance that `StartInstance` returns for user `u2` on `demoStarted`. -/
def demoInstance2 : Instance :=
  { id := "08000000-0000-0000-0000-000000000000", userID := "u2", challengeID := "c1",
    containerID := "cont2", dockerHostID := "h1", flag := "flag\x7bu2_1700000100_05060708\x7d",
    port := 20777, status := "running", expiresAt := 1700003700, createdAt := 1700000100 }

/-- The state after user `u2` has started the challenge as well. -/
def demoTwoUsers : State := (startInstance demoStarted "u2" "c1" demoEnv2).2

/-- A state in which the set of user `u1` holds two instances of challenge
`c1`, as two racing `StartInstance` calls leave it. -/
def twinState : State :=
  { demoStarted with
    redis :=
      { hashes := demoStarted.redis.hashes ++
          [("08000000-0000-0000-0000-000000000000",
            instanceData "u1" "c1" "cont2" "flag\x7bu1_1700000000_05060708\x7d" 20777 1700003600)]
        sets := [("u1", ["07000000-0000-0000-0000-000000000000",
                         "08000000-0000-0000-0000-000000000000"])]
        zset := demoStarted.redis.zset ++ [("08000000-0000-0000-0000-000000000000", 1700003600)] }
    db := { demoStarted.db with
      instances := demoStarted.db.instances ++
        [{ demoInstance with id := "08000000-0000-0000-0000-000000000000",
                             containerID := "cont2", port := 20777,
                             flag := "flag\x7bu1_1700000000_05060708\x7d" }] }
    containers := demoStarted.containers ++
      [("unix:///var/run/docker.sock",
        { id := "cont2", image := "nginx:alpine", env := ["FLAG=flag\x7bu1_1700000000_05060708\x7d"],
          exposedPort := "80/tcp", hostIP := "0.0.0.0", hostPort := "20777",
          memory := 134217728, cpu := 0x3FE0000000000000, privileged := false,
          running := true })] }

/-- A client whose port range spans every non-negative 64-bit integer. -/
def wideClient : DockerClient :=
  { endpoint := "", tls := false, certPath := "", hostID := "h0", portRangeMin := 0,
    portRangeMax := 9223372036854775807, memoryLimit := 0, cpuLimit := 0 }

/-- The state `demoState` with a pooled client for host `h1` that was built
when the host row had another port range. -/
def staleState : State :=
  { demoState with
    clients := [("h1", { endpoint := "unix:///var/run/docker.sock", tls := false, certPath := "",
                         hostID := "h1", portRangeMin := 50000, portRangeMax := 50010,
                         memoryLimit := 134217728, cpuLimit := 0x3FE0000000000000 })] }

/-- A deployment whose configured lifetime, in hours, does not fit a 64-bit
count of nanoseconds. -/
def longTTLState : State := { demoState with ttlHours := 10007999171935 }

/-- A deployment whose configured lifetime is zero hours: every write of
an instance to the state index is refused. -/
def zeroTTLState : State := { demoState with ttlHours := 0 }

/-- The sample challenge pinned to host `h1`. -/
def pinnedChallenge : Challenge := { demoChallenge with dockerHostID := "h1" }

/-- The sample deployment with its host disabled. -/
def disabledHostState : State :=
  { demoState with db := { demoState.db with dockerHosts := [{ demoHost with enabled := false }] } }

/-- The sample deployment with its host disabled and the challenge pinned to
that host. -/
def pinnedDisabledState : State :=
  { disabledHostState with db := { disabledHostState.db with challenges := [pinnedChallenge] } }

/-- The state after user `u1` started the pinned challenge and the host was
disabled afterwards. -/
def disabledAfterStart : State :=
  { demoStarted with
    db := { demoStarted.db with challenges := [pinnedChallenge],
                                 dockerHosts := [{ demoHost with enabled := false }] } }

/-- A request that `CreateChallenge` accepts. -/
def demoRequest : CreateChallengeRequest :=
  { title := "nginx", descriptionHtml := "", hintHtml := "", category := "Web",
    difficulty := "Easy", image := "nginx:alpine", imageID := "", dockerHostID := "",
    port := 80, memoryLimit := 0, cpuLimit := 0, privileged := false,
    flag := "flag\x7bstatic\x7d", points := 100, status := "" }

/-- A log entry as the logging middleware builds it, without an id. -/
def demoLog : APILog :=
  { id := "", traceID := "t1", method := "GET", path := "/api/challenges", status := 200,
    latencyMs := 3, ip := "127.0.0.1", userAgent := "curl", userID := "", errorMessage := "",
    requestBody := "", responseBody := "" }

/-- A log store whose queue holds 1,000 entries. -/
def fullLogStore : MySQLLogStore :=
  { newMySQLLogStore with
    logChan := { cap := 1000, buf := List.replicate 1000 { demoLog with id := "l0" },
                 closed := false } }

/-- A log store after `Shutdown`, its queue closed and drained. -/
def closedLogStore : MySQLLogStore :=
  { newMySQLLogStore with
    logChan := { cap := 1000, buf := [], closed := true }, stopChanClosed := true }

/-- The client that `GetOrCreateClient` builds for the sample host. -/
def demoClient : DockerClient :=
  { endpoint := "unix:///var/run/docker.sock", tls := false, certPath := "", hostID := "h1",
    portRangeMin := 20000, portRangeMax := 40000, memoryLimit := 134217728,
    cpuLimit := 0x3FE0000000000000 }

/-- A second host, marked as the default one. -/
def secondHost : DockerHost :=
  { demoHost with id := "h2", name := "remote", host := "tcp://10.0.0.2:2376" }

/-- A request that names neither an image nor an image id. -/
def noImageRequest : CreateChallengeRequest :=
  { demoRequest with title := "renamed", image := "" }

/-- Two requests logged while the writer runs. -/
def demoLogEvents : List LogEvent :=
  [.store demoLog "log-1", .receive, .store demoLog "log-2", .tick]

/-- A stream of ids that do not repeat, standing for `uuid.New()`. -/
def demoIds (k : Nat) : String := String.mk (List.replicate (k + 1) 'x')

/-- A registry with three repositories; the tag list of `broken` fails, and
`nginx` lists `latest` twice. -/
def demoRegistry : Registry :=
  { catalog := .ok ["nginx", "broken", "redis"]
    tags := fun repo =>
      if repo = "nginx" then some ["latest", "1.25", "latest"]
      else if repo = "redis" then some ["7"]
      else none }

/-- A store whose image table has the row of `nginx:latest`. -/
def demoImageDB : DB :=
  { demoState.db with
    dockerImages := [{ id := "img-0", name := "nginx", tag := "latest"
                       registry := "localhost:5000", isAvailable := true }] }

/-- A registry that lists `nginx` with an empty tag. -/
def emptyTagRegistry : Registry :=
  { catalog := .ok ["nginx"], tags := fun _ => some [""] }

/-- A stand-in for the library with readable segments: the header segment is
the name of the method, the claims segment joins the fields with bars, and the
signature is a checksum of signing string and key. -/
def demoJWT : JWTLib :=
  { encodeHeader := fun alg => alg
    decodeHeader := fun seg => some seg
    encodeClaims := fun c =>
      c.adminID ++ "|" ++ c.username ++ "|" ++ toString (c.expiresAt.getD 0) ++ "|" ++
        toString (c.issuedAt.getD 0) ++ "|" ++ toString (c.notBefore.getD 0)
    decodeClaims := fun seg =>
      if seg = "admin-123|testadmin|1700086400|1700000000|1700000000" then
        some { adminID := "admin-123", username := "testadmin", expiresAt := some 1700086400
               issuedAt := some 1700000000, notBefore := some 1700000000 }
      else none
    sign := fun _ signingString key =>
      toString ((signingString.toList.map Char.toNat).sum + key.sum)
    verify := fun _ signingString signature key =>
      signature == toString ((signingString.toList.map Char.toNat).sum + key.sum) }

/-- The claims of the token of the test `TestGenerateAndParseAdminToken`, issued
at second 1,700,000,000. -/
def demoClaims : AdminClaims :=
  { adminID := "admin-123", username := "testadmin", expiresAt := some (1700000000 + 24 * 3600)
    issuedAt := some 1700000000, notBefore := some 1700000000 }

/-- An active operator whose stored hash is `hash(Test@1234)`. -/
def demoAdmin : Admin :=
  { id := "admin-123", username := "testadmin", email := "admin@test.com"
    passwordHash := "hash(Test@1234)", name := "test", isActive := true, lastLoginAt := none }

/-- A stand-in for `bcrypt.CompareHashAndPassword`. -/
def demoCompare (hash password : String) : Bool := hash == "hash(" ++ password ++ ")"

/-- The sample state once the instance row of `u1` has been deleted from the
store: the expiry index still holds the id. -/
def danglingState : State := { demoStarted with db := { demoStarted.db with instances := [] } }

/-- The sample state with the client of the sample host in the pool. -/
def demoPooled : State := { demoState with clients := [("h1", demoClient)] }

/-! # Lemmas -/

/-! ## Regular expressions, flags and identifiers -/

namespace Regex

theorem matches_none (w : List Char) : ¬ Matches .none w := by
  intro h; cases h

theorem matches_eps_iff (w : List Char) : Matches .eps w ↔ w = [] := by
  constructor
  · intro h; cases h; rfl
  · rintro rfl; exact .eps

theorem matches_sat_iff (p : Char → Bool) (w : List Char) :
    Matches (.sat p) w ↔ ∃ c, w = [c] ∧ p c = true := by
  constructor
  · intro h; cases h with | sat _ c hc => exact ⟨c, rfl, hc⟩
  · rintro ⟨c, rfl, hc⟩; exact .sat p c hc

theorem matches_cat_iff (r s : Regex) (w : List Char) :
    Matches (.cat r s) w ↔ ∃ x y, w = x ++ y ∧ Matches r x ∧ Matches s y := by
  constructor
  · intro h; cases h with | cat h1 h2 => exact ⟨_, _, rfl, h1, h2⟩
  · rintro ⟨x, y, rfl, h1, h2⟩; exact .cat h1 h2

theorem matches_alt_iff (r s : Regex) (w : List Char) :
    Matches (.alt r s) w ↔ Matches r w ∨ Matches s w := by
  constructor
  · intro h
    cases h with
    | altL h => exact Or.inl h
    | altR h => exact Or.inr h
  · rintro (h | h)
    · exact .altL h
    · exact .altR h

theorem matches_star_cons {r : Regex} {u : List Char} (h : Matches (.star r) u) :
    ∀ c w, u = c :: w → ∃ x y, w = x ++ y ∧ Matches r (c :: x) ∧ Matches (.star r) y := by
  generalize hq : Regex.star r = q at h
  induction h with
  | eps => intro c w hu; cases hu
  | sat p c hc => cases hq
  | cat _ _ => cases hq
  | altL _ => cases hq
  | altR _ => cases hq
  | starNil => intro c w hu; cases hu
  | @starCons r' x y hx hy _ ih2 =>
    cases hq
    intro c w hu
    cases x with
    | nil => exact ih2 rfl c w (by simpa using hu)
    | cons a x' =>
      simp only [List.cons_append, List.cons.injEq] at hu
      obtain ⟨rfl, rfl⟩ := hu
      exact ⟨x', y, rfl, hx, hy⟩

theorem nullable_iff (r : Regex) : nullable r = true ↔ Matches r [] := by
  induction r with
  | none => simp [nullable, matches_none]
  | eps => simp [nullable, matches_eps_iff]
  | sat p => simp [nullable, matches_sat_iff]
  | cat r s ihr ihs =>
    simp only [nullable, Bool.and_eq_true, ihr, ihs, matches_cat_iff]
    constructor
    · rintro ⟨h1, h2⟩; exact ⟨[], [], rfl, h1, h2⟩
    · rintro ⟨x, y, hxy, h1, h2⟩
      have hx : x = [] := by
        cases x with
        | nil => rfl
        | cons a x => simp at hxy
      have hy : y = [] := by
        cases y with
        | nil => rfl
        | cons a y => subst hx; simp at hxy
      subst hx; subst hy; exact ⟨h1, h2⟩
  | alt r s ihr ihs => simp only [nullable, Bool.or_eq_true, ihr, ihs, matches_alt_iff]
  | star r _ => simp only [nullable, true_iff]; exact .starNil

theorem deriv_iff (r : Regex) : ∀ (c : Char) (w : List Char),
    Matches (deriv r c) w ↔ Matches r (c :: w) := by
  induction r with
  | none => intro c w; simp [deriv, matches_none]
  | eps => intro c w; simp [deriv, matches_none, matches_eps_iff]
  | sat p =>
    intro c w
    simp only [deriv, matches_sat_iff]
    by_cases hp : p c = true
    · simp only [hp, if_true, matches_eps_iff]
      constructor
      · rintro rfl; exact ⟨c, rfl, hp⟩
      · rintro ⟨d, hd, _⟩; simp at hd; exact hd.2
    · simp only [hp, Bool.false_eq_true, if_false]
      constructor
      · intro h; exact absurd h (matches_none w)
      · rintro ⟨d, hd, hpd⟩
        simp at hd
        obtain ⟨rfl, rfl⟩ := hd
        exact absurd hpd hp
  | cat r s ihr ihs =>
    intro c w
    have key : Matches (.cat r s) (c :: w) ↔
        (∃ x y, w = x ++ y ∧ Matches r (c :: x) ∧ Matches s y) ∨
        (Matches r [] ∧ Matches s (c :: w)) := by
      rw [matches_cat_iff]
      constructor
      · rintro ⟨x, y, hxy, h1, h2⟩
        cases x with
        | nil => right; simp at hxy; subst hxy; exact ⟨h1, h2⟩
        | cons a x =>
          simp only [List.cons_append, List.cons.injEq] at hxy
          obtain ⟨rfl, rfl⟩ := hxy
          left; exact ⟨x, y, rfl, h1, h2⟩
      · rintro (⟨x, y, rfl, h1, h2⟩ | ⟨h1, h2⟩)
        · exact ⟨c :: x, y, rfl, h1, h2⟩
        · exact ⟨[], c :: w, rfl, h1, h2⟩
    rw [key]
    simp only [deriv]
    by_cases hn : nullable r = true
    · simp only [hn, if_true, matches_alt_iff, matches_cat_iff, ihr, ihs]
      rw [(nullable_iff r).symm]
      simp [hn]
    · simp only [hn, Bool.false_eq_true, if_false, matches_cat_iff, ihr]
      rw [(nullable_iff r).symm]
      simp [hn]
  | alt r s ihr ihs =>
    intro c w
    simp only [deriv, matches_alt_iff, ihr, ihs]
  | star r ih =>
    intro c w
    simp only [deriv, matches_cat_iff, ih]
    constructor
    · rintro ⟨x, y, rfl, h1, h2⟩
      exact Matches.starCons h1 h2
    · intro h
      exact matches_star_cons h c w rfl

theorem rmatch_iff (w : List Char) : ∀ r : Regex, rmatch r w = true ↔ Matches r w := by
  induction w with
  | nil => intro r; simpa [rmatch] using nullable_iff r
  | cons c w ih => intro r; simp only [rmatch, ih, deriv_iff]



theorem matches_lit (l : List Char) : Matches (lit l) l := by
  induction l with
  | nil => exact .eps
  | cons c l ih => exact Matches.cat (x := [c]) (.sat _ c (by simp)) ih

theorem matches_star_sat (p : Char → Bool) (w : List Char) (h : ∀ c ∈ w, p c = true) :
    Matches (.star (.sat p)) w := by
  induction w with
  | nil => exact .starNil
  | cons c w ih =>
    exact Matches.starCons (x := [c]) (.sat p c (h c (List.mem_cons_self _ _)))
      (ih (fun d hd => h d (List.mem_cons_of_mem _ hd)))

theorem matches_plus_sat (p : Char → Bool) (w : List Char) (hne : w ≠ [])
    (h : ∀ c ∈ w, p c = true) : Matches (plus (.sat p)) w := by
  cases w with
  | nil => exact absurd rfl hne
  | cons c w =>
    exact Matches.cat (x := [c]) (.sat p c (h c (List.mem_cons_self _ _)))
      (matches_star_sat p w (fun d hd => h d (List.mem_cons_of_mem _ hd)))

theorem matches_rep_sat (p : Char → Bool) : ∀ (n : Nat) (w : List Char), w.length = n →
    (∀ c ∈ w, p c = true) → Matches (rep (.sat p) n) w := by
  intro n
  induction n with
  | zero =>
    intro w hl _
    have : w = [] := List.length_eq_zero.1 hl
    subst this; exact .eps
  | succ n ih =>
    intro w hl h
    cases w with
    | nil => simp at hl
    | cons c w =>
      exact Matches.cat (x := [c]) (.sat p c (h c (List.mem_cons_self _ _)))
        (ih w (by simpa using hl) (fun d hd => h d (List.mem_cons_of_mem _ hd)))

end Regex


theorem toList_flagFormat : "flag\x7b%s_%d_%s\x7d".toList = ['f','l','a','g','{','%','s','_','%','d','_','%','s','}'] := rfl

theorem generateFlag_eq (u : String) (t : Int) (src : List Nat) :
    generateFlag u t src
      = "flag\x7b" ++ u ++ "_" ++ toString t ++ "_" ++ hexEncode (randRead 4 src) ++ "\x7d" := by
  apply String.ext
  simp [generateFlag, sprintf, toList_flagFormat, sprintfAux, formatVerb, String.data_append]

theorem hexDigit_lower (n : Nat) (h : n < 16) :
    (('0' ≤ hexDigit n && hexDigit n ≤ '9') || ('a' ≤ hexDigit n && hexDigit n ≤ 'f')) = true := by
  interval_cases n <;> decide

theorem hexByte_length (v : Nat) : (hexByte v).length = 2 := rfl

theorem hexByte_lower (v : Nat) :
    ∀ c ∈ hexByte v, (('0' ≤ c && c ≤ '9') || ('a' ≤ c && c ≤ 'f')) = true := by
  intro c hc
  simp only [hexByte, List.mem_cons, List.mem_singleton, List.not_mem_nil, or_false] at hc
  rcases hc with rfl | rfl
  · exact hexDigit_lower _ (by omega)
  · exact hexDigit_lower _ (by omega)

theorem hexEncode_length (bs : List Nat) : (hexEncode bs).toList.length = 2 * bs.length := by
  induction bs with
  | nil => rfl
  | cons b bs ih =>
    have : (hexEncode (b :: bs)).toList = hexByte b ++ (hexEncode bs).toList := by
      simp [hexEncode]
    rw [this, List.length_append, ih, hexByte_length, List.length_cons]
    omega

theorem hexEncode_lower (bs : List Nat) :
    ∀ c ∈ (hexEncode bs).toList, (('0' ≤ c && c ≤ '9') || ('a' ≤ c && c ≤ 'f')) = true := by
  intro c hc
  simp only [hexEncode, String.toList, List.mem_flatMap] at hc
  obtain ⟨b, _, hb⟩ := hc
  exact hexByte_lower b c hb

theorem hexDigit_mem_table (n : Nat) (h : n < 16) : hexDigit n ∈ "0123456789abcdef".toList := by
  interval_cases n <;> decide

theorem hexEncode_mem_table (bs : List Nat) :
    ∀ c ∈ (hexEncode bs).toList, c ∈ "0123456789abcdef".toList := by
  intro c hc
  simp only [hexEncode, String.toList, List.mem_flatMap] at hc
  obtain ⟨b, _, hb⟩ := hc
  simp only [hexByte, List.mem_cons, List.mem_singleton, List.not_mem_nil, or_false] at hb
  rcases hb with rfl | rfl
  · exact hexDigit_mem_table _ (by omega)
  · exact hexDigit_mem_table _ (by omega)

theorem randRead_length (n : Nat) (src : List Nat) : (randRead n src).length = n := by
  simp [randRead]

theorem digitChar_isDigit (n : Nat) (h : n < 10) :
    ('0' ≤ Nat.digitChar n && Nat.digitChar n ≤ '9') = true := by
  interval_cases n <;> decide

theorem toDigitsCore_digits (fuel : Nat) : ∀ (n : Nat) (ds : List Char),
    (∀ c ∈ ds, ('0' ≤ c && c ≤ '9') = true) →
    ∀ c ∈ Nat.toDigitsCore 10 fuel n ds, ('0' ≤ c && c ≤ '9') = true := by
  induction fuel with
  | zero => intro n ds h; simpa [Nat.toDigitsCore] using h
  | succ fuel ih =>
    intro n ds h
    simp only [Nat.toDigitsCore]
    have hd := digitChar_isDigit (n % 10) (Nat.mod_lt _ (by decide))
    split
    · intro c hc
      rcases List.mem_cons.1 hc with rfl | hc
      · exact hd
      · exact h c hc
    · apply ih
      intro c hc
      rcases List.mem_cons.1 hc with rfl | hc
      · exact hd
      · exact h c hc

theorem toDigitsCore_ne_nil (fuel : Nat) : ∀ (n : Nat) (ds : List Char),
    (0 < fuel ∨ ds ≠ []) → Nat.toDigitsCore 10 fuel n ds ≠ [] := by
  induction fuel with
  | zero =>
    intro n ds h
    rcases h with h | h
    · omega
    · simpa [Nat.toDigitsCore] using h
  | succ fuel ih =>
    intro n ds _
    simp only [Nat.toDigitsCore]
    split
    · simp
    · exact ih _ _ (Or.inr (by simp))

theorem toString_nonneg (t : Int) (ht : 0 ≤ t) :
    (toString t).toList = Nat.toDigits 10 t.toNat := by
  obtain ⟨n, rfl⟩ := Int.eq_ofNat_of_zero_le ht
  rfl

theorem toString_nonneg_digits (t : Int) (ht : 0 ≤ t) :
    ∀ c ∈ (toString t).toList, ('0' ≤ c && c ≤ '9') = true := by
  rw [toString_nonneg t ht]
  exact toDigitsCore_digits _ _ _ (by simp)

theorem toString_nonneg_ne_nil (t : Int) (ht : 0 ≤ t) : (toString t).toList ≠ [] := by
  rw [toString_nonneg t ht]
  exact toDigitsCore_ne_nil _ _ _ (Or.inl (by omega))

theorem generateFlag_matches (u : String) (t : Int) (src : List Nat)
    (hu : u ≠ "") (hnl : '\n' ∉ u.toList) (ht : 0 ≤ t) :
    Regex.rmatch flagPattern (generateFlag u t src).toList = true := by
  rw [Regex.rmatch_iff, generateFlag_eq]
  have hshape : ("flag\x7b" ++ u ++ "_" ++ toString t ++ "_" ++ hexEncode (randRead 4 src) ++ "\x7d").toList
      = "flag\x7b".toList ++ (u.toList ++ (['_'] ++ ((toString t).toList ++ (['_'] ++
          ((hexEncode (randRead 4 src)).toList ++ ['}']))))) := by
    simp [String.toList, String.data_append]
  rw [hshape]
  unfold flagPattern
  refine .cat (Regex.matches_lit _) (.cat ?_ (.cat (Regex.matches_lit _) (.cat ?_
    (.cat (Regex.matches_lit _) (.cat ?_ (Regex.matches_lit _))))))
  · apply Regex.matches_plus_sat
    · intro h
      apply hu
      apply String.ext
      simpa [String.toList] using h
    · intro c hc
      have : c ≠ '\n' := fun h => hnl (h ▸ hc)
      simpa using this
  · exact Regex.matches_plus_sat _ _ (toString_nonneg_ne_nil t ht) (toString_nonneg_digits t ht)
  · apply Regex.matches_rep_sat
    · rw [hexEncode_length, randRead_length]
    · exact hexEncode_lower _

/-! ## Keyed collections and the state index -/

variable {β : Type}

theorem kvGet_map_set (m : List (String × β)) (k : String) (v : β) (k' : String) :
    kvGet (m.map (fun p => if p.1 = k then (k, v) else p)) k'
      = if k' = k then (kvGet m k).map (fun _ => v) else kvGet m k' := by
  induction m with
  | nil => simp [kvGet]
  | cons p m ih =>
    simp only [List.map_cons, kvGet, ih]
    by_cases hak : p.1 = k <;> by_cases hk : k' = k <;> by_cases hpk : p.1 = k' <;>
      simp_all

theorem kvGet_append_single (m : List (String × β)) (k : String) (v : β) (k' : String) :
    kvGet (m ++ [(k, v)]) k' = match kvGet m k' with
      | some x => some x
      | none => if k = k' then some v else none := by
  induction m with
  | nil => simp [kvGet]
  | cons p m ih =>
    simp only [List.cons_append, kvGet]
    by_cases h : p.1 = k'
    · simp [h]
    · simp [h, ih]

theorem kvGet_kvSet_self (m : List (String × β)) (k : String) (v : β) :
    kvGet (kvSet m k v) k = some v := by
  unfold kvSet
  cases h : kvGet m k with
  | none => simp [kvGet_append_single, h]
  | some x => simp [kvGet_map_set, h]

theorem kvGet_kvSet_ne (m : List (String × β)) (k : String) (v : β) (k' : String)
    (hne : k' ≠ k) : kvGet (kvSet m k v) k' = kvGet m k' := by
  unfold kvSet
  cases h : kvGet m k with
  | none =>
    simp only [kvGet_append_single]
    have : ¬ k = k' := fun h => hne h.symm
    cases kvGet m k' <;> simp [this]
  | some x => simp [kvGet_map_set, hne]

theorem kvGet_kvSet (m : List (String × β)) (k : String) (v : β) (k' : String) :
    kvGet (kvSet m k v) k' = if k' = k then some v else kvGet m k' := by
  by_cases h : k' = k
  · subst h; simp [kvGet_kvSet_self]
  · simp [h, kvGet_kvSet_ne _ _ _ _ h]

theorem kvGet_kvDel (m : List (String × β)) (k k' : String) :
    kvGet (kvDel m k) k' = if k' = k then none else kvGet m k' := by
  induction m with
  | nil => simp [kvDel, kvGet]
  | cons p m ih =>
    unfold kvDel at ih ⊢
    simp only [List.filter_cons]
    by_cases hak : p.1 = k <;> by_cases hk : k' = k <;> by_cases hpk : p.1 = k' <;>
      simp_all [kvGet]

/-! state index -/

@[simp] theorem hset_sets (r : Redis) (k : String) (f : List (String × String)) :
    (r.hset k f).sets = r.sets := rfl
@[simp] theorem hset_zset (r : Redis) (k : String) (f : List (String × String)) :
    (r.hset k f).zset = r.zset := rfl
@[simp] theorem del_sets (r : Redis) (k : String) : (r.del k).sets = r.sets := rfl
@[simp] theorem del_zset (r : Redis) (k : String) : (r.del k).zset = r.zset := rfl
@[simp] theorem zadd_sets (r : Redis) (k : String) (x : Int) : (r.zadd k x).sets = r.sets := rfl
@[simp] theorem zadd_hashes (r : Redis) (k : String) (x : Int) :
    (r.zadd k x).hashes = r.hashes := rfl
@[simp] theorem zrem_sets (r : Redis) (k : String) : (r.zrem k).sets = r.sets := rfl
@[simp] theorem zrem_hashes (r : Redis) (k : String) : (r.zrem k).hashes = r.hashes := rfl
@[simp] theorem sadd_hashes (r : Redis) (k m : String) : (r.sadd k m).hashes = r.hashes := by
  unfold Redis.sadd; split <;> rfl
@[simp] theorem sadd_zset (r : Redis) (k m : String) : (r.sadd k m).zset = r.zset := by
  unfold Redis.sadd; split <;> rfl
@[simp] theorem srem_hashes (r : Redis) (k m : String) : (r.srem k m).hashes = r.hashes := by
  unfold Redis.srem; simp only; split <;> rfl
@[simp] theorem srem_zset (r : Redis) (k m : String) : (r.srem k m).zset = r.zset := by
  unfold Redis.srem; simp only; split <;> rfl

@[simp] theorem smembers_hset (r : Redis) (k : String) (f : List (String × String)) (u : String) :
    (r.hset k f).smembers u = r.smembers u := rfl
@[simp] theorem smembers_del (r : Redis) (k u : String) : (r.del k).smembers u = r.smembers u := rfl
@[simp] theorem smembers_zadd (r : Redis) (k : String) (x : Int) (u : String) :
    (r.zadd k x).smembers u = r.smembers u := rfl
@[simp] theorem smembers_zrem (r : Redis) (k u : String) :
    (r.zrem k).smembers u = r.smembers u := rfl

theorem smembers_congr (r r' : Redis) (h : r.sets = r'.sets) (k : String) :
    r.smembers k = r'.smembers k := by
  unfold Redis.smembers; rw [h]

theorem smembers_sadd (r : Redis) (k m k' : String) :
    (r.sadd k m).smembers k'
      = if k' = k then (if m ∈ r.smembers k then r.smembers k else r.smembers k ++ [m])
        else r.smembers k' := by
  unfold Redis.sadd
  by_cases hm : m ∈ r.smembers k
  · simp only [hm, if_true]
    split <;> simp_all
  · simp only [hm, if_false]
    unfold Redis.smembers
    simp only [kvGet_kvSet]
    split <;> simp

theorem smembers_srem (r : Redis) (k m k' : String) :
    (r.srem k m).smembers k'
      = if k' = k then (r.smembers k).filter (fun x => decide (x ≠ m)) else r.smembers k' := by
  unfold Redis.srem
  simp only
  split
  · rename_i hnil
    unfold Redis.smembers at hnil ⊢
    simp only [kvGet_kvDel]
    split
    · rename_i hk; subst hk; rw [hnil]; rfl
    · rfl
  · unfold Redis.smembers
    simp only [kvGet_kvSet]
    split <;> simp

theorem smembers_deleteInstance (r : Redis) (i u k' : String) :
    (deleteInstance r i u).smembers k'
      = if k' = u then (r.smembers u).filter (fun x => decide (x ≠ i)) else r.smembers k' := by
  unfold deleteInstance
  simp only [smembers_zrem, smembers_srem, smembers_del]

theorem hashes_deleteInstance (r : Redis) (i u k' : String) :
    kvGet (deleteInstance r i u).hashes k' = if k' = i then none else kvGet r.hashes k' := by
  unfold deleteInstance
  simp [Redis.del, kvGet_kvDel]

/-! ## Engine calls and `recordInstance` -/

/-! engine calls leave the index and the store alone -/

theorem getOrCreateClient_frame (s : State) (h : DockerHost) (e : Env) :
    (getOrCreateClient s h e).2.redis = s.redis ∧ (getOrCreateClient s h e).2.db = s.db ∧
    (getOrCreateClient s h e).2.containers = s.containers ∧
    (getOrCreateClient s h e).2.ttlHours = s.ttlHours := by
  unfold getOrCreateClient
  split
  · exact ⟨rfl, rfl, rfl, rfl⟩
  · split <;> exact ⟨rfl, rfl, rfl, rfl⟩

theorem startContainer_frame (d : DockerClient) (s : State) (img : String) (env : List String)
    (cp : Int) (pr : Bool) (ml : Int) (cpu : Nat) (e : Env) :
    (d.startContainer s img env cp pr ml cpu e).2.redis = s.redis ∧
    (d.startContainer s img env cp pr ml cpu e).2.db = s.db ∧
    (d.startContainer s img env cp pr ml cpu e).2.clients = s.clients ∧
    (d.startContainer s img env cp pr ml cpu e).2.ttlHours = s.ttlHours := by
  unfold DockerClient.startContainer
  split
  · exact ⟨rfl, rfl, rfl, rfl⟩
  · split
    · exact ⟨rfl, rfl, rfl, rfl⟩
    · exact ⟨rfl, rfl, rfl, rfl⟩
    · simp only
      split
      · exact ⟨rfl, rfl, rfl, rfl⟩
      · split <;> exact ⟨rfl, rfl, rfl, rfl⟩

theorem stopContainer_frame (d : DockerClient) (s : State) (cid : String) (e : Env) :
    (d.stopContainer s cid e).2.redis = s.redis ∧ (d.stopContainer s cid e).2.db = s.db ∧
    (d.stopContainer s cid e).2.clients = s.clients ∧
    (d.stopContainer s cid e).2.ttlHours = s.ttlHours := by
  unfold DockerClient.stopContainer
  split
  · exact ⟨rfl, rfl, rfl, rfl⟩
  · simp only
    split <;> exact ⟨rfl, rfl, rfl, rfl⟩

/-! `StoreInstance` -/

theorem storeInstance_eq (r : Redis) (i u c cid flag : String) (port exp now : Int) :
    storeInstance r i u c cid flag port exp now =
      if exp - now ≤ 0 then (.error "expiry time is in the past", r)
      else (.ok (), ((r.hset i (instanceData u c cid flag port exp)).sadd u i).zadd i exp) := rfl

/-- What `recordInstance` does: either the write to the index is refused and
the container is rolled back, or the index and the store receive
the instance. -/
theorem recordInstance_cases (s : State) (u c : String) (host : DockerHost) (cl : DockerClient)
    (flag cid : String) (port : Int) (e : Env) :
    (ttlSeconds s.ttlHours ≤ 0 ∧
      recordInstance s u c host cl flag cid port e
        = (.error "failed to store instance in Redis: expiry time is in the past",
           (cl.stopContainer s cid e).2)) ∨
    (0 < ttlSeconds s.ttlHours ∧
      recordInstance s u c host cl flag cid port e
        = (.ok (newInstance s.ttlHours u c host flag cid port e),
           { s with
             redis := ((s.redis.hset (generateID e.idRand)
                 (instanceData u c cid flag port (e.now + ttlSeconds s.ttlHours))).sadd u
                 (generateID e.idRand)).zadd (generateID e.idRand) (e.now + ttlSeconds s.ttlHours)
             db := (s.db.createInstance (newInstance s.ttlHours u c host flag cid port e)).2 })) := by
  unfold recordInstance
  simp only [storeInstance_eq, newInstance]
  by_cases h : ttlSeconds s.ttlHours ≤ 0
  · left
    refine ⟨h, ?_⟩
    have : e.now + ttlSeconds s.ttlHours - e.now ≤ 0 := by omega
    rw [if_pos this]
    rfl
  · right
    refine ⟨by omega, ?_⟩
    have : ¬ (e.now + ttlSeconds s.ttlHours - e.now ≤ 0) := by omega
    rw [if_neg this]

/-! ## Outcomes of `StartInstance` -/

theorem recordInstance_ok (s : State) (u c : String) (host : DockerHost) (cl : DockerClient)
    (flag cid : String) (port : Int) (e : Env) (inst : Instance) (s' : State)
    (h : recordInstance s u c host cl flag cid port e = (.ok inst, s')) :
    0 < ttlSeconds s.ttlHours ∧ inst = newInstance s.ttlHours u c host flag cid port e ∧
      s' = recorded s inst := by
  rcases recordInstance_cases s u c host cl flag cid port e with ⟨_, h1⟩ | ⟨h0, h1⟩
  · rw [h1] at h; simp at h
  · rw [h1] at h
    simp only [Prod.mk.injEq, Result.ok.injEq] at h
    obtain ⟨hi, hs⟩ := h
    subst hi
    exact ⟨h0, rfl, hs.symm⟩

theorem recordInstance_frame (s : State) (u c : String) (host : DockerHost) (cl : DockerClient)
    (flag cid : String) (port : Int) (e : Env)
    (h : ∀ inst, (recordInstance s u c host cl flag cid port e).1 ≠ .ok inst) :
    (recordInstance s u c host cl flag cid port e).2.redis = s.redis ∧
      (recordInstance s u c host cl flag cid port e).2.db = s.db := by
  rcases recordInstance_cases s u c host cl flag cid port e with ⟨_, h1⟩ | ⟨_, h1⟩
  · rw [h1]
    exact ⟨(stopContainer_frame cl s cid e).1, (stopContainer_frame cl s cid e).2.1⟩
  · exact absurd (by rw [h1]) (h _)

theorem startOnHost_ok (s : State) (u c : String) (ch : Challenge) (host : DockerHost) (e : Env)
    (inst : Instance) (s' : State) (h : startOnHost s u c ch host e = (.ok inst, s')) :
    ∃ cl s1 cid port s2,
      getOrCreateClient s host e = (.ok cl, s1) ∧
      cl.startContainer s1 (resolveImageName s1.db ch)
        [sprintf "FLAG=%s" [.str (generateFlag u e.now e.flagRand)]] ch.port ch.privileged
        ch.memoryLimit ch.cpuLimit e = (.ok (cid, port), s2) ∧
      0 < ttlSeconds s.ttlHours ∧
      inst = newInstance s.ttlHours u c host (generateFlag u e.now e.flagRand) cid port e ∧
      s' = recorded s2 inst := by
  unfold startOnHost at h
  rcases hgc : getOrCreateClient s host e with ⟨r, s1⟩
  rw [hgc] at h
  cases r with
  | error m => simp at h
  | panic m => simp at h
  | ok cl =>
    simp only at h
    rcases hsc : cl.startContainer s1 (resolveImageName s1.db ch)
        [sprintf "FLAG=%s" [.str (generateFlag u e.now e.flagRand)]] ch.port ch.privileged
        ch.memoryLimit ch.cpuLimit e with ⟨r2, s2⟩
    rw [hsc] at h
    cases r2 with
    | error m => simp at h
    | panic m => simp at h
    | ok v =>
      obtain ⟨cid, port⟩ := v
      simp only at h
      obtain ⟨h0, hi, hs⟩ := recordInstance_ok _ _ _ _ _ _ _ _ _ _ _ h
      have ht2 : s2.ttlHours = s.ttlHours := by
        have a := (startContainer_frame cl s1 (resolveImageName s1.db ch)
          [sprintf "FLAG=%s" [.str (generateFlag u e.now e.flagRand)]] ch.port ch.privileged
          ch.memoryLimit ch.cpuLimit e).2.2.2
        have b := (getOrCreateClient_frame s host e).2.2.2
        rw [hsc] at a; rw [hgc] at b
        exact a.trans b
      rw [ht2] at h0 hi
      exact ⟨cl, s1, cid, port, s2, rfl, hsc, h0, hi, hs⟩

theorem startOnHost_frame (s : State) (u c : String) (ch : Challenge) (host : DockerHost)
    (e : Env) (h : ∀ inst, (startOnHost s u c ch host e).1 ≠ .ok inst) :
    (startOnHost s u c ch host e).2.redis = s.redis ∧
      (startOnHost s u c ch host e).2.db = s.db := by
  unfold startOnHost at h ⊢
  have hg := getOrCreateClient_frame s host e
  rcases hgc : getOrCreateClient s host e with ⟨r, s1⟩
  rw [hgc] at h hg
  simp only at hg
  cases r with
  | error m => exact ⟨hg.1, hg.2.1⟩
  | panic m => exact ⟨hg.1, hg.2.1⟩
  | ok cl =>
    simp only at h ⊢
    have hs := startContainer_frame cl s1 (resolveImageName s1.db ch)
        [sprintf "FLAG=%s" [.str (generateFlag u e.now e.flagRand)]] ch.port ch.privileged
        ch.memoryLimit ch.cpuLimit e
    rcases hsc : cl.startContainer s1 (resolveImageName s1.db ch)
        [sprintf "FLAG=%s" [.str (generateFlag u e.now e.flagRand)]] ch.port ch.privileged
        ch.memoryLimit ch.cpuLimit e with ⟨r2, s2⟩
    rw [hsc] at h hs
    simp only at hs
    cases r2 with
    | error m => exact ⟨hs.1.trans hg.1, hs.2.1.trans hg.2.1⟩
    | panic m => exact ⟨hs.1.trans hg.1, hs.2.1.trans hg.2.1⟩
    | ok v =>
      obtain ⟨cid, port⟩ := v
      simp only at h ⊢
      have := recordInstance_frame s2 u c host cl (generateFlag u e.now e.flagRand) cid port e h
      exact ⟨this.1.trans (hs.1.trans hg.1), this.2.trans (hs.2.1.trans hg.2.1)⟩

theorem startInstance_ok (s : State) (u c : String) (e : Env) (inst : Instance) (s' : State)
    (h : startInstance s u c e = (.ok inst, s')) :
    ∃ ch host,
      getChallenge s.db c = .ok ch ∧
      getInstanceByUserAndChallenge s.redis u c = none ∧
      chosenHost s.db ch = .ok host ∧ host.enabled = true ∧
      startOnHost s u c ch host e = (.ok inst, s') := by
  unfold startInstance at h
  cases hch : getChallenge s.db c with
  | error m => rw [hch] at h; simp at h
  | panic m => rw [hch] at h; simp at h
  | ok ch =>
    rw [hch] at h
    simp only at h
    cases hdup : getInstanceByUserAndChallenge s.redis u c with
    | some d => rw [hdup] at h; simp at h
    | none =>
      rw [hdup] at h
      simp only at h
      cases hid : resolveHostID s.db ch with
      | error m => rw [hid] at h; simp at h
      | panic m => rw [hid] at h; simp at h
      | ok hostID =>
        rw [hid] at h
        simp only at h
        cases hh : getDockerHostByID s.db hostID with
        | error m => rw [hh] at h; simp at h
        | panic m => rw [hh] at h; simp at h
        | ok host =>
          rw [hh] at h
          simp only at h
          by_cases hen : host.enabled = true
          · simp only [hen, Bool.not_true, Bool.false_eq_true, if_false] at h
            exact ⟨ch, host, rfl, rfl, by simp [chosenHost, hid, hh], hen, h⟩
          · simp [hen] at h

theorem startInstance_frame (s : State) (u c : String) (e : Env)
    (h : ∀ inst, (startInstance s u c e).1 ≠ .ok inst) :
    (startInstance s u c e).2.redis = s.redis ∧ (startInstance s u c e).2.db = s.db := by
  unfold startInstance at h ⊢
  cases hch : getChallenge s.db c with
  | error m => exact ⟨rfl, rfl⟩
  | panic m => exact ⟨rfl, rfl⟩
  | ok ch =>
    rw [hch] at h
    simp only at h ⊢
    cases hdup : getInstanceByUserAndChallenge s.redis u c with
    | some d => exact ⟨rfl, rfl⟩
    | none =>
      rw [hdup] at h
      simp only at h ⊢
      cases hid : resolveHostID s.db ch with
      | error m => exact ⟨rfl, rfl⟩
      | panic m => exact ⟨rfl, rfl⟩
      | ok hostID =>
        rw [hid] at h
        simp only at h ⊢
        cases hh : getDockerHostByID s.db hostID with
        | error m => exact ⟨rfl, rfl⟩
        | panic m => exact ⟨rfl, rfl⟩
        | ok host =>
          rw [hh] at h
          simp only at h ⊢
          by_cases hen : host.enabled = true
          · simp only [hen, Bool.not_true, Bool.false_eq_true, if_false] at h ⊢
            exact startOnHost_frame s u c ch host e h
          · simp [hen]

/-! ## Auxiliary facts for the invariant -/

theorem kvGet_mem {β : Type} (m : List (String × β)) (k : String) (v : β)
    (h : kvGet m k = some v) : (k, v) ∈ m := by
  induction m with
  | nil => simp [kvGet] at h
  | cons p m ih =>
    simp only [kvGet] at h
    by_cases hp : p.1 = k
    · simp only [hp, if_true, Option.some.injEq] at h
      have : p = (k, v) := by rw [← hp, ← h]
      rw [this]; exact List.mem_cons_self _ _
    · simp only [hp, if_false] at h
      exact List.mem_cons_of_mem _ (ih h)

theorem fresh_not_mem (s : State) (n : String) (hf : FreshId s n) (u : String) :
    n ∉ s.redis.smembers u := by
  unfold Redis.smembers
  cases h : kvGet s.redis.sets u with
  | none => simp
  | some l => exact hf.1 (u, l) (kvGet_mem _ _ _ h)

theorem rows_eq_of_id (l : List Instance) (hn : (l.map (·.id)).Nodup) (a b : Instance)
    (ha : a ∈ l) (hb : b ∈ l) (hab : a.id = b.id) : a = b :=
  List.inj_on_of_nodup_map hn ha hb hab

theorem firstInstance_some (db : DB) (i : String) (row : Instance)
    (h : db.firstInstance i = some row) : row ∈ db.instances ∧ row.id = i := by
  unfold DB.firstInstance at h
  exact ⟨List.mem_of_find?_eq_some h, by simpa using List.find?_some h⟩

theorem firstInstance_none (db : DB) (i : String) (h : db.firstInstance i = none) :
    ∀ row ∈ db.instances, row.id ≠ i := by
  unfold DB.firstInstance at h
  intro row hr
  simpa using List.find?_eq_none.1 h row hr

theorem hget_instanceData_challenge (old : Hash) (u c cid flag : String) (port exp : Int) :
    hget ((instanceData u c cid flag port exp).foldl (fun h f => kvSet h f.1 f.2) old)
      "challenge_id" = c := by
  simp [instanceData, hget, kvGet_kvSet]

theorem hget_instanceData_flag (old : Hash) (u c cid flag : String) (port exp : Int) :
    hget ((instanceData u c cid flag port exp).foldl (fun h f => kvSet h f.1 f.2) old)
      "flag" = flag := by
  simp [instanceData, hget, kvGet_kvSet]

theorem hget_instanceData_container (old : Hash) (u c cid flag : String) (port exp : Int) :
    hget ((instanceData u c cid flag port exp).foldl (fun h f => kvSet h f.1 f.2) old)
      "container_id" = cid := by
  simp [instanceData, hget, kvGet_kvSet]

theorem findInstanceData_none (r : Redis) (c : String) (ids : List String)
    (h : findInstanceData r c ids = none) :
    ∀ i ∈ ids, hget (getInstance r i) "challenge_id" ≠ c := by
  induction ids with
  | nil => simp
  | cons a ids ih =>
    simp only [findInstanceData] at h
    by_cases ha : hget (getInstance r a) "challenge_id" = c
    · simp [ha] at h
    · simp only [ha, if_false] at h
      intro i hi
      rcases List.mem_cons.1 hi with rfl | hi
      · exact ha
      · exact ih h i hi

/-! ## The invariant under `recordInstance` -/

theorem inv_congr (s s' : State) (hr : s'.redis = s.redis)
    (hd : s'.db.instances = s.db.instances) (h : Inv s) : Inv s' := by
  constructor
  · intro u i hi
    rw [hr] at hi ⊢; rw [hd]
    exact h.index_row u i hi
  · intro row hrow hrun
    rw [hd] at hrow; rw [hr]
    exact h.row_index row hrow hrun
  · rw [hd]; exact h.row_ids
  · intro u; rw [hr]; exact h.set_nodup u
  · rw [hd]; exact h.one_running

theorem fresh_congr (s s' : State) (hr : s'.redis = s.redis)
    (hd : s'.db.instances = s.db.instances) (n : String) (h : FreshId s n) : FreshId s' n := by
  unfold FreshId at h ⊢
  rw [hr, hd]; exact h

theorem smembers_recorded (s : State) (inst : Instance) (k : String) :
    (recorded s inst).redis.smembers k
      = if k = inst.userID then
          (if inst.id ∈ s.redis.smembers inst.userID then s.redis.smembers inst.userID
           else s.redis.smembers inst.userID ++ [inst.id])
        else s.redis.smembers k := by
  simp only [recorded, smembers_zadd, smembers_sadd, smembers_hset]

theorem hashes_recorded (s : State) (inst : Instance) (k : String) :
    kvGet (recorded s inst).redis.hashes k
      = if k = inst.id then
          some ((instanceData inst.userID inst.challengeID inst.containerID inst.flag inst.port
            inst.expiresAt).foldl (fun h f => kvSet h f.1 f.2)
              ((kvGet s.redis.hashes inst.id).getD []))
        else kvGet s.redis.hashes k := by
  simp only [recorded, zadd_hashes, sadd_hashes, Redis.hset, kvGet_kvSet]

theorem instances_recorded (s : State) (inst : Instance)
    (hf : ∀ i ∈ s.db.instances, i.id ≠ inst.id) :
    (recorded s inst).db.instances = s.db.instances ++ [inst] := by
  simp only [recorded, DB.createInstance]
  have : s.db.instances.any (fun i => decide (i.id = inst.id)) = false := by
    rw [List.any_eq_false]
    intro x hx
    simpa using hf x hx
  rw [this]
  rfl

theorem inv_recorded (s : State) (inst : Instance) (hinv : Inv s) (hf : FreshId s inst.id)
    (hrun : inst.status = "running")
    (hpre : ∀ i ∈ s.redis.smembers inst.userID,
      hget (getInstance s.redis i) "challenge_id" ≠ inst.challengeID) :
    Inv (recorded s inst) := by
  have hnm : ∀ u, inst.id ∉ s.redis.smembers u := fresh_not_mem s inst.id hf
  have hrows := instances_recorded s inst hf.2.2.1
  have hsm : ∀ k, (recorded s inst).redis.smembers k
      = if k = inst.userID then s.redis.smembers inst.userID ++ [inst.id]
        else s.redis.smembers k := by
    intro k
    rw [smembers_recorded]
    simp [hnm inst.userID]
  have hsub : ∀ k, ∀ i ∈ s.redis.smembers k, i ∈ (recorded s inst).redis.smembers k := by
    intro k i hi
    rw [hsm]
    split
    · rename_i hk; subst hk; exact List.mem_append_left _ hi
    · exact hi
  constructor
  · intro u i hi
    rw [hsm] at hi
    have hold : i ∈ s.redis.smembers u → ∃ h row,
        kvGet (recorded s inst).redis.hashes i = some h ∧ row ∈ (recorded s inst).db.instances ∧
        row.id = i ∧ row.userID = u ∧ row.status = "running" ∧
        hget h "challenge_id" = row.challengeID ∧ hget h "flag" = row.flag := by
      intro hi
      obtain ⟨h, row, h1, h2, h3⟩ := hinv.index_row u i hi
      have hne : i ≠ inst.id := fun he => hnm u (he ▸ hi)
      refine ⟨h, row, ?_, ?_, h3⟩
      · rw [hashes_recorded]; simp [hne, h1]
      · rw [hrows]; exact List.mem_append_left _ h2
    by_cases hu : u = inst.userID
    · simp only [hu, if_true] at hi
      rcases List.mem_append.1 hi with hi | hi
      · exact hold (hu ▸ hi)
      · have hi' : i = inst.id := by simpa using hi
        subst hi'
        refine ⟨(instanceData inst.userID inst.challengeID inst.containerID inst.flag inst.port
            inst.expiresAt).foldl (fun h f => kvSet h f.1 f.2)
              ((kvGet s.redis.hashes inst.id).getD []), inst, ?_, ?_, rfl, hu.symm, hrun, ?_, ?_⟩
        · rw [hashes_recorded]; simp
        · rw [hrows]; simp
        · exact hget_instanceData_challenge _ _ _ _ _ _ _
        · exact hget_instanceData_flag _ _ _ _ _ _ _
    · simp only [hu, if_false] at hi
      exact hold hi
  · intro row hrow hr
    rw [hrows] at hrow
    rcases List.mem_append.1 hrow with hrow | hrow
    · exact hsub _ _ (hinv.row_index row hrow hr)
    · have : row = inst := by simpa using hrow
      subst this
      rw [hsm]; simp
  · rw [hrows, List.map_append, List.nodup_append]
    refine ⟨hinv.row_ids, by simp, ?_⟩
    intro a ha hb
    simp only [List.map_cons, List.map_nil, List.mem_singleton] at hb
    obtain ⟨x, hx, hxa⟩ := List.mem_map.1 ha
    exact hf.2.2.1 x hx (hxa.trans hb)
  · intro u
    rw [hsm]
    split
    · rw [List.nodup_append]
      refine ⟨hinv.set_nodup _, by simp, ?_⟩
      intro a ha hb
      have : a = inst.id := by simpa using hb
      exact hnm _ (this ▸ ha)
    · exact hinv.set_nodup u
  · have hnew : ∀ a ∈ s.db.instances, a.status = "running" → a.userID = inst.userID →
        a.challengeID = inst.challengeID → False := by
      intro a ha hra hua hca
      have hmem := hinv.row_index a ha hra
      obtain ⟨h, row, h1, h2, h3, _, _, h6, _⟩ := hinv.index_row _ _ hmem
      have hrow : row = a := rows_eq_of_id _ hinv.row_ids _ _ h2 ha h3
      subst hrow
      rw [hua] at hmem
      apply hpre row.id hmem
      simp only [getInstance, Redis.hgetall, h1, Option.getD_some]
      rw [h6, hca]
    intro a ha b hb hra hrb hu hc
    rw [hrows] at ha hb
    rcases List.mem_append.1 ha with ha' | ha' <;> rcases List.mem_append.1 hb with hb' | hb'
    · exact hinv.one_running a ha' b hb' hra hrb hu hc
    · have hbi : b = inst := by simpa using hb'
      rw [hbi] at hu hc
      exact absurd (hnew a ha' hra hu hc) id
    · have hai : a = inst := by simpa using ha'
      rw [hai] at hu hc
      exact absurd (hnew b hb' hrb hu.symm hc.symm) id
    · have h1 : a = inst := by simpa using ha'
      have h2 : b = inst := by simpa using hb'
      rw [h1, h2]

/-! ## The invariant under deletion; `StopInstance`, `killInstance`, `VerifyFlag` -/

theorem mem_updateInstanceStatus (db : DB) (t st : String) (row : Instance) :
    row ∈ (db.updateInstanceStatus t st).instances ↔
      ∃ r ∈ db.instances, row = if r.id = t then { r with status := st } else r := by
  simp only [DB.updateInstanceStatus, List.mem_map]
  constructor
  · rintro ⟨r, hr, h⟩; exact ⟨r, hr, h.symm⟩
  · rintro ⟨r, hr, h⟩; exact ⟨r, hr, h.symm⟩

theorem ids_updateInstanceStatus (db : DB) (t st : String) :
    (db.updateInstanceStatus t st).instances.map (·.id) = db.instances.map (·.id) := by
  simp only [DB.updateInstanceStatus, List.map_map]
  apply List.map_congr_left
  intro r _
  simp only [Function.comp]
  split <;> rfl

theorem inv_deleted (s s' : State) (t u st : String) (hinv : Inv s) (hst : st ≠ "running")
    (hown : ∀ u', t ∈ s.redis.smembers u' → u' = u)
    (hr : s'.redis = deleteInstance s.redis t u)
    (hd : s'.db.instances = (s.db.updateInstanceStatus t st).instances) : Inv s' := by
  have hsm : ∀ k, ∀ i, i ∈ s'.redis.smembers k ↔ (i ∈ s.redis.smembers k ∧ i ≠ t) := by
    intro k i
    rw [hr, smembers_deleteInstance]
    split
    · rename_i hk; subst hk; simp
    · constructor
      · intro hi
        refine ⟨hi, ?_⟩
        rintro rfl
        rename_i hk
        exact hk (hown k hi)
      · exact fun h => h.1
  constructor
  · intro k i hi
    obtain ⟨hi, hne⟩ := (hsm k i).1 hi
    obtain ⟨h, row, h1, h2, h3, h4, h5, h6⟩ := hinv.index_row k i hi
    refine ⟨h, row, ?_, ?_, h3, h4, h5, h6⟩
    · rw [hr, hashes_deleteInstance]; simp [hne, h1]
    · rw [hd, mem_updateInstanceStatus]
      refine ⟨row, h2, ?_⟩
      have : ¬ row.id = t := by rw [h3]; exact hne
      simp [this]
  · intro row hrow hrun
    rw [hd, mem_updateInstanceStatus] at hrow
    obtain ⟨r, hr0, hrr⟩ := hrow
    by_cases ht : r.id = t
    · simp only [ht, if_true] at hrr
      rw [hrr] at hrun
      exact absurd hrun hst
    · simp only [ht, if_false] at hrr
      subst hrr
      exact (hsm _ _).2 ⟨hinv.row_index row hr0 hrun, ht⟩
  · rw [hd, ids_updateInstanceStatus]; exact hinv.row_ids
  · intro k
    rw [hr, smembers_deleteInstance]
    split
    · exact (hinv.set_nodup _).filter _
    · exact hinv.set_nodup _
  · intro a ha b hb hra hrb hu hc
    rw [hd, mem_updateInstanceStatus] at ha hb
    obtain ⟨ra, hra0, hea⟩ := ha
    obtain ⟨rb, hrb0, heb⟩ := hb
    by_cases hta : ra.id = t
    · simp only [hta, if_true] at hea
      rw [hea] at hra
      exact absurd hra hst
    · by_cases htb : rb.id = t
      · simp only [htb, if_true] at heb
        rw [heb] at hrb
        exact absurd hrb hst
      · simp only [hta, if_false] at hea
        simp only [htb, if_false] at heb
        subst hea; subst heb
        exact hinv.one_running a hra0 b hrb0 hra hrb hu hc

theorem getDockerHostByID_ne_panic (db : DB) (id m : String) :
    getDockerHostByID db id ≠ .panic m := by
  unfold getDockerHostByID
  split <;> simp

theorem getOrCreateClient_ne_panic (s : State) (h : DockerHost) (e : Env) (m : String) :
    (getOrCreateClient s h e).1 ≠ .panic m := by
  unfold getOrCreateClient
  split
  · simp
  · split <;> simp

theorem updateInstanceStatus_of_none (db : DB) (t st : String)
    (h : db.firstInstance t = none) :
    (db.updateInstanceStatus t st).instances = db.instances := by
  have := firstInstance_none db t h
  simp only [DB.updateInstanceStatus]
  conv_rhs => rw [← List.map_id db.instances]
  apply List.map_congr_left
  intro r hr
  simp [this r hr]

/-- What `StopInstance` does to the index and to the instance rows. -/
theorem stopInstance_cases (s : State) (u c : String) (e : Env) :
    (findTargetInstance s.redis c (s.redis.smembers u) = "" ∧
      stopInstance s u c e = (.error noInstanceMsg, s)) ∨
    (findTargetInstance s.redis c (s.redis.smembers u) ≠ "" ∧
      (stopInstance s u c e).2.redis
        = deleteInstance s.redis (findTargetInstance s.redis c (s.redis.smembers u)) u ∧
      (stopInstance s u c e).2.db.instances
        = (s.db.updateInstanceStatus (findTargetInstance s.redis c (s.redis.smembers u))
            "stopped").instances) := by
  unfold stopInstance
  simp only [getUserActiveInstances]
  generalize findTargetInstance s.redis c (s.redis.smembers u) = t
  by_cases ht : t = ""
  · left; exact ⟨ht, by simp [ht]⟩
  · right
    refine ⟨ht, ?_⟩
    simp only [ht, if_false]
    cases hrow : s.db.firstInstance t with
    | none => exact ⟨rfl, (updateInstanceStatus_of_none s.db t _ hrow).symm⟩
    | some row =>
      simp only
      cases hh : getDockerHostByID s.db row.dockerHostID with
      | error m => exact ⟨rfl, rfl⟩
      | panic m => exact absurd hh (getDockerHostByID_ne_panic _ _ _)
      | ok host =>
        simp only
        have hg := getOrCreateClient_frame s host e
        rcases hgc : getOrCreateClient s host e with ⟨r, s1⟩
        rw [hgc] at hg
        simp only at hg
        cases r with
        | error m => simp only; rw [hg.1, hg.2.1]; exact ⟨rfl, rfl⟩
        | panic m => exact absurd (congrArg Prod.fst hgc) (getOrCreateClient_ne_panic _ _ _ _)
        | ok cl =>
          simp only
          have hs := stopContainer_frame cl s1 (hget (getInstance s.redis t) "container_id") e
          rw [hs.1, hs.2.1, hg.1, hg.2.1]
          exact ⟨rfl, rfl⟩


/-- What `killInstance` does to the index and to the instance rows. -/
theorem killInstance_cases (s : State) (i : String) (e : Env) :
    (s.db.firstInstance i = none ∧
      (killInstance s i e).redis = removeFromExpiredSet s.redis i ∧
      (killInstance s i e).db = s.db) ∨
    (∃ row, s.db.firstInstance i = some row ∧
      (killInstance s i e).redis = deleteInstance s.redis i row.userID ∧
      (killInstance s i e).db = s.db.updateInstanceStatus i "expired") := by
  unfold killInstance
  cases hrow : s.db.firstInstance i with
  | none => left; exact ⟨rfl, rfl, rfl⟩
  | some row =>
    right
    refine ⟨row, rfl, ?_⟩
    simp only
    cases hh : getDockerHostByID s.db row.dockerHostID with
    | error m => exact ⟨rfl, rfl⟩
    | panic m => exact ⟨rfl, rfl⟩
    | ok host =>
      simp only
      have hg := getOrCreateClient_frame s host e
      rcases hgc : getOrCreateClient s host e with ⟨r, s1⟩
      rw [hgc] at hg
      simp only at hg
      cases r with
      | error m => simp only; rw [hg.1, hg.2.1]; exact ⟨rfl, rfl⟩
      | panic m => simp only; rw [hg.1, hg.2.1]; exact ⟨rfl, rfl⟩
      | ok cl =>
        simp only
        generalize (if (getInstance s.redis i).length > 0 ∧
          hget (getInstance s.redis i) "container_id" ≠ "" then
            hget (getInstance s.redis i) "container_id" else row.containerID) = cid
        have hs := stopContainer_frame cl s1 cid e
        rw [hs.1, hs.2.1, hg.1, hg.2.1]
        exact ⟨rfl, rfl⟩

theorem verifyFlag_none (s : State) (u c f : String) (e : Env)
    (h : findCorrectFlag s.redis c (s.redis.smembers u) = "") :
    verifyFlag s u c f e = (.ok (false, noActiveInstanceMsg), s) := by
  unfold verifyFlag
  simp only [getUserActiveInstances, h, if_true]

theorem verifyFlag_wrong (s : State) (u c f : String) (e : Env)
    (h : findCorrectFlag s.redis c (s.redis.smembers u) ≠ "")
    (hf : findCorrectFlag s.redis c (s.redis.smembers u) ≠ f) :
    verifyFlag s u c f e
      = (.ok (false, "Flag 错误，请重试。"),
         { s with db := (s.db.createSubmission (newSubmission u c f false 0 e)).2 }) := by
  unfold verifyFlag
  simp only [getUserActiveInstances, h, if_false, awardPoints, hf, decide_False,
    Bool.false_eq_true, newSubmission]

theorem verifyFlag_right (s : State) (u c f : String) (e : Env) (ch : Challenge)
    (h : findCorrectFlag s.redis c (s.redis.smembers u) ≠ "")
    (hf : findCorrectFlag s.redis c (s.redis.smembers u) = f)
    (hch : s.db.firstChallenge c = some ch) :
    verifyFlag s u c f e
      = (.ok (true, "回答正确！你获得了积分。"),
         { s with db := ((s.db.addUserPoints u ch.points).createSubmission
             (newSubmission u c f true ch.points e)).2 }) := by
  subst hf
  unfold verifyFlag
  simp only [getUserActiveInstances, h, if_false, awardPoints, decide_True, if_true, hch,
    newSubmission]

theorem verifyFlag_panic (s : State) (u c f : String) (e : Env)
    (h : findCorrectFlag s.redis c (s.redis.smembers u) ≠ "")
    (hf : findCorrectFlag s.redis c (s.redis.smembers u) = f)
    (hch : s.db.firstChallenge c = none) :
    verifyFlag s u c f e
      = (.panic "invalid memory address or nil pointer dereference", s) := by
  subst hf
  unfold verifyFlag
  simp only [getUserActiveInstances, h, if_false, awardPoints, decide_True, if_true, hch]

theorem createSubmission_frame (db : DB) (sub : Submission) :
    (db.createSubmission sub).2.instances = db.instances ∧
      (db.createSubmission sub).2.challenges = db.challenges ∧
      (db.createSubmission sub).2.users = db.users ∧
      (db.createSubmission sub).2.dockerHosts = db.dockerHosts := by
  unfold DB.createSubmission
  split <;> exact ⟨rfl, rfl, rfl, rfl⟩

theorem verifyFlag_frame (s : State) (u c f : String) (e : Env) :
    (verifyFlag s u c f e).2.redis = s.redis ∧
      (verifyFlag s u c f e).2.db.instances = s.db.instances ∧
      (verifyFlag s u c f e).2.db.challenges = s.db.challenges := by
  by_cases h : findCorrectFlag s.redis c (s.redis.smembers u) = ""
  · rw [verifyFlag_none s u c f e h]; exact ⟨rfl, rfl, rfl⟩
  · by_cases hf : findCorrectFlag s.redis c (s.redis.smembers u) = f
    · cases hch : s.db.firstChallenge c with
      | none => rw [verifyFlag_panic s u c f e h hf hch]; exact ⟨rfl, rfl, rfl⟩
      | some ch =>
        rw [verifyFlag_right s u c f e ch h hf hch]
        have := createSubmission_frame (s.db.addUserPoints u ch.points)
          (newSubmission u c f true ch.points e)
        exact ⟨rfl, this.1, this.2.1⟩
    · rw [verifyFlag_wrong s u c f e h hf]
      have := createSubmission_frame s.db (newSubmission u c f false 0 e)
      exact ⟨rfl, this.1, this.2.1⟩

/-! ## The invariant along runs -/

theorem inv_congr' (s s' : State) (hs : ∀ k, s'.redis.smembers k = s.redis.smembers k)
    (hh : s'.redis.hashes = s.redis.hashes)
    (hd : s'.db.instances = s.db.instances) (h : Inv s) : Inv s' := by
  constructor
  · intro u i hi
    rw [hs] at hi; rw [hh, hd]
    exact h.index_row u i hi
  · intro row hrow hrun
    rw [hd] at hrow; rw [hs]
    exact h.row_index row hrow hrun
  · rw [hd]; exact h.row_ids
  · intro u; rw [hs]; exact h.set_nodup u
  · rw [hd]; exact h.one_running

theorem findTargetInstance_mem (r : Redis) (c : String) (ids : List String)
    (h : findTargetInstance r c ids ≠ "") :
    findTargetInstance r c ids ∈ ids ∧
      hget (getInstance r (findTargetInstance r c ids)) "challenge_id" = c := by
  induction ids with
  | nil => simp [findTargetInstance] at h
  | cons a ids ih =>
    simp only [findTargetInstance] at h ⊢
    by_cases ha : hget (getInstance r a) "challenge_id" = c
    · rw [if_pos ha]
      exact ⟨List.mem_cons_self _ _, ha⟩
    · simp only [ha, if_false] at h ⊢
      exact ⟨List.mem_cons_of_mem _ (ih h).1, (ih h).2⟩

theorem inv_owner (s : State) (hinv : Inv s) (t u u' : String)
    (h1 : t ∈ s.redis.smembers u) (h2 : t ∈ s.redis.smembers u') : u' = u := by
  obtain ⟨_, r1, _, hr1, hid1, hu1, _⟩ := hinv.index_row u t h1
  obtain ⟨_, r2, _, hr2, hid2, hu2, _⟩ := hinv.index_row u' t h2
  have : r1 = r2 := rows_eq_of_id _ hinv.row_ids _ _ hr1 hr2 (hid1.trans hid2.symm)
  rw [← hu1, ← hu2, this]

theorem inv_empty (s : State) (h : s.isEmpty) : Inv s := by
  obtain ⟨hr, hi, _, _⟩ := h
  constructor
  · intro u i hi'; rw [hr] at hi'; simp [Redis.smembers, kvGet] at hi'
  · intro row hrow; rw [hi] at hrow; simp at hrow
  · rw [hi]; simp
  · intro u; rw [hr]; simp [Redis.smembers, kvGet]
  · intro a ha; rw [hi] at ha; simp at ha

theorem inv_start (s : State) (u c : String) (e : Env) (hinv : Inv s)
    (hf : FreshId s (generateID e.idRand)) : Inv (startInstance s u c e).2 := by
  by_cases hok : ∃ inst, (startInstance s u c e).1 = .ok inst
  · obtain ⟨inst, hinst⟩ := hok
    have hpair : startInstance s u c e = (.ok inst, (startInstance s u c e).2) := by
      rw [← hinst]
    obtain ⟨ch, host, _, hdup, _, _, hon⟩ := startInstance_ok s u c e inst _ hpair
    obtain ⟨cl, s1, cid, port, s2, hgc, hsc, _, hi, hs'⟩ := startOnHost_ok s u c ch host e inst _ hon
    have hg := getOrCreateClient_frame s host e
    rw [hgc] at hg
    have hs := startContainer_frame cl s1 (resolveImageName s1.db ch)
        [sprintf "FLAG=%s" [.str (generateFlag u e.now e.flagRand)]] ch.port ch.privileged
        ch.memoryLimit ch.cpuLimit e
    rw [hsc] at hs
    simp only at hg hs
    have hr2 : s2.redis = s.redis := hs.1.trans hg.1
    have hd2 : s2.db = s.db := hs.2.1.trans hg.2.1
    rw [hs']
    have hid : inst.id = generateID e.idRand := by rw [hi]; rfl
    have hu : inst.userID = u := by rw [hi]; rfl
    have hc : inst.challengeID = c := by rw [hi]; rfl
    apply inv_recorded s2 inst (inv_congr s s2 hr2 (by rw [hd2]) hinv)
    · rw [hid]; exact fresh_congr s s2 hr2 (by rw [hd2]) _ hf
    · rw [hi]; rfl
    · rw [hr2, hu, hc]
      exact findInstanceData_none s.redis c _ hdup
  · have hfr := startInstance_frame s u c e (fun inst h => hok ⟨inst, h⟩)
    exact inv_congr s _ hfr.1 (by rw [hfr.2]) hinv

theorem inv_stop (s : State) (u c : String) (e : Env) (hinv : Inv s) :
    Inv (stopInstance s u c e).2 := by
  rcases stopInstance_cases s u c e with ⟨_, h⟩ | ⟨ht, hr, hd⟩
  · rw [h]; exact hinv
  · have hmem := (findTargetInstance_mem s.redis c _ ht).1
    exact inv_deleted s _ _ u "stopped" hinv (by decide)
      (fun u' h' => inv_owner s hinv _ u u' hmem h') hr hd

theorem inv_verify (s : State) (u c f : String) (e : Env) (hinv : Inv s) :
    Inv (verifyFlag s u c f e).2 :=
  inv_congr s _ (verifyFlag_frame s u c f e).1 (verifyFlag_frame s u c f e).2.1 hinv

theorem inv_kill (s : State) (i : String) (e : Env) (hinv : Inv s) :
    Inv (killInstance s i e) := by
  rcases killInstance_cases s i e with ⟨_, hr, hd⟩ | ⟨row, hrow, hr, hd⟩
  · apply inv_congr' s _ _ _ (by rw [hd]) hinv
    · intro k; rw [hr]; rfl
    · rw [hr]; rfl
  · obtain ⟨hrmem, hrid⟩ := firstInstance_some s.db i row hrow
    apply inv_deleted s _ i row.userID "expired" hinv (by decide) _ hr (by rw [hd])
    intro u' h'
    obtain ⟨_, r2, _, hr2, hid2, hu2, _⟩ := hinv.index_row u' i h'
    have : row = r2 := rows_eq_of_id _ hinv.row_ids _ _ hrmem hr2 (hrid.trans hid2.symm)
    rw [← hu2, this]

theorem inv_step (s s' : State) (h : Step s s') (hinv : Inv s) : Inv s' := by
  cases h with
  | start u c e hf => exact inv_start s u c e hinv hf
  | stop u c e => exact inv_stop s u c e hinv
  | verify u c f e => exact inv_verify s u c f e hinv
  | reap i e => exact inv_kill s i e hinv

theorem inv_steps (s s' : State) (h : Steps s s') (hinv : Inv s) : Inv s' := by
  induction h with
  | refl => exact hinv
  | tail _ hstep ih => exact inv_step _ _ hstep ih

theorem reachable_inv (s : State) (h : Reachable s) : Inv s := by
  obtain ⟨s0, h0, hs⟩ := h
  exact inv_steps s0 s hs (inv_empty s0 h0)

theorem length_le_one_of_nodup {α : Type} (l : List α) (hn : l.Nodup)
    (h : ∀ a ∈ l, ∀ b ∈ l, a = b) : l.length ≤ 1 := by
  match l, hn, h with
  | [], _, _ => simp
  | [_], _, _ => simp
  | a :: b :: t, hn, h =>
    have hab : a = b := h a (by simp) b (by simp)
    rw [hab] at hn
    simp at hn

theorem inv_liveIds (s : State) (hinv : Inv s) (u c : String) :
    (liveIds s.redis u c).length ≤ 1 := by
  apply length_le_one_of_nodup
  · exact (hinv.set_nodup u).filter _
  · intro a ha b hb
    simp only [liveIds, List.mem_filter] at ha hb
    obtain ⟨ha1, ha2⟩ := ha
    obtain ⟨hb1, hb2⟩ := hb
    obtain ⟨h1, r1, hh1, hr1, hid1, hu1, hrun1, hc1, _⟩ := hinv.index_row u a ha1
    obtain ⟨h2, r2, hh2, hr2, hid2, hu2, hrun2, hc2, _⟩ := hinv.index_row u b hb1
    rw [hh1] at ha2; rw [hh2] at hb2
    simp only [decide_eq_true_eq] at ha2 hb2
    have : r1 = r2 := hinv.one_running r1 hr1 r2 hr2 hrun1 hrun2 (hu1.trans hu2.symm)
      (by rw [← hc1, ← hc2, ha2, hb2])
    rw [← hid1, ← hid2, this]

theorem inv_runningRows (s : State) (hinv : Inv s) (u c : String) :
    (runningRows s.db u c).length ≤ 1 := by
  apply length_le_one_of_nodup
  · exact (List.Nodup.of_map _ hinv.row_ids).filter _
  · intro a ha b hb
    simp only [runningRows, List.mem_filter, Bool.and_eq_true, decide_eq_true_eq] at ha hb
    exact hinv.one_running a ha.1 b hb.1 ha.2.2 hb.2.2 (ha.2.1.1.trans hb.2.1.1.symm)
      (ha.2.1.2.trans hb.2.1.2.symm)

/-! ## Duplicate start, missing instance, port allocation -/

/-! a second start of the same challenge -/

theorem findInstanceData_some (r : Redis) (c : String) (ids : List String) (i : String)
    (hi : i ∈ ids) (hc : hget (getInstance r i) "challenge_id" = c) :
    ∃ d, findInstanceData r c ids = some d := by
  induction ids with
  | nil => simp at hi
  | cons a ids ih =>
    simp only [findInstanceData]
    by_cases ha : hget (getInstance r a) "challenge_id" = c
    · exact ⟨_, by rw [if_pos ha]⟩
    · rw [if_neg ha]
      rcases List.mem_cons.1 hi with rfl | hi
      · exact absurd hc ha
      · exact ih hi

theorem startInstance_duplicate (s : State) (u c : String) (e : Env) (ch : Challenge)
    (i : String) (h : Hash)
    (hch : s.db.firstChallenge c = some ch)
    (hi : i ∈ s.redis.smembers u) (hh : kvGet s.redis.hashes i = some h)
    (hc : hget h "challenge_id" = c) :
    startInstance s u c e = (.error alreadyStartedMsg, s) := by
  have hget' : hget (getInstance s.redis i) "challenge_id" = c := by
    simp only [getInstance, Redis.hgetall, hh, Option.getD_some, hc]
  obtain ⟨d, hd⟩ := findInstanceData_some s.redis c _ i hi hget'
  unfold startInstance
  simp only [getChallenge, hch, getInstanceByUserAndChallenge, getUserActiveInstances, hd]

/-! verification without an instance -/

theorem findCorrectFlag_of_not_live (r : Redis) (c : String) (ids : List String)
    (h : ∀ i ∈ ids, ∀ hsh, kvGet r.hashes i = some hsh → hget hsh "challenge_id" ≠ c) :
    findCorrectFlag r c ids = "" := by
  induction ids with
  | nil => rfl
  | cons a ids ih =>
    simp only [findCorrectFlag]
    have ih' := ih (fun i hi => h i (List.mem_cons_of_mem _ hi))
    cases hk : kvGet r.hashes a with
    | none =>
      simp only [getInstance, Redis.hgetall, hk, Option.getD_none, ih']
      split
      · rfl
      · rfl
    | some hsh =>
      have := h a (List.mem_cons_self _ _) hsh hk
      simp only [getInstance, Redis.hgetall, hk, Option.getD_some, this, if_false, ih']

theorem liveIds_nil_iff (r : Redis) (u c : String) :
    liveIds r u c = [] ↔
      ∀ i ∈ r.smembers u, ∀ hsh, kvGet r.hashes i = some hsh → hget hsh "challenge_id" ≠ c := by
  simp only [liveIds, List.filter_eq_nil_iff]
  constructor
  · intro h i hi hsh hk hc
    have := h i hi
    rw [hk] at this
    simp [hc] at this
  · intro h i hi
    cases hk : kvGet r.hashes i with
    | none => simp
    | some hsh => simpa using h i hi hsh hk

theorem verifyFlag_without_instance (s : State) (u c f : String) (e : Env)
    (h : liveIds s.redis u c = []) :
    verifyFlag s u c f e = (.ok (false, noActiveInstanceMsg), s) :=
  verifyFlag_none s u c f e
    (findCorrectFlag_of_not_live s.redis c _ ((liveIds_nil_iff s.redis u c).1 h))

/-! port allocation -/

theorem wrapInt64_of_isInt64 (x : Int) (h : isInt64 x) : wrapInt64 x = x := by
  unfold isInt64 at h
  unfold wrapInt64
  omega

theorem allocatePort_ok (d : DockerClient) (draw : Nat)
    (hmin : isInt64 d.portRangeMin) (hmax : isInt64 d.portRangeMax)
    (hle : d.portRangeMin ≤ d.portRangeMax)
    (hno : d.portRangeMax - d.portRangeMin + 1 < 2 ^ 63) :
    ∃ p, d.allocatePort draw = .ok p ∧ d.portRangeMin ≤ p ∧ p ≤ d.portRangeMax := by
  unfold isInt64 at hmin hmax
  have hw : wrapInt64 (d.portRangeMax - d.portRangeMin + 1)
      = d.portRangeMax - d.portRangeMin + 1 :=
    wrapInt64_of_isInt64 _ ⟨by omega, hno⟩
  have hpos : 0 < d.portRangeMax - d.portRangeMin + 1 := by omega
  have h0 := Int.emod_nonneg (draw : Int) (ne_of_gt hpos)
  have h1 := Int.emod_lt_of_pos (draw : Int) hpos
  refine ⟨d.portRangeMin + (draw : Int) % (d.portRangeMax - d.portRangeMin + 1), ?_, ?_, ?_⟩
  · unfold DockerClient.allocatePort randIntn
    simp only [hw]
    rw [if_neg (by omega)]
    simp only
    rw [wrapInt64_of_isInt64]
    unfold isInt64
    constructor <;> omega
  · omega
  · omega

theorem allocatePort_range (d : DockerClient) (draw : Nat) (p : Int)
    (hmin : isInt64 d.portRangeMin) (hmax : isInt64 d.portRangeMax)
    (hle : d.portRangeMin ≤ d.portRangeMax)
    (h : d.allocatePort draw = .ok p) : d.portRangeMin ≤ p ∧ p ≤ d.portRangeMax := by
  by_cases hno : d.portRangeMax - d.portRangeMin + 1 < 2 ^ 63
  · obtain ⟨q, hq, h1, h2⟩ := allocatePort_ok d draw hmin hmax hle hno
    rw [h] at hq
    cases hq
    exact ⟨h1, h2⟩
  · exfalso
    unfold isInt64 at hmin hmax
    have hw : wrapInt64 (d.portRangeMax - d.portRangeMin + 1) ≤ 0 := by
      unfold wrapInt64; omega
    unfold DockerClient.allocatePort randIntn at h
    simp only [hw, if_true] at h
    cases h

/-! ## Ports of started instances -/

theorem getOrCreateClient_range (s : State) (host : DockerHost) (e : Env) (cl : DockerClient)
    (s1 : State) (hco : poolCoherent s host) (h : getOrCreateClient s host e = (.ok cl, s1)) :
    cl.portRangeMin = host.portRangeMin ∧ cl.portRangeMax = host.portRangeMax := by
  unfold getOrCreateClient at h
  unfold poolCoherent at hco
  cases hk : kvGet s.clients host.id with
  | some c0 =>
    rw [hk] at h hco
    simp only [Prod.mk.injEq, Result.ok.injEq] at h
    rw [← h.1]; exact hco
  | none =>
    rw [hk] at h
    simp only at h
    by_cases hf : e.newClientFails = true
    · simp [hf] at h
    · simp only [hf, Bool.false_eq_true, if_false, Prod.mk.injEq, Result.ok.injEq] at h
      rw [← h.1]; exact ⟨rfl, rfl⟩

theorem startContainer_ok_port (d : DockerClient) (s : State) (img : String)
    (env : List String) (cp : Int) (pr : Bool) (ml : Int) (cpu : Nat) (e : Env) (cid : String)
    (port : Int)
    (s2 : State) (h : d.startContainer s img env cp pr ml cpu e = (.ok (cid, port), s2)) :
    d.allocatePort e.portRand = .ok port ∧ e.containerCreate = some cid := by
  unfold DockerClient.startContainer at h
  by_cases h1 : e.ensureImageFails = true
  · simp [h1] at h
  · simp only [h1, Bool.false_eq_true, if_false] at h
    cases hp : d.allocatePort e.portRand with
    | panic m => rw [hp] at h; simp at h
    | error m => rw [hp] at h; simp at h
    | ok p =>
      rw [hp] at h
      simp only at h
      cases hc : e.containerCreate with
      | none => rw [hc] at h; simp at h
      | some id =>
        rw [hc] at h
        simp only at h
        by_cases h2 : e.containerStartFails = true
        · simp [h2] at h
        · simp only [h2, Bool.false_eq_true, if_false, Prod.mk.injEq, Result.ok.injEq] at h
          obtain ⟨⟨h3, h4⟩, _⟩ := h
          rw [h3, h4]
          exact ⟨rfl, rfl⟩

theorem getDockerHostByID_ok (db : DB) (id : String) (host : DockerHost)
    (h : getDockerHostByID db id = .ok host) : host.id = id ∧ host ∈ db.dockerHosts := by
  unfold getDockerHostByID at h
  cases hf : db.dockerHosts.find? (fun h => decide (h.id = id)) with
  | none => rw [hf] at h; simp at h
  | some x =>
    rw [hf] at h
    simp only [Result.ok.injEq] at h
    subst h
    exact ⟨by simpa using List.find?_some hf, List.mem_of_find?_eq_some hf⟩

theorem chosenHost_ok (db : DB) (ch : Challenge) (host : DockerHost)
    (h : chosenHost db ch = .ok host) : getDockerHostByID db host.id = .ok host := by
  unfold chosenHost at h
  cases hr : resolveHostID db ch with
  | error m => rw [hr] at h; simp at h
  | panic m => rw [hr] at h; simp at h
  | ok id =>
    rw [hr] at h
    simp only at h
    rw [(getDockerHostByID_ok db id host h).1]
    exact h

/-- Shape of a successful `StartInstance`. -/
theorem startInstance_ok_shape (s : State) (u c : String) (e : Env) (inst : Instance)
    (s' : State) (h : startInstance s u c e = (.ok inst, s')) :
    ∃ ch host cl s1 cid port s2,
      getChallenge s.db c = .ok ch ∧
      getInstanceByUserAndChallenge s.redis u c = none ∧
      getDockerHostByID s.db host.id = .ok host ∧ chosenHost s.db ch = .ok host ∧
      host.enabled = true ∧
      getOrCreateClient s host e = (.ok cl, s1) ∧
      cl.startContainer s1 (resolveImageName s1.db ch)
        [sprintf "FLAG=%s" [.str (generateFlag u e.now e.flagRand)]] ch.port ch.privileged
        ch.memoryLimit ch.cpuLimit e = (.ok (cid, port), s2) ∧
      0 < ttlSeconds s.ttlHours ∧
      inst = newInstance s.ttlHours u c host (generateFlag u e.now e.flagRand) cid port e ∧
      s' = recorded s2 inst := by
  obtain ⟨ch, host, h1, h2, h3, h4, h5⟩ := startInstance_ok s u c e inst s' h
  obtain ⟨cl, s1, cid, port, s2, h6, h7, h8, h9, h10⟩ := startOnHost_ok s u c ch host e inst s' h5
  exact ⟨ch, host, cl, s1, cid, port, s2, h1, h2, chosenHost_ok _ _ _ h3, h3, h4, h6, h7, h8,
    h9, h10⟩

theorem startInstance_port_range (host : DockerHost)
    (hmin : isInt64 host.portRangeMin) (hmax : isInt64 host.portRangeMax)
    (hle : host.portRangeMin ≤ host.portRangeMax)
    (s : State) (u c : String) (e : Env) (inst : Instance) (s' : State)
    (hco : poolCoherent s host)
    (h : startInstance s u c e = (.ok inst, s'))
    (hh : getDockerHostByID s.db inst.dockerHostID = .ok host) :
    host.portRangeMin ≤ inst.port ∧ inst.port ≤ host.portRangeMax := by
  obtain ⟨ch, host', cl, s1, cid, port, s2, _, _, h3, _, _, h6, h7, _, h9, _⟩ :=
    startInstance_ok_shape s u c e inst s' h
  have hid : inst.dockerHostID = host'.id := by rw [h9]; rfl
  have hport : inst.port = port := by rw [h9]; rfl
  rw [hid, h3] at hh
  simp only [Result.ok.injEq] at hh
  subst hh
  obtain ⟨r1, r2⟩ := getOrCreateClient_range s host' e cl s1 hco h6
  have hp := (startContainer_ok_port cl s1 _ _ _ _ _ _ e cid port s2 h7).1
  rw [hport, ← r1, ← r2]
  exact allocatePort_range cl e.portRand port (by rw [r1]; exact hmin) (by rw [r2]; exact hmax)
    (by rw [r1, r2]; exact hle) hp

/-! ## The shared clean-up -/

theorem killInstance_eq_cleanup (s : State) (i : String) (e : Env) (row : Instance)
    (h : s.db.firstInstance i = some row) :
    killInstance s i e
      = cleanup s i row.userID
          (if (getInstance s.redis i).length > 0 ∧ hget (getInstance s.redis i) "container_id" ≠ ""
            then hget (getInstance s.redis i) "container_id" else row.containerID)
          row.dockerHostID "expired" e := by
  unfold killInstance cleanup
  simp only [h]

theorem stopInstance_eq_cleanup (s : State) (u c : String) (e : Env) (row : Instance)
    (ht : findTargetInstance s.redis c (s.redis.smembers u) ≠ "")
    (h : s.db.firstInstance (findTargetInstance s.redis c (s.redis.smembers u)) = some row) :
    (stopInstance s u c e).2
      = cleanup s (findTargetInstance s.redis c (s.redis.smembers u)) u
          (hget (getInstance s.redis (findTargetInstance s.redis c (s.redis.smembers u)))
            "container_id")
          row.dockerHostID "stopped" e := by
  unfold stopInstance cleanup
  simp only [getUserActiveInstances, ht, if_false, h]
  cases hh : getDockerHostByID s.db row.dockerHostID with
  | error m => rfl
  | panic m => exact absurd hh (getDockerHostByID_ne_panic _ _ _)
  | ok host =>
    simp only
    rcases hgc : getOrCreateClient s host e with ⟨r, s1⟩
    cases r with
    | ok cl => rfl
    | error m => rfl
    | panic m => exact absurd (congrArg Prod.fst hgc) (getOrCreateClient_ne_panic _ _ _ _)

/-- The clean-up does the same to the index, the containers and the pool
whatever the final status; the rows differ in that status only. -/
theorem cleanup_status (s : State) (i u cid hid st : String) (e : Env) :
    (cleanup s i u cid hid st e).redis = deleteInstance s.redis i u ∧
    (cleanup s i u cid hid st e).db = s.db.updateInstanceStatus i st ∧
    (cleanup s i u cid hid st e).containers = (cleanup s i u cid hid "" e).containers ∧
    (cleanup s i u cid hid st e).clients = (cleanup s i u cid hid "" e).clients ∧
    (cleanup s i u cid hid st e).ttlHours = s.ttlHours := by
  unfold cleanup
  cases getDockerHostByID s.db hid with
  | error m => exact ⟨rfl, rfl, rfl, rfl, rfl⟩
  | panic m => exact ⟨rfl, rfl, rfl, rfl, rfl⟩
  | ok host =>
    simp only
    have hg := getOrCreateClient_frame s host e
    rcases hgc : getOrCreateClient s host e with ⟨r, s1⟩
    rw [hgc] at hg
    simp only at hg
    cases r with
    | error m => simp only; rw [hg.1, hg.2.1]; exact ⟨rfl, rfl, trivial, trivial, hg.2.2.2⟩
    | panic m => simp only; rw [hg.1, hg.2.1]; exact ⟨rfl, rfl, trivial, trivial, hg.2.2.2⟩
    | ok cl =>
      simp only
      have hs := stopContainer_frame cl s1 cid e
      rw [hs.1, hs.2.1, hg.1, hg.2.1]
      exact ⟨rfl, rfl, trivial, trivial, hs.2.2.2.trans hg.2.2.2⟩

theorem stopContainer_removes (d : DockerClient) (s : State) (cid : String) (e : Env)
    (h1 : e.containerStopFails = false) (h2 : e.containerRemoveFails = false) :
    hasContainer (d.stopContainer s cid e).2 d.endpoint cid = false := by
  unfold DockerClient.stopContainer
  by_cases hc : hasContainer s d.endpoint cid = true
  · simp only [hc, Bool.not_true, h1, Bool.or_self, Bool.false_eq_true, if_false, h2]
    simp only [hasContainer, List.any_eq_false, List.mem_filter]
    intro x hx
    have := hx.2
    simp only [Bool.not_eq_true', Bool.and_eq_false_imp, decide_eq_true_eq,
      decide_eq_false_iff_not] at this
    simp only [Bool.and_eq_true, decide_eq_true_eq, not_and]
    exact this
  · simp only [Bool.not_eq_true] at hc
    simp [hc]

/-! ## `StopInstance` in detail -/

theorem zset_deleteInstance (r : Redis) (i u k : String) :
    kvGet (deleteInstance r i u).zset k = if k = i then none else kvGet r.zset k := by
  unfold deleteInstance
  simp [Redis.zrem, kvGet_kvDel]

theorem findTargetInstance_none (r : Redis) (c : String) (ids : List String)
    (h : ∀ j ∈ ids, hget (getInstance r j) "challenge_id" ≠ c) :
    findTargetInstance r c ids = "" := by
  induction ids with
  | nil => rfl
  | cons a ids ih =>
    simp only [findTargetInstance]
    rw [if_neg (h a (List.mem_cons_self _ _))]
    exact ih (fun j hj => h j (List.mem_cons_of_mem _ hj))

theorem stopInstance_ok_shape (s : State) (u c : String) (e : Env)
    (hok : (stopInstance s u c e).1 = .ok ()) :
    findTargetInstance s.redis c (s.redis.smembers u) ≠ "" ∧
    ∃ row host cl s1,
      s.db.firstInstance (findTargetInstance s.redis c (s.redis.smembers u)) = some row ∧
      getDockerHostByID s.db row.dockerHostID = .ok host ∧
      getOrCreateClient s host e = (.ok cl, s1) ∧
      (stopInstance s u c e).2.containers
        = (cl.stopContainer s1 (hget (getInstance s.redis
            (findTargetInstance s.redis c (s.redis.smembers u))) "container_id") e).2.containers := by
  unfold stopInstance at hok
  simp only [getUserActiveInstances] at hok
  by_cases ht : findTargetInstance s.redis c (s.redis.smembers u) = ""
  · simp [ht] at hok
  · refine ⟨ht, ?_⟩
    simp only [ht, if_false] at hok
    cases hrow : s.db.firstInstance (findTargetInstance s.redis c (s.redis.smembers u)) with
    | none => rw [hrow] at hok; simp at hok
    | some row =>
      rw [hrow] at hok
      simp only at hok
      cases hh : getDockerHostByID s.db row.dockerHostID with
      | error m => rw [hh] at hok; simp at hok
      | panic m => rw [hh] at hok; simp at hok
      | ok host =>
        rw [hh] at hok
        simp only at hok
        rcases hgc : getOrCreateClient s host e with ⟨r, s1⟩
        rw [hgc] at hok
        cases r with
        | error m => simp at hok
        | panic m => simp at hok
        | ok cl =>
          refine ⟨row, host, cl, s1, rfl, hh, hgc, ?_⟩
          unfold stopInstance
          simp only [getUserActiveInstances, ht, if_false, hrow, hh, hgc]

theorem stopInstance_clears_aux (s : State) (u c : String) (e : Env) (i : String) (h : Hash)
    (hh : kvGet s.redis.hashes i = some h)
    (hone : ∀ j ∈ s.redis.smembers u, hget (getInstance s.redis j) "challenge_id" = c → j = i)
    (hok : (stopInstance s u c e).1 = .ok ()) :
    kvGet (stopInstance s u c e).2.redis.hashes i = none ∧
    i ∉ (stopInstance s u c e).2.redis.smembers u ∧
    kvGet (stopInstance s u c e).2.redis.zset i = none ∧
    (∃ row host cl s1, s.db.firstInstance i = some row ∧
      getDockerHostByID s.db row.dockerHostID = .ok host ∧
      getOrCreateClient s host e = (.ok cl, s1) ∧
      (e.containerStopFails = false → e.containerRemoveFails = false →
        hasContainer (stopInstance s u c e).2 cl.endpoint (hget h "container_id") = false)) ∧
    ∀ e2, stopInstance (stopInstance s u c e).2 u c e2
      = (.error noInstanceMsg, (stopInstance s u c e).2) := by
  obtain ⟨ht, row, host, cl, s1, hrow, hhost, hgc, hcont⟩ := stopInstance_ok_shape s u c e hok
  have hmem := findTargetInstance_mem s.redis c _ ht
  have hti : findTargetInstance s.redis c (s.redis.smembers u) = i := hone _ hmem.1 hmem.2
  rw [hti] at hrow hcont
  have hgi : getInstance s.redis i = h := by
    simp only [getInstance, Redis.hgetall, hh, Option.getD_some]
  rw [hgi] at hcont
  have hr : (stopInstance s u c e).2.redis = deleteInstance s.redis i u := by
    rcases stopInstance_cases s u c e with ⟨h0, _⟩ | ⟨_, hr, _⟩
    · exact absurd h0 ht
    · rw [hr, hti]
  refine ⟨?_, ?_, ?_, ⟨row, host, cl, s1, hrow, hhost, hgc, ?_⟩, ?_⟩
  · rw [hr, hashes_deleteInstance]; simp
  · rw [hr, smembers_deleteInstance]; simp
  · rw [hr, zset_deleteInstance]; simp
  · intro h1 h2
    unfold hasContainer
    rw [hcont]
    exact stopContainer_removes cl s1 (hget h "container_id") e h1 h2
  · intro e2
    have hnone : findTargetInstance (stopInstance s u c e).2.redis c
        ((stopInstance s u c e).2.redis.smembers u) = "" := by
      apply findTargetInstance_none
      intro j hj hcj
      rw [hr, smembers_deleteInstance] at hj
      simp only [if_true, List.mem_filter, decide_eq_true_eq] at hj
      apply hj.2
      apply hone j hj.1
      have : getInstance (stopInstance s u c e).2.redis j = getInstance s.redis j := by
        simp only [getInstance, Redis.hgetall]
        rw [hr, hashes_deleteInstance]
        simp [hj.2]
      rw [← this]; exact hcj
    rcases stopInstance_cases (stopInstance s u c e).2 u c e2 with ⟨_, h2⟩ | ⟨h2, _⟩
    · exact h2
    · exact absurd hnone h2

/-! ## Reaper and stop compared -/

theorem toList_idFormat : "%x-%x-%x-%x-%x".toList
    = ['%','x','-','%','x','-','%','x','-','%','x','-','%','x'] := rfl

theorem generateID_ne_empty (src : List Nat) : generateID src ≠ "" := by
  intro h
  have := congrArg String.data h
  unfold generateID at this
  generalize randRead 16 src = b at this
  simp [sprintf, toList_idFormat, sprintfAux, formatVerb] at this

theorem kvSet_of_none {β : Type} (m : List (String × β)) (k : String) (v : β)
    (h : kvGet m k = none) : kvSet m k v = m ++ [(k, v)] := by
  unfold kvSet; rw [h]

theorem kvGet_none_keys {β : Type} (m : List (String × β)) (k : String)
    (h : kvGet m k = none) : ∀ p ∈ m, p.1 ≠ k := by
  induction m with
  | nil => simp
  | cons a m ih =>
    simp only [kvGet] at h
    by_cases ha : a.1 = k
    · simp [ha] at h
    · simp only [ha, if_false] at h
      intro p hp
      rcases List.mem_cons.1 hp with rfl | hp
      · exact ha
      · exact ih h p hp

theorem expired_recorded (s : State) (inst : Instance) (now' : Int)
    (hz : kvGet s.redis.zset inst.id = none) (hpast : inst.expiresAt ≤ now')
    (hdue : ∀ p ∈ s.redis.zset, now' < p.2) :
    getExpiredInstances (recorded s inst).redis now' = [inst.id] := by
  have hzs : (recorded s inst).redis.zset = s.redis.zset ++ [(inst.id, inst.expiresAt)] := by
    simp only [recorded, Redis.zadd, sadd_zset, hset_zset]
    exact kvSet_of_none _ _ _ hz
  unfold getExpiredInstances Redis.zrangeByScoreUpTo
  rw [hzs, List.filter_append]
  have h1 : s.redis.zset.filter (fun p => decide (p.2 ≤ now')) = [] := by
    rw [List.filter_eq_nil_iff]
    intro p hp
    have := hdue p hp
    simp only [decide_eq_true_eq]
    omega
  rw [h1]
  simp [hpast]

theorem firstInstance_recorded (s : State) (inst : Instance)
    (hf : ∀ i ∈ s.db.instances, i.id ≠ inst.id) :
    (recorded s inst).db.firstInstance inst.id = some inst := by
  unfold DB.firstInstance
  rw [instances_recorded s inst hf, List.find?_append]
  have : s.db.instances.find? (fun i => decide (i.id = inst.id)) = none := by
    rw [List.find?_eq_none]
    intro x hx
    simpa using hf x hx
  rw [this]
  simp

theorem getInstance_recorded (s : State) (inst : Instance) :
    hget (getInstance (recorded s inst).redis inst.id) "container_id" = inst.containerID ∧
    hget (getInstance (recorded s inst).redis inst.id) "challenge_id" = inst.challengeID := by
  simp only [getInstance, Redis.hgetall, hashes_recorded, if_true, Option.getD_some]
  exact ⟨hget_instanceData_container _ _ _ _ _ _ _, hget_instanceData_challenge _ _ _ _ _ _ _⟩

theorem getInstance_recorded_ne (s : State) (inst : Instance) (j : String) (hj : j ≠ inst.id) :
    getInstance (recorded s inst).redis j = getInstance s.redis j := by
  simp only [getInstance, Redis.hgetall, hashes_recorded, hj, if_false]

theorem findTargetInstance_append (r : Redis) (c : String) (ids : List String) (i : String)
    (h : ∀ j ∈ ids, hget (getInstance r j) "challenge_id" ≠ c)
    (hi : hget (getInstance r i) "challenge_id" = c) :
    findTargetInstance r c (ids ++ [i]) = i := by
  induction ids with
  | nil => simp [findTargetInstance, hi]
  | cons a ids ih =>
    simp only [List.cons_append, findTargetInstance]
    rw [if_neg (h a (List.mem_cons_self _ _))]
    exact ih (fun j hj => h j (List.mem_cons_of_mem _ hj))

theorem findTarget_recorded (s : State) (inst : Instance) (hf : FreshId s inst.id)
    (hpre : ∀ j ∈ s.redis.smembers inst.userID,
      hget (getInstance s.redis j) "challenge_id" ≠ inst.challengeID) :
    findTargetInstance (recorded s inst).redis inst.challengeID
      ((recorded s inst).redis.smembers inst.userID) = inst.id := by
  have hnm := fresh_not_mem s inst.id hf inst.userID
  rw [smembers_recorded]
  simp only [if_true, hnm, if_false]
  apply findTargetInstance_append
  · intro j hj
    have hne : j ≠ inst.id := fun he => hnm (he ▸ hj)
    rw [getInstance_recorded_ne s inst j hne]
    exact hpre j hj
  · exact (getInstance_recorded s inst).2

/-- After a successful `StartInstance` with an unused id, the reaper at a
time when only the new instance is due leaves what `StopInstance` leaves, up
to the final status of the row. -/
theorem reap_eq_stop_aux (s : State) (u c : String) (e : Env) (inst : Instance) (s1 : State)
    (now' : Int) (envOf : String → Env)
    (hstart : startInstance s u c e = (.ok inst, s1))
    (hfresh : FreshId s (generateID e.idRand))
    (hpast : inst.expiresAt ≤ now')
    (hdue : ∀ p ∈ s.redis.zset, now' < p.2) :
    (reapExpiredInstances s1 now' envOf).redis = (stopInstance s1 u c (envOf inst.id)).2.redis ∧
    (reapExpiredInstances s1 now' envOf).containers
      = (stopInstance s1 u c (envOf inst.id)).2.containers ∧
    (reapExpiredInstances s1 now' envOf).clients
      = (stopInstance s1 u c (envOf inst.id)).2.clients ∧
    (reapExpiredInstances s1 now' envOf).db = s1.db.updateInstanceStatus inst.id "expired" ∧
    (stopInstance s1 u c (envOf inst.id)).2.db = s1.db.updateInstanceStatus inst.id "stopped" := by
  obtain ⟨ch, host, cl, s0, cid, port, s2, _, hdup, _, _, _, hgc, hsc, _, hinst, hs1⟩ :=
    startInstance_ok_shape s u c e inst s1 hstart
  have hg := getOrCreateClient_frame s host e
  rw [hgc] at hg
  have hs := startContainer_frame cl s0 (resolveImageName s0.db ch)
      [sprintf "FLAG=%s" [.str (generateFlag u e.now e.flagRand)]] ch.port ch.privileged
      ch.memoryLimit ch.cpuLimit e
  rw [hsc] at hs
  simp only at hg hs
  have hr2 : s2.redis = s.redis := hs.1.trans hg.1
  have hd2 : s2.db = s.db := hs.2.1.trans hg.2.1
  have hid : inst.id = generateID e.idRand := by rw [hinst]; rfl
  have hu : inst.userID = u := by rw [hinst]; rfl
  have hc : inst.challengeID = c := by rw [hinst]; rfl
  have hf2 : FreshId s2 inst.id := by
    rw [hid]; exact fresh_congr s s2 hr2 (by rw [hd2]) _ hfresh
  have hpre : ∀ j ∈ s2.redis.smembers inst.userID,
      hget (getInstance s2.redis j) "challenge_id" ≠ inst.challengeID := by
    rw [hr2, hu, hc]
    exact findInstanceData_none s.redis c _ hdup
  have hexp : getExpiredInstances s1.redis now' = [inst.id] := by
    rw [hs1]
    exact expired_recorded s2 inst now' hf2.2.2.2 hpast (by rw [hr2]; exact hdue)
  have hrow : s1.db.firstInstance inst.id = some inst := by
    rw [hs1]; exact firstInstance_recorded s2 inst hf2.2.2.1
  have htarget : findTargetInstance s1.redis c (s1.redis.smembers u) = inst.id := by
    have := findTarget_recorded s2 inst hf2 hpre
    rw [hu, hc, ← hs1] at this
    exact this
  have hne : inst.id ≠ "" := by rw [hid]; exact generateID_ne_empty _
  have hcid : hget (getInstance s1.redis inst.id) "container_id" = inst.containerID := by
    rw [hs1]; exact (getInstance_recorded s2 inst).1
  have hreap : reapExpiredInstances s1 now' envOf
      = cleanup s1 inst.id inst.userID inst.containerID inst.dockerHostID "expired"
          (envOf inst.id) := by
    unfold reapExpiredInstances
    rw [hexp]
    simp only [List.foldl_cons, List.foldl_nil]
    rw [killInstance_eq_cleanup s1 inst.id (envOf inst.id) inst hrow, hcid]
    simp
  have hstop : (stopInstance s1 u c (envOf inst.id)).2
      = cleanup s1 inst.id u inst.containerID inst.dockerHostID "stopped" (envOf inst.id) := by
    have := stopInstance_eq_cleanup s1 u c (envOf inst.id) inst (by rw [htarget]; exact hne)
      (by rw [htarget]; exact hrow)
    rw [htarget, hcid] at this
    exact this
  rw [hreap, hstop, hu]
  have a := cleanup_status s1 inst.id u inst.containerID inst.dockerHostID "expired" (envOf inst.id)
  have b := cleanup_status s1 inst.id u inst.containerID inst.dockerHostID "stopped" (envOf inst.id)
  exact ⟨a.1.trans b.1.symm, a.2.2.1.trans b.2.2.1.symm, a.2.2.2.1.trans b.2.2.2.1.symm,
    a.2.1, b.2.1⟩

/-! ## `VerifyFlag` after `StartInstance` -/

theorem generateFlag_ne_empty (u : String) (t : Int) (src : List Nat) :
    generateFlag u t src ≠ "" := by
  intro h
  have := congrArg String.data h
  rw [generateFlag_eq] at this
  simp [String.data_append] at this

theorem findCorrectFlag_first (r : Redis) (c : String) (ids : List String) (i flag : String)
    (hi : i ∈ ids) (hc : hget (getInstance r i) "challenge_id" = c)
    (hf : hget (getInstance r i) "flag" = flag)
    (hone : ∀ j ∈ ids, hget (getInstance r j) "challenge_id" = c → j = i) :
    findCorrectFlag r c ids = flag := by
  induction ids with
  | nil => simp at hi
  | cons a ids ih =>
    simp only [findCorrectFlag]
    by_cases ha : hget (getInstance r a) "challenge_id" = c
    · have : a = i := hone a (List.mem_cons_self _ _) ha
      rw [if_pos ha, this, hf]
    · rw [if_neg ha]
      rcases List.mem_cons.1 hi with rfl | hi
      · exact absurd hc ha
      · exact ih hi (fun j hj => hone j (List.mem_cons_of_mem _ hj))

theorem createInstance_frame (db : DB) (inst : Instance) :
    (db.createInstance inst).2.challenges = db.challenges ∧
      (db.createInstance inst).2.users = db.users ∧
      (db.createInstance inst).2.submissions = db.submissions ∧
      (db.createInstance inst).2.dockerHosts = db.dockerHosts := by
  unfold DB.createInstance
  split <;> exact ⟨rfl, rfl, rfl, rfl⟩

theorem getInstance_recorded_flag (s : State) (inst : Instance) :
    hget (getInstance (recorded s inst).redis inst.id) "flag" = inst.flag := by
  simp only [getInstance, Redis.hgetall, hashes_recorded, if_true, Option.getD_some]
  exact hget_instanceData_flag _ _ _ _ _ _ _

/-- Right after a successful `StartInstance`, `VerifyFlag` answers `true` for
the minted flag and `false` for every other string. -/
theorem verifyFlag_after_start (s : State) (u c : String) (e : Env) (inst : Instance)
    (s1 : State) (f : String) (e' : Env)
    (hstart : startInstance s u c e = (.ok inst, s1)) :
    (verifyFlag s1 u c f e').1
      = .ok (decide (f = inst.flag),
          if f = inst.flag then "回答正确！你获得了积分。" else "Flag 错误，请重试。") := by
  obtain ⟨ch, host, cl, s0, cid, port, s2, hch, hdup, _, _, _, hgc, hsc, _, hinst, hs1⟩ :=
    startInstance_ok_shape s u c e inst s1 hstart
  have hg := getOrCreateClient_frame s host e
  rw [hgc] at hg
  have hs := startContainer_frame cl s0 (resolveImageName s0.db ch)
      [sprintf "FLAG=%s" [.str (generateFlag u e.now e.flagRand)]] ch.port ch.privileged
      ch.memoryLimit ch.cpuLimit e
  rw [hsc] at hs
  simp only at hg hs
  have hr2 : s2.redis = s.redis := hs.1.trans hg.1
  have hd2 : s2.db = s.db := hs.2.1.trans hg.2.1
  have hu : inst.userID = u := by rw [hinst]; rfl
  have hc : inst.challengeID = c := by rw [hinst]; rfl
  have hfl : inst.flag = generateFlag u e.now e.flagRand := by rw [hinst]; rfl
  have hpre : ∀ j ∈ s2.redis.smembers u, hget (getInstance s2.redis j) "challenge_id" ≠ c := by
    rw [hr2]; exact findInstanceData_none s.redis c _ hdup
  have hflag : findCorrectFlag s1.redis c (s1.redis.smembers u) = inst.flag := by
    rw [hs1]
    apply findCorrectFlag_first (i := inst.id)
    · rw [smembers_recorded, hu]
      simp only [if_true]
      split
      · assumption
      · simp
    · rw [(getInstance_recorded s2 inst).2, hc]
    · exact getInstance_recorded_flag s2 inst
    · intro j hj hcj
      by_contra hne
      rw [getInstance_recorded_ne s2 inst j hne] at hcj
      rw [smembers_recorded, hu] at hj
      simp only [if_true] at hj
      have hj' : j ∈ s2.redis.smembers u := by
        split at hj
        · exact hj
        · rcases List.mem_append.1 hj with hj | hj
          · exact hj
          · exact absurd (by simpa using hj) hne
      exact hpre j hj' hcj
  have hne : findCorrectFlag s1.redis c (s1.redis.smembers u) ≠ "" := by
    rw [hflag, hfl]; exact generateFlag_ne_empty _ _ _
  have hchall : s1.db.firstChallenge c = some ch := by
    have h1 : s1.db.challenges = s.db.challenges := by
      rw [hs1]
      simp only [recorded]
      rw [(createInstance_frame s2.db inst).1, hd2]
    unfold DB.firstChallenge
    rw [h1]
    unfold getChallenge DB.firstChallenge at hch
    cases hfd : s.db.challenges.find? (fun c' => decide (c'.id = c)) with
    | none => rw [hfd] at hch; simp at hch
    | some x => rw [hfd] at hch; simp only [Result.ok.injEq] at hch; rw [hch]
  by_cases hf : f = inst.flag
  · rw [verifyFlag_right s1 u c f e' ch hne (by rw [hflag, hf]) hchall]
    simp [hf]
  · rw [verifyFlag_wrong s1 u c f e' hne (by rw [hflag]; exact fun h => hf h.symm)]
    simp [hf]

theorem createSubmission_fresh (db : DB) (sub : Submission)
    (h : ∀ x ∈ db.submissions, x.id ≠ sub.id) :
    (db.createSubmission sub).2.submissions = db.submissions ++ [sub] ∧
      (db.createSubmission sub).2.users = db.users := by
  unfold DB.createSubmission
  have : db.submissions.any (fun x => decide (x.id = sub.id)) = false := by
    rw [List.any_eq_false]
    intro x hx
    simpa using h x hx
  rw [this]
  exact ⟨rfl, rfl⟩

/-- What a `VerifyFlag` call that finds the instance `i` of `(u, c)` writes: one
Submission row, and on a match the points of the challenge on the user's row. -/
theorem verifyFlag_records (s : State) (u c f : String) (e : Env) (i : String) (h : Hash)
    (ch : Challenge)
    (hi : i ∈ s.redis.smembers u) (hh : kvGet s.redis.hashes i = some h)
    (hc : hget h "challenge_id" = c) (hflag : hget h "flag" ≠ "")
    (hone : ∀ j ∈ s.redis.smembers u, hget (getInstance s.redis j) "challenge_id" = c → j = i)
    (hch : s.db.firstChallenge c = some ch)
    (hid : ∀ x ∈ s.db.submissions, x.id ≠ generateID e.idRand) :
    (f = hget h "flag" →
      (verifyFlag s u c f e).1 = .ok (true, "回答正确！你获得了积分。") ∧
      (verifyFlag s u c f e).2.db.submissions
        = s.db.submissions ++ [newSubmission u c f true ch.points e] ∧
      (verifyFlag s u c f e).2.db.users = (s.db.addUserPoints u ch.points).users) ∧
    (f ≠ hget h "flag" →
      (verifyFlag s u c f e).1 = .ok (false, "Flag 错误，请重试。") ∧
      (verifyFlag s u c f e).2.db.submissions
        = s.db.submissions ++ [newSubmission u c f false 0 e] ∧
      (verifyFlag s u c f e).2.db.users = s.db.users) := by
  have hgi : getInstance s.redis i = h := by
    simp only [getInstance, Redis.hgetall, hh, Option.getD_some]
  have hfc : findCorrectFlag s.redis c (s.redis.smembers u) = hget h "flag" :=
    findCorrectFlag_first s.redis c _ i _ hi (by rw [hgi, hc]) (by rw [hgi]) hone
  have hne : findCorrectFlag s.redis c (s.redis.smembers u) ≠ "" := by rw [hfc]; exact hflag
  constructor
  · intro hf
    rw [verifyFlag_right s u c f e ch hne (by rw [hfc, hf]) hch]
    have := createSubmission_fresh (s.db.addUserPoints u ch.points)
      (newSubmission u c f true ch.points e) hid
    exact ⟨rfl, this.1, this.2⟩
  · intro hf
    rw [verifyFlag_wrong s u c f e hne (by rw [hfc]; exact fun h => hf h.symm)]
    have := createSubmission_fresh s.db (newSubmission u c f false 0 e) hid
    exact ⟨rfl, this.1, this.2⟩

/-! ## Evaluations on the sample deployment -/

theorem demo_start :
    startInstance demoState "u1" "c1" demoEnv = (.ok demoInstance, demoStarted) := by decide

theorem demo_fresh : FreshId demoState (generateID demoEnv.idRand) := by decide

theorem demo_reachable : Reachable demoStarted :=
  ⟨demoState, by decide,
    Relation.ReflTransGen.single (Step.start demoState "u1" "c1" demoEnv demo_fresh)⟩

theorem ttlSeconds_of_fits (h : Int) (h0 : 0 ≤ h) (h1 : h ≤ 2562047) :
    ttlSeconds h = h * 3600 := by
  unfold ttlSeconds
  rw [wrapInt64_of_isInt64 h (by unfold isInt64; constructor <;> omega)]
  rw [wrapInt64_of_isInt64 _ (by unfold isInt64; constructor <;> omega)]
  omega

theorem hget_instanceData_fields (old : Hash) (u c cid flag : String) (port exp : Int) :
    hget ((instanceData u c cid flag port exp).foldl (fun h f => kvSet h f.1 f.2) old)
      "user_id" = u ∧
    hget ((instanceData u c cid flag port exp).foldl (fun h f => kvSet h f.1 f.2) old)
      "port" = toString port ∧
    hget ((instanceData u c cid flag port exp).foldl (fun h f => kvSet h f.1 f.2) old)
      "expires_at" = toString exp := by
  simp [instanceData, hget, kvGet_kvSet]

theorem zset_recorded (s : State) (inst : Instance) :
    kvGet (recorded s inst).redis.zset inst.id = some inst.expiresAt := by
  simp [recorded, Redis.zadd, kvGet_kvSet]

/-- What a successful `StartInstance` returns and leaves in the state index. -/
theorem startInstance_index (s : State) (u c : String) (e : Env) (inst : Instance) (s' : State)
    (hstart : startInstance s u c e = (.ok inst, s')) :
    inst.status = "running" ∧ inst.userID = u ∧ inst.challengeID = c ∧
    inst.expiresAt = e.now + ttlSeconds s.ttlHours ∧
    (∃ h, kvGet s'.redis.hashes inst.id = some h ∧
      hget h "user_id" = u ∧ hget h "challenge_id" = c ∧
      hget h "container_id" = inst.containerID ∧ hget h "flag" = inst.flag ∧
      hget h "port" = toString inst.port ∧ hget h "expires_at" = toString inst.expiresAt) ∧
    inst.id ∈ s'.redis.smembers u ∧
    kvGet s'.redis.zset inst.id = some inst.expiresAt := by
  obtain ⟨ch, host, cl, s0, cid, port, s2, _, _, _, _, _, _, hsc, _, hinst, hs1⟩ :=
    startInstance_ok_shape s u c e inst s' hstart
  have hu : inst.userID = u := by rw [hinst]; rfl
  have hc : inst.challengeID = c := by rw [hinst]; rfl
  refine ⟨by rw [hinst]; rfl, hu, hc, by rw [hinst]; rfl, ?_, ?_, ?_⟩
  · refine ⟨_, by rw [hs1, hashes_recorded, if_pos rfl], ?_⟩
    have h3 := hget_instanceData_fields ((kvGet s2.redis.hashes inst.id).getD []) inst.userID
      inst.challengeID inst.containerID inst.flag inst.port inst.expiresAt
    refine ⟨hu ▸ h3.1, hc ▸ hget_instanceData_challenge _ _ _ _ _ _ _,
      hget_instanceData_container _ _ _ _ _ _ _, hget_instanceData_flag _ _ _ _ _ _ _,
      h3.2.1, h3.2.2⟩
  · rw [hs1, smembers_recorded, hu, if_pos rfl]
    split
    · assumption
    · simp
  · rw [hs1]; exact zset_recorded s2 inst

/-! ## `StartInstance` step by step -/

theorem chosenHost_resolve (db : DB) (ch : Challenge) (host : DockerHost)
    (h : chosenHost db ch = .ok host) :
    ∃ id, resolveHostID db ch = .ok id ∧ getDockerHostByID db id = .ok host := by
  unfold chosenHost at h
  cases hid : resolveHostID db ch with
  | error m => rw [hid] at h; simp at h
  | panic m => rw [hid] at h; simp at h
  | ok id => rw [hid] at h; exact ⟨id, rfl, h⟩

/-- With the challenge found, no instance of the user for it and an enabled
host chosen, `StartInstance` is steps 6 to 10 on that host. -/
theorem startInstance_eq_startOnHost (s : State) (u c : String) (e : Env) (ch : Challenge)
    (host : DockerHost) (hch : getChallenge s.db c = .ok ch)
    (hdup : getInstanceByUserAndChallenge s.redis u c = none)
    (hhost : chosenHost s.db ch = .ok host) (hen : host.enabled = true) :
    startInstance s u c e = startOnHost s u c ch host e := by
  obtain ⟨id, hid, hh⟩ := chosenHost_resolve s.db ch host hhost
  unfold startInstance
  simp only [hch, hdup, hid, hh, hen, Bool.not_true, Bool.false_eq_true, if_false]

/-- With the client obtained and the container started, steps 6 to 10 are
steps 9 and 10. -/
theorem startOnHost_eq_record (s : State) (u c : String) (ch : Challenge) (host : DockerHost)
    (e : Env) (cl : DockerClient) (s1 : State) (cid : String) (port : Int) (s2 : State)
    (hgc : getOrCreateClient s host e = (.ok cl, s1))
    (hsc : cl.startContainer s1 (resolveImageName s1.db ch)
      [sprintf "FLAG=%s" [.str (generateFlag u e.now e.flagRand)]] ch.port ch.privileged
      ch.memoryLimit ch.cpuLimit e = (.ok (cid, port), s2)) :
    startOnHost s u c ch host e
      = recordInstance s2 u c host cl (generateFlag u e.now e.flagRand) cid port e := by
  unfold startOnHost
  simp only [hgc, hsc]

theorem storeInstance_error (r : Redis) (i u c cid flag : String) (port exp now : Int)
    (m : String) (h : (storeInstance r i u c cid flag port exp now).1 = .error m) :
    exp - now ≤ 0 ∧ m = "expiry time is in the past" := by
  rw [storeInstance_eq] at h
  by_cases hle : exp - now ≤ 0
  · rw [if_pos hle] at h
    simp only [Result.error.injEq] at h
    exact ⟨hle, h.symm⟩
  · rw [if_neg hle] at h
    simp at h

/-- The rollback of `StartInstance`: when the state index refuses
the instance, the call returns the error and the state is the one in which
`StopContainer` ran on the container just started. -/
theorem startInstance_rollback (s : State) (u c : String) (e : Env) (ch : Challenge)
    (host : DockerHost) (cl : DockerClient) (s1 : State) (cid : String) (port : Int)
    (s2 : State) (m : String)
    (hch : getChallenge s.db c = .ok ch)
    (hdup : getInstanceByUserAndChallenge s.redis u c = none)
    (hhost : chosenHost s.db ch = .ok host) (hen : host.enabled = true)
    (hgc : getOrCreateClient s host e = (.ok cl, s1))
    (hsc : cl.startContainer s1 (resolveImageName s1.db ch)
      [sprintf "FLAG=%s" [.str (generateFlag u e.now e.flagRand)]] ch.port ch.privileged
      ch.memoryLimit ch.cpuLimit e = (.ok (cid, port), s2))
    (hfail : (storeInstance s2.redis (generateID e.idRand) u c cid
      (generateFlag u e.now e.flagRand) port (e.now + ttlSeconds s2.ttlHours) e.now).1
        = .error m) :
    startInstance s u c e
      = (.error ("failed to store instance in Redis: " ++ m), (cl.stopContainer s2 cid e).2) ∧
    (startInstance s u c e).2.redis = s.redis ∧ (startInstance s u c e).2.db = s.db ∧
    (startInstance s u c e).2.clients = s1.clients := by
  obtain ⟨hle, hm⟩ := storeInstance_error _ _ _ _ _ _ _ _ _ _ hfail
  have heq : startInstance s u c e
      = (.error ("failed to store instance in Redis: " ++ m), (cl.stopContainer s2 cid e).2) := by
    rw [startInstance_eq_startOnHost s u c e ch host hch hdup hhost hen,
      startOnHost_eq_record s u c ch host e cl s1 cid port s2 hgc hsc]
    rcases recordInstance_cases s2 u c host cl (generateFlag u e.now e.flagRand) cid port e with
      ⟨_, h⟩ | ⟨hpos, _⟩
    · rw [h, hm]
      rfl
    · omega
  have hg := getOrCreateClient_frame s host e
  rw [hgc] at hg
  have hs := startContainer_frame cl s1 (resolveImageName s1.db ch)
    [sprintf "FLAG=%s" [.str (generateFlag u e.now e.flagRand)]] ch.port ch.privileged
    ch.memoryLimit ch.cpuLimit e
  rw [hsc] at hs
  have hst := stopContainer_frame cl s2 cid e
  simp only at hg hs
  rw [heq]
  refine ⟨rfl, ?_, ?_, ?_⟩
  · show (cl.stopContainer s2 cid e).2.redis = s.redis
    rw [hst.1, hs.1, hg.1]
  · show (cl.stopContainer s2 cid e).2.db = s.db
    rw [hst.2.1, hs.2.1, hg.2.1]
  · show (cl.stopContainer s2 cid e).2.clients = s1.clients
    rw [hst.2.2.1, hs.2.2.1]

/-! ## A disabled host -/

theorem startInstance_pinned_disabled (s : State) (u c : String) (e : Env) (ch : Challenge)
    (host : DockerHost) (hch : s.db.firstChallenge c = some ch)
    (hnew : getInstanceByUserAndChallenge s.redis u c = none)
    (hid : ch.dockerHostID ≠ "")
    (hhost : getDockerHostByID s.db ch.dockerHostID = .ok host)
    (hdis : host.enabled = false) :
    startInstance s u c e = (.error ("Docker 主机已禁用: " ++ host.name), s) := by
  unfold startInstance
  simp only [getChallenge, hch, hnew, resolveHostID, if_neg hid, hhost, hdis, Bool.not_false,
    if_true]

theorem firstByID_eq_none (rows : List DockerHost) : firstByID rows = none ↔ rows = [] := by
  unfold firstByID
  constructor
  · intro h
    cases rows with
    | nil => rfl
    | cons a t =>
      exfalso
      have key : ∀ (l : List DockerHost) (acc : DockerHost),
          l.foldl (fun acc r =>
            match acc with
            | none => some r
            | some b => if r.id < b.id then some r else some b) (some acc) ≠ none := by
        intro l
        induction l with
        | nil => intro acc; simp
        | cons x l ih =>
          intro acc
          simp only [List.foldl_cons]
          split
          · exact ih x
          · exact ih acc
      exact key t a (by simpa [List.foldl_cons] using h)
  · intro h; subst h; rfl

theorem startInstance_default_disabled (s : State) (u c : String) (e : Env) (ch : Challenge)
    (hch : s.db.firstChallenge c = some ch)
    (hnew : getInstanceByUserAndChallenge s.redis u c = none)
    (hid : ch.dockerHostID = "")
    (hdis : ∀ h ∈ s.db.dockerHosts, h.isDefault = true → h.enabled = false) :
    startInstance s u c e
      = (.error "未找到默认 Docker 主机: 未找到启用的默认 Docker 主机", s) := by
  have hnone : firstByID (s.db.dockerHosts.filter (fun h => h.isDefault && h.enabled)) = none := by
    rw [firstByID_eq_none, List.filter_eq_nil_iff]
    intro h hh
    by_cases hd : h.isDefault = true
    · simp [hd, hdis h hh hd]
    · simp [hd]
  unfold startInstance
  simp only [getChallenge, hch, hnew, resolveHostID, if_pos hid, getDefaultDockerHost, hnone]
  rfl

/-! ## `killInstance` with an instance row -/

theorem find_map_status (l : List Instance) (id st : String) (row : Instance)
    (h : l.find? (fun i => decide (i.id = id)) = some row) :
    (l.map (fun i => if i.id = id then { i with status := st } else i)).find?
      (fun i => decide (i.id = id)) = some { row with status := st } := by
  induction l with
  | nil => simp at h
  | cons a t ih =>
    rw [List.find?_cons] at h
    rw [List.map_cons, List.find?_cons]
    by_cases ha : a.id = id
    · rw [if_pos ha]
      simp only [ha, decide_True, Option.some.injEq] at h ⊢
      subst h
      rw [ha]
    · rw [if_neg ha]
      simp only [ha, decide_False] at h ⊢
      exact ih h

theorem firstInstance_updateStatus (db : DB) (id st : String) (row : Instance)
    (h : db.firstInstance id = some row) :
    (db.updateInstanceStatus id st).firstInstance id = some { row with status := st } :=
  find_map_status db.instances id st row h

theorem killInstance_with_row (s : State) (id : String) (e : Env) (row : Instance)
    (hrow : s.db.firstInstance id = some row) :
    kvGet (killInstance s id e).redis.hashes id = none ∧
    id ∉ (killInstance s id e).redis.smembers row.userID ∧
    kvGet (killInstance s id e).redis.zset id = none ∧
    (killInstance s id e).db.firstInstance id = some { row with status := "expired" } ∧
    (∀ r ∈ (killInstance s id e).db.instances, r.id = id → r.status = "expired") := by
  rcases killInstance_cases s id e with ⟨hn, _⟩ | ⟨row', hr, hredis, hdb⟩
  · rw [hrow] at hn; simp at hn
  · rw [hrow] at hr
    cases hr
    rw [hredis, hdb]
    refine ⟨?_, ?_, ?_, firstInstance_updateStatus s.db id "expired" row hrow, ?_⟩
    · rw [hashes_deleteInstance, if_pos rfl]
    · rw [smembers_deleteInstance, if_pos rfl]
      simp
    · rw [zset_deleteInstance, if_pos rfl]
    · intro r hr hid
      simp only [DB.updateInstanceStatus, List.mem_map] at hr
      obtain ⟨x, _, hx⟩ := hr
      by_cases hxi : x.id = id
      · rw [if_pos hxi] at hx
        rw [← hx]
      · rw [if_neg hxi] at hx
        rw [← hx] at hid
        exact absurd hid hxi

/-! ## Default hosts -/

theorem withColumnDefaults_id (h : DockerHost) : h.withColumnDefaults.id = h.id := rfl

theorem withColumnDefaults_isDefault (h : DockerHost) :
    h.withColumnDefaults.isDefault = h.isDefault := rfl

theorem defaultHosts_clear (db : DB) : defaultHosts db.clearDefaultHosts = [] := by
  unfold defaultHosts DB.clearDefaultHosts
  rw [List.filter_eq_nil_iff]
  intro a ha
  simp only [List.mem_map] at ha
  obtain ⟨x, _, hx⟩ := ha
  by_cases hd : x.isDefault = true
  · rw [if_pos hd] at hx; rw [← hx]; simp
  · rw [if_neg hd] at hx; rw [← hx]; exact hd

theorem keys_clear (db : DB) :
    db.clearDefaultHosts.dockerHosts.map (·.id) = db.dockerHosts.map (·.id) := by
  unfold DB.clearDefaultHosts
  simp only [List.map_map]
  apply List.map_congr_left
  intro a _
  simp only [Function.comp]
  split <;> rfl

theorem keys_clearExcept (db : DB) (id : String) :
    (db.clearDefaultHostsExcept id).dockerHosts.map (·.id) = db.dockerHosts.map (·.id) := by
  unfold DB.clearDefaultHostsExcept
  simp only [List.map_map]
  apply List.map_congr_left
  intro a _
  simp only [Function.comp]
  split <;> rfl

theorem default_clearExcept (db : DB) (id : String) :
    ∀ a ∈ (db.clearDefaultHostsExcept id).dockerHosts, a.isDefault = true → a.id = id := by
  intro a ha hd
  simp only [DB.clearDefaultHostsExcept, List.mem_map] at ha
  obtain ⟨x, _, hx⟩ := ha
  by_cases hc : x.isDefault = true ∧ x.id ≠ id
  · rw [if_pos hc] at hx; rw [← hx] at hd; simp at hd
  · rw [if_neg hc] at hx
    rw [← hx] at hd ⊢
    by_contra hne
    exact hc ⟨hd, hne⟩

/-- Rows of a keyed table that agree on one id are at most one. -/
theorem filter_length_le_one (l : List DockerHost) (k : String) (p : DockerHost → Bool)
    (hn : (l.map (·.id)).Nodup) (hk : ∀ a ∈ l, p a = true → a.id = k) :
    (l.filter p).length ≤ 1 := by
  apply length_le_one_of_nodup
  · exact (List.Nodup.of_map _ hn).filter _
  · intro a ha b hb
    rw [List.mem_filter] at ha hb
    exact List.inj_on_of_nodup_map hn ha.1 hb.1
      ((hk a ha.1 ha.2).trans (hk b hb.1 hb.2).symm)

theorem any_id_iff (l : List DockerHost) (k : String) :
    l.any (fun h => decide (h.id = k)) = true ↔ k ∈ l.map (·.id) := by
  simp only [List.any_eq_true, decide_eq_true_eq, List.mem_map]

/-- What `Create` does to the host table. -/
theorem insertDockerHost_cases (db : DB) (host : DockerHost) :
    (host.id ∈ db.dockerHosts.map (·.id) ∧
      db.insertDockerHost host = (.error "duplicate primary key", db)) ∨
    (host.id ∉ db.dockerHosts.map (·.id) ∧
      db.insertDockerHost host
        = (.ok (), { db with dockerHosts := db.dockerHosts ++ [host.withColumnDefaults] })) := by
  unfold DB.insertDockerHost
  by_cases h : db.dockerHosts.any (fun h => decide (h.id = host.id)) = true
  · left
    exact ⟨(any_id_iff _ _).1 h, by rw [if_pos h]⟩
  · right
    exact ⟨fun hm => h ((any_id_iff _ _).2 hm), by rw [if_neg h]⟩

theorem keys_append (db : DB) (host : DockerHost) (hn : hostKeysUnique db)
    (hf : host.id ∉ db.dockerHosts.map (·.id)) :
    hostKeysUnique { db with dockerHosts := db.dockerHosts ++ [host.withColumnDefaults] } := by
  unfold hostKeysUnique at *
  simp only [List.map_append, List.map_cons, List.map_nil, withColumnDefaults_id]
  rw [List.nodup_append]
  refine ⟨hn, by simp, ?_⟩
  intro a ha hb
  simp only [List.mem_singleton] at hb
  subst hb
  exact hf ha

theorem defaultHosts_append (db : DB) (host : DockerHost) :
    defaultHosts { db with dockerHosts := db.dockerHosts ++ [host.withColumnDefaults] }
      = defaultHosts db ++ (if host.isDefault then [host.withColumnDefaults] else []) := by
  unfold defaultHosts
  simp only [List.filter_append, List.filter_cons, List.filter_nil, withColumnDefaults_isDefault]

theorem keys_replace (db : DB) (host : DockerHost) :
    (db.dockerHosts.map (fun h => if h.id = host.id then host else h)).map (·.id)
      = db.dockerHosts.map (·.id) := by
  simp only [List.map_map]
  apply List.map_congr_left
  intro a _
  simp only [Function.comp]
  split
  · next h => exact h.symm
  · rfl

theorem filter_replace_length (l : List DockerHost) (host : DockerHost)
    (hnd : host.isDefault = false) :
    ((l.map (fun h => if h.id = host.id then host else h)).filter (fun h => h.isDefault)).length
      ≤ (l.filter (fun h => h.isDefault)).length := by
  induction l with
  | nil => simp
  | cons a t ih =>
    simp only [List.map_cons, List.filter_cons]
    by_cases hid : a.id = host.id
    · simp only [hid, if_true, hnd, Bool.false_eq_true, if_false]
      split
      · simp only [List.length_cons]; omega
      · exact ih
    · simp only [hid, if_false]
      split
      · simp only [List.length_cons]; omega
      · exact ih

/-- What `Save` does to the host table. -/
theorem saveDockerHost_cases (db : DB) (host : DockerHost) :
    (host.id = "" ∧ db.saveDockerHost host = db.insertDockerHost host) ∨
    (host.id ≠ "" ∧ host.id ∈ db.dockerHosts.map (·.id) ∧
      db.saveDockerHost host = (.ok (),
        { db with
          dockerHosts := db.dockerHosts.map (fun h => if h.id = host.id then host else h) })) ∨
    (host.id ≠ "" ∧ host.id ∉ db.dockerHosts.map (·.id) ∧
      db.saveDockerHost host
        = (.ok (), { db with dockerHosts := db.dockerHosts ++ [host.withColumnDefaults] })) := by
  unfold DB.saveDockerHost
  by_cases h0 : host.id = ""
  · left; exact ⟨h0, by rw [if_pos h0]⟩
  · right
    rw [if_neg h0]
    by_cases h : db.dockerHosts.any (fun h => decide (h.id = host.id)) = true
    · left; exact ⟨h0, (any_id_iff _ _).1 h, by rw [if_pos h]⟩
    · right; exact ⟨h0, fun hm => h ((any_id_iff _ _).2 hm), by rw [if_neg h]⟩

/-- The table after `CreateDockerHost`. -/
theorem createDockerHost_cases (db : DB) (host : DockerHost) :
    ((createDockerHost db host).1 = .error "创建 Docker 主机失败: duplicate primary key" ∧
      (createDockerHost db host).2 = (if host.isDefault then db.clearDefaultHosts else db)) ∨
    ((createDockerHost db host).1 = .ok () ∧
      host.id ∉ db.dockerHosts.map (·.id) ∧
      (createDockerHost db host).2 =
        { (if host.isDefault then db.clearDefaultHosts else db) with
          dockerHosts := (if host.isDefault then db.clearDefaultHosts else db).dockerHosts
            ++ [host.withColumnDefaults] }) := by
  unfold createDockerHost
  simp only
  rcases insertDockerHost_cases (if host.isDefault then db.clearDefaultHosts else db) host with
    ⟨_, h⟩ | ⟨hf, h⟩
  · left; rw [h]; exact ⟨rfl, rfl⟩
  · right; rw [h]
    refine ⟨rfl, ?_, rfl⟩
    intro hm
    apply hf
    split
    · rw [keys_clear]; exact hm
    · exact hm

theorem createDockerHost_keys (db : DB) (host : DockerHost) (hn : hostKeysUnique db) :
    hostKeysUnique (createDockerHost db host).2 := by
  have hn1 : hostKeysUnique (if host.isDefault then db.clearDefaultHosts else db) := by
    split
    · unfold hostKeysUnique; rw [keys_clear]; exact hn
    · exact hn
  rcases createDockerHost_cases db host with ⟨_, h⟩ | ⟨_, hf, h⟩
  · rw [h]; exact hn1
  · rw [h]
    apply keys_append _ _ hn1
    split
    · rw [keys_clear]; exact hf
    · exact hf

theorem createDockerHost_defaults (db : DB) (host : DockerHost)
    (h1 : (defaultHosts db).length ≤ 1) :
    (defaultHosts (createDockerHost db host).2).length ≤ 1 := by
  rcases createDockerHost_cases db host with ⟨_, h⟩ | ⟨_, _, h⟩
  · rw [h]
    split
    · rw [defaultHosts_clear]; simp
    · exact h1
  · rw [h, defaultHosts_append]
    by_cases hd : host.isDefault = true
    · simp only [hd, if_true, defaultHosts_clear, List.nil_append, List.length_singleton,
        le_refl]
    · simp only [hd, Bool.false_eq_true, if_false, List.append_nil]
      exact h1

theorem createDockerHost_only (db : DB) (host : DockerHost) (hd : host.isDefault = true)
    (hok : (createDockerHost db host).1 = .ok ()) :
    defaultHosts (createDockerHost db host).2 = [host.withColumnDefaults] := by
  rcases createDockerHost_cases db host with ⟨he, _⟩ | ⟨_, _, h⟩
  · rw [he] at hok; simp at hok
  · rw [h, defaultHosts_append]
    simp only [hd, if_true, defaultHosts_clear, List.nil_append]

/-- The table after `UpdateDockerHost`, with `db1` the table after the
default flags of the other rows were cleared. -/
theorem updateDockerHost_cases (db : DB) (host : DockerHost) :
    (host.id = "" ∧
      (updateDockerHost db host).1 = .error "更新 Docker 主机失败: duplicate primary key" ∧
      host.id ∈ db.dockerHosts.map (·.id) ∧
      (updateDockerHost db host).2
        = (if host.isDefault then db.clearDefaultHostsExcept host.id else db)) ∨
    (host.id ∈ db.dockerHosts.map (·.id) ∧ (updateDockerHost db host).1 = .ok () ∧
      (updateDockerHost db host).2 =
        { (if host.isDefault then db.clearDefaultHostsExcept host.id else db) with
          dockerHosts := (if host.isDefault then db.clearDefaultHostsExcept host.id
            else db).dockerHosts.map (fun h => if h.id = host.id then host else h) }) ∨
    (host.id ∉ db.dockerHosts.map (·.id) ∧ (updateDockerHost db host).1 = .ok () ∧
      (updateDockerHost db host).2 =
        { (if host.isDefault then db.clearDefaultHostsExcept host.id else db) with
          dockerHosts := (if host.isDefault then db.clearDefaultHostsExcept host.id
            else db).dockerHosts ++ [host.withColumnDefaults] }) := by
  have hk : (if host.isDefault then db.clearDefaultHostsExcept host.id else db).dockerHosts.map
      (·.id) = db.dockerHosts.map (·.id) := by
    split
    · rw [keys_clearExcept]
    · rfl
  unfold updateDockerHost
  simp only
  rcases saveDockerHost_cases (if host.isDefault then db.clearDefaultHostsExcept host.id else db)
      host with ⟨h0, h⟩ | ⟨_, hm, h⟩ | ⟨_, hm, h⟩
  · rcases insertDockerHost_cases
        (if host.isDefault then db.clearDefaultHostsExcept host.id else db) host with
      ⟨hm, hi⟩ | ⟨hm, hi⟩
    · left
      rw [h, hi]
      exact ⟨h0, rfl, hk ▸ hm, rfl⟩
    · right; right
      rw [h, hi]
      exact ⟨hk ▸ hm, rfl, rfl⟩
  · right; left
    rw [h]
    exact ⟨hk ▸ hm, rfl, rfl⟩
  · right; right
    rw [h]
    exact ⟨hk ▸ hm, rfl, rfl⟩

theorem updateDockerHost_keys (db : DB) (host : DockerHost) (hn : hostKeysUnique db) :
    hostKeysUnique (updateDockerHost db host).2 := by
  have hn1 : hostKeysUnique (if host.isDefault then db.clearDefaultHostsExcept host.id else db) := by
    split
    · unfold hostKeysUnique; rw [keys_clearExcept]; exact hn
    · exact hn
  have hk : (if host.isDefault then db.clearDefaultHostsExcept host.id else db).dockerHosts.map
      (·.id) = db.dockerHosts.map (·.id) := by
    split
    · rw [keys_clearExcept]
    · rfl
  rcases updateDockerHost_cases db host with ⟨_, _, _, h⟩ | ⟨_, _, h⟩ | ⟨hf, _, h⟩
  · rw [h]; exact hn1
  · rw [h]
    unfold hostKeysUnique
    simp only
    rw [keys_replace]
    exact hn1
  · rw [h]
    exact keys_append _ _ hn1 (hk ▸ hf)

/-- After `UpdateDockerHost` of a default host every default row carries its
id. -/
theorem updateDockerHost_default_ids (db : DB) (host : DockerHost) (hd : host.isDefault = true) :
    ∀ a ∈ (updateDockerHost db host).2.dockerHosts, a.isDefault = true → a.id = host.id := by
  have hc := default_clearExcept db host.id
  rcases updateDockerHost_cases db host with ⟨_, _, _, h⟩ | ⟨_, _, h⟩ | ⟨_, _, h⟩
  · rw [h]; simp only [hd, if_true]; exact hc
  · rw [h]
    simp only [hd, if_true, List.mem_map]
    rintro a ⟨x, hx, rfl⟩ ha
    by_cases hid : x.id = host.id
    · rw [if_pos hid]
    · rw [if_neg hid] at ha ⊢
      exact hc x hx ha
  · rw [h]
    simp only [hd, if_true, List.mem_append, List.mem_singleton]
    rintro a (ha | rfl) hda
    · exact hc a ha hda
    · rfl

theorem updateDockerHost_defaults (db : DB) (host : DockerHost) (hn : hostKeysUnique db)
    (h1 : (defaultHosts db).length ≤ 1) :
    (defaultHosts (updateDockerHost db host).2).length ≤ 1 := by
  by_cases hd : host.isDefault = true
  · exact filter_length_le_one _ host.id _ (updateDockerHost_keys db host hn)
      (updateDockerHost_default_ids db host hd)
  · have hd' : host.isDefault = false := by simpa using hd
    rcases updateDockerHost_cases db host with ⟨_, _, _, h⟩ | ⟨_, _, h⟩ | ⟨_, _, h⟩
    · rw [h]; simp only [hd', Bool.false_eq_true, if_false]; exact h1
    · rw [h]
      simp only [hd', Bool.false_eq_true, if_false]
      exact le_trans (filter_replace_length db.dockerHosts host hd') h1
    · rw [h]
      simp only [hd', Bool.false_eq_true, if_false]
      rw [defaultHosts_append]
      simp only [hd', Bool.false_eq_true, if_false, List.append_nil]
      exact h1

theorem updateDockerHost_only (db : DB) (host : DockerHost) (hn : hostKeysUnique db)
    (hd : host.isDefault = true) (hok : (updateDockerHost db host).1 = .ok ()) :
    (defaultHosts (updateDockerHost db host).2).map (·.id) = [host.id] := by
  have hle : (defaultHosts (updateDockerHost db host).2).length ≤ 1 :=
    filter_length_le_one _ host.id _ (updateDockerHost_keys db host hn)
      (updateDockerHost_default_ids db host hd)
  have hex : ∃ r ∈ defaultHosts (updateDockerHost db host).2, r.id = host.id := by
    rcases updateDockerHost_cases db host with ⟨_, he, _, _⟩ | ⟨hm, _, h⟩ | ⟨_, _, h⟩
    · rw [he] at hok; simp at hok
    · rw [h]
      refine ⟨host, ?_, rfl⟩
      simp only [defaultHosts, hd, if_true, List.mem_filter, List.mem_map, and_true]
      rw [← keys_clearExcept db host.id, List.mem_map] at hm
      obtain ⟨x, hx, hxi⟩ := hm
      exact ⟨x, hx, by rw [if_pos hxi]⟩
    · rw [h]
      refine ⟨host.withColumnDefaults, ?_, rfl⟩
      simp only [defaultHosts, hd, if_true, List.mem_filter, List.mem_append,
        List.mem_singleton, or_true, withColumnDefaults_isDefault, and_self]
  obtain ⟨r, hr, hri⟩ := hex
  match hl : defaultHosts (updateDockerHost db host).2, hle, hr with
  | [x], _, hr =>
    simp only [List.mem_singleton] at hr
    subst hr
    simp [hri]
  | [], _, hr => simp at hr
  | _ :: _ :: _, hle, _ => simp at hle

/-- The invariant of the host table along creations and updates. -/
theorem hostSteps_inv (db0 db : DB) (hn : hostKeysUnique db0)
    (h1 : (defaultHosts db0).length ≤ 1) (hs : HostSteps db0 db) :
    hostKeysUnique db ∧ (defaultHosts db).length ≤ 1 := by
  induction hs with
  | refl => exact ⟨hn, h1⟩
  | tail _ hstep ih =>
    cases hstep with
    | create host =>
      exact ⟨createDockerHost_keys _ host ih.1, createDockerHost_defaults _ host ih.2⟩
    | update host =>
      exact ⟨updateDockerHost_keys _ host ih.1, updateDockerHost_defaults _ host ih.1 ih.2⟩

/-! ## Writes of challenge rows -/

theorem updatedImageName_ne_empty (db : DB) (existing : Challenge)
    (req : CreateChallengeRequest) (image : String)
    (h : updatedImageName db existing req = some image) : image ≠ "" := by
  unfold updatedImageName at h
  simp only at h
  by_cases h1 : filledImageName db req = ""
  · rw [if_pos h1] at h
    by_cases h2 : existing.image ≠ "" ∧ req.imageID = ""
    · rw [if_pos h2] at h
      simp only [Option.some.injEq] at h
      rw [← h]; exact h2.1
    · rw [if_neg h2] at h; simp at h
  · rw [if_neg h1] at h
    simp only [Option.some.injEq] at h
    rw [← h]; exact h1

theorem shouldBindJSON_ok (body : Except String CreateChallengeRequest)
    (req : CreateChallengeRequest) (hb : shouldBindJSON body = .ok req) : body = .ok req := by
  unfold shouldBindJSON at hb
  cases body with
  | error err => simp at hb
  | ok r =>
    simp only at hb
    by_cases h : bindingErrors r = []
    · rw [if_pos h] at hb
      simp only [Except.ok.injEq] at hb; rw [hb]
    · rw [if_neg h] at hb; simp at hb

theorem createChallenge_row_cases (db : DB) (ch : Challenge) :
    db.createChallenge ch = (.error "duplicate primary key", db) ∨
    db.createChallenge ch
      = (.ok (), { db with challenges := db.challenges ++ [ch.withColumnDefaults] }) := by
  unfold DB.createChallenge
  split
  · left; rfl
  · right; rfl

theorem newChallenge_valid (newID : String) (req : CreateChallengeRequest) (st : String)
    (h2 : ¬ (req.image = "" ∧ req.imageID = ""))
    (h3 : ¬ (req.points < 1 ∨ req.points > 10000))
    (h4 : ¬ (req.port < 1 ∨ req.port > 65535)) :
    challengeRowValid (newChallenge newID req st).withColumnDefaults ∧
    (newChallenge newID req st).withColumnDefaults.points = req.points ∧
    (newChallenge newID req st).withColumnDefaults.port = req.port := by
  have hp : req.points ≠ 0 := by omega
  have hq : req.port ≠ 0 := by omega
  refine ⟨?_, ?_, ?_⟩
  · simp only [Challenge.withColumnDefaults, newChallenge, challengeRowValid, hp, hq, if_false]
    refine ⟨by omega, by omega, by omega, by omega, ?_⟩
    by_cases hi : req.image = ""
    · right; exact fun hj => h2 ⟨hi, hj⟩
    · left; exact hi
  · simp only [Challenge.withColumnDefaults, newChallenge, hp, if_false]
  · simp only [Challenge.withColumnDefaults, newChallenge, hq, if_false]

/-- What `CreateChallenge` answers and writes. -/
theorem createChallenge_cases (db : DB) (body : Except String CreateChallengeRequest)
    (newID : String) :
    ((createChallenge db body newID).1.status ≠ 200 ∧ (createChallenge db body newID).2 = db) ∨
    (∃ req row, body = .ok req ∧ ¬ requestViolates req ∧ challengeRowValid row ∧
      row.id = newID ∧ row.points = req.points ∧ row.port = req.port ∧
      row.image = req.image ∧ row.imageID = req.imageID ∧
      createChallenge db body newID
        = (⟨200, 200, "Challenge created successfully"⟩,
           { db with challenges := db.challenges ++ [row] })) := by
  unfold createChallenge
  cases hb : shouldBindJSON body with
  | error err => left; exact ⟨by simp, rfl⟩
  | ok req =>
    have hbody := shouldBindJSON_ok body req hb
    simp only
    by_cases h1 : req.flag = ""
    · left; rw [if_pos h1]; exact ⟨by simp, rfl⟩
    rw [if_neg h1]
    by_cases h2 : req.image = "" ∧ req.imageID = ""
    · left; rw [if_pos h2]; exact ⟨by simp, rfl⟩
    rw [if_neg h2]
    by_cases h3 : req.points < 1 ∨ req.points > 10000
    · left; rw [if_pos h3]; exact ⟨by simp, rfl⟩
    rw [if_neg h3]
    by_cases h4 : req.port < 1 ∨ req.port > 65535
    · left; rw [if_pos h4]; exact ⟨by simp, rfl⟩
    rw [if_neg h4]
    by_cases h5 : (if req.status = "" then "unpublished" else req.status) ≠ "published" ∧
        (if req.status = "" then "unpublished" else req.status) ≠ "unpublished"
    · left; rw [if_pos h5]; exact ⟨by simp, rfl⟩
    rw [if_neg h5]
    rcases createChallenge_row_cases db
        (newChallenge newID req (if req.status = "" then "unpublished" else req.status)) with
      h | h
    · left; rw [h]; exact ⟨by simp, rfl⟩
    · right
      rw [h]
      have hv := newChallenge_valid newID req
        (if req.status = "" then "unpublished" else req.status) h2 h3 h4
      refine ⟨req, _, hbody, ?_, hv.1, rfl, hv.2.1, hv.2.2, rfl, rfl, rfl⟩
      unfold requestViolates
      push_neg at h3 h4 ⊢
      exact ⟨h3.1, h3.2, h4.1, h4.2, fun hi => (not_and.1 h2) hi⟩

theorem shouldBindJSON_cases (body : Except String CreateChallengeRequest)
    (req : CreateChallengeRequest) (hbody : body = .ok req) :
    (∃ err, shouldBindJSON body = .error err) ∨ shouldBindJSON body = .ok req := by
  subst hbody
  unfold shouldBindJSON
  simp only
  by_cases h : bindingErrors req = []
  · right; rw [if_pos h]
  · left; rw [if_neg h]; exact ⟨_, rfl⟩

/-- A request that breaks the invariant is answered 400 by `CreateChallenge`
and nothing is written. -/
theorem createChallenge_violates (db : DB) (body : Except String CreateChallengeRequest)
    (newID : String) (req : CreateChallengeRequest) (hbody : body = .ok req)
    (hv : requestViolates req) :
    (createChallenge db body newID).1.status = 400 ∧ (createChallenge db body newID).2 = db := by
  unfold createChallenge
  rcases shouldBindJSON_cases body req hbody with ⟨err, hb⟩ | hb
  · rw [hb]; exact ⟨rfl, rfl⟩
  · rw [hb]
    simp only
    by_cases h1 : req.flag = ""
    · rw [if_pos h1]; exact ⟨rfl, rfl⟩
    rw [if_neg h1]
    by_cases h2 : req.image = "" ∧ req.imageID = ""
    · rw [if_pos h2]; exact ⟨rfl, rfl⟩
    rw [if_neg h2]
    by_cases h3 : req.points < 1 ∨ req.points > 10000
    · rw [if_pos h3]; exact ⟨rfl, rfl⟩
    rw [if_neg h3]
    by_cases h4 : req.port < 1 ∨ req.port > 65535
    · rw [if_pos h4]; exact ⟨rfl, rfl⟩
    exfalso
    unfold requestViolates at hv
    rcases hv with h | h | h | h | h
    · exact h3 (Or.inl h)
    · exact h3 (Or.inr h)
    · exact h4 (Or.inl h)
    · exact h4 (Or.inr h)
    · exact h2 h

/-- What `UpdateChallenge` answers and writes. -/
theorem updateChallenge_cases (db : DB) (id : String)
    (body : Except String CreateChallengeRequest) :
    ((updateChallenge db id body).1.status ≠ 200 ∧ (updateChallenge db id body).2 = db) ∨
    (∃ req existing image, body = .ok req ∧ db.firstChallenge id = some existing ∧
      updatedImageName db existing req = some image ∧
      1 ≤ req.points ∧ req.points ≤ 10000 ∧ 1 ≤ req.port ∧ req.port ≤ 65535 ∧
      updateChallenge db id body
        = (⟨200, 200, "Challenge updated successfully"⟩,
           db.updateChallenge existing req image)) := by
  unfold updateChallenge
  cases hb : shouldBindJSON body with
  | error err => left; exact ⟨by simp, rfl⟩
  | ok req =>
    have hbody := shouldBindJSON_ok body req hb
    simp only
    by_cases h3 : req.points < 1 ∨ req.points > 10000
    · left; rw [if_pos h3]; exact ⟨by simp, rfl⟩
    rw [if_neg h3]
    by_cases h4 : req.port < 1 ∨ req.port > 65535
    · left; rw [if_pos h4]; exact ⟨by simp, rfl⟩
    rw [if_neg h4]
    cases hex : db.firstChallenge id with
    | none => left; exact ⟨by simp, rfl⟩
    | some existing =>
      simp only
      cases him : updatedImageName db existing req with
      | none => left; exact ⟨by simp, rfl⟩
      | some image =>
        right
        push_neg at h3 h4
        exact ⟨req, existing, image, hbody, rfl, him, h3.1, h3.2, h4.1, h4.2, rfl⟩

/-- Every row that `Updates` writes is valid when the request and the image
name are. -/
theorem updateChallenge_rows (db : DB) (existing : Challenge) (req : CreateChallengeRequest)
    (image : String) (hi : image ≠ "") (h1 : 1 ≤ req.points) (h2 : req.points ≤ 10000)
    (h3 : 1 ≤ req.port) (h4 : req.port ≤ 65535) :
    ∀ row ∈ (db.updateChallenge existing req image).challenges,
      row ∈ db.challenges ∨ challengeRowValid row := by
  intro row hrow
  simp only [DB.updateChallenge, List.mem_map] at hrow
  obtain ⟨c, hc, rfl⟩ := hrow
  by_cases hid : c.id = existing.id
  · right
    rw [if_pos hid]
    exact ⟨h1, h2, h3, h4, Or.inl hi⟩
  · left
    rw [if_neg hid]
    exact hc

/-- A request with points or port out of range is answered 400 by
`UpdateChallenge` and nothing is written. -/
theorem updateChallenge_range (db : DB) (id : String)
    (body : Except String CreateChallengeRequest) (req : CreateChallengeRequest)
    (hbody : body = .ok req)
    (hv : req.points < 1 ∨ 10000 < req.points ∨ req.port < 1 ∨ 65535 < req.port) :
    (updateChallenge db id body).1.status = 400 ∧ (updateChallenge db id body).2 = db := by
  unfold updateChallenge
  rcases shouldBindJSON_cases body req hbody with ⟨err, hb⟩ | hb
  · rw [hb]; exact ⟨rfl, rfl⟩
  · rw [hb]
    simp only
    by_cases h3 : req.points < 1 ∨ req.points > 10000
    · rw [if_pos h3]; exact ⟨rfl, rfl⟩
    rw [if_neg h3]
    by_cases h4 : req.port < 1 ∨ req.port > 65535
    · rw [if_pos h4]; exact ⟨rfl, rfl⟩
    exfalso
    rcases hv with h | h | h | h
    · exact h3 (Or.inl h)
    · exact h3 (Or.inr h)
    · exact h4 (Or.inl h)
    · exact h4 (Or.inr h)

theorem updatedImageName_no_image (db : DB) (existing : Challenge)
    (req : CreateChallengeRequest) (h1 : req.image = "") (h2 : req.imageID = "") :
    updatedImageName db existing req
      = if existing.image ≠ "" then some existing.image else none := by
  have hf : filledImageName db req = "" := by
    unfold filledImageName
    rw [if_neg (by simp [h2])]
    exact h1
  unfold updatedImageName
  simp only [hf, if_true, h2, and_true]

/-- A request without image name and image id: `UpdateChallenge` writes only
when the row exists and has an image name, which it keeps. -/
theorem updateChallenge_no_image (db : DB) (id : String)
    (body : Except String CreateChallengeRequest) (req : CreateChallengeRequest)
    (hbody : body = .ok req) (h1 : req.image = "") (h2 : req.imageID = "") :
    (db.firstChallenge id = none →
      ((updateChallenge db id body).1.status = 400 ∨
        (updateChallenge db id body).1.status = 404) ∧ (updateChallenge db id body).2 = db) ∧
    (∀ existing, db.firstChallenge id = some existing → existing.image = "" →
      (updateChallenge db id body).1.status = 400 ∧ (updateChallenge db id body).2 = db) ∧
    (∀ existing, db.firstChallenge id = some existing → existing.image ≠ "" →
      ¬ requestViolates { req with image := existing.image } → bindingErrors req = [] →
      updateChallenge db id body
        = (⟨200, 200, "Challenge updated successfully"⟩,
           db.updateChallenge existing req existing.image)) := by
  refine ⟨?_, ?_, ?_⟩
  · intro hnone
    unfold updateChallenge
    rcases shouldBindJSON_cases body req hbody with ⟨err, hb⟩ | hb
    · rw [hb]; exact ⟨Or.inl rfl, rfl⟩
    · rw [hb]
      simp only
      by_cases h3 : req.points < 1 ∨ req.points > 10000
      · rw [if_pos h3]; exact ⟨Or.inl rfl, rfl⟩
      rw [if_neg h3]
      by_cases h4 : req.port < 1 ∨ req.port > 65535
      · rw [if_pos h4]; exact ⟨Or.inl rfl, rfl⟩
      rw [if_neg h4, hnone]
      exact ⟨Or.inr rfl, rfl⟩
  · intro existing hex him
    unfold updateChallenge
    rcases shouldBindJSON_cases body req hbody with ⟨err, hb⟩ | hb
    · rw [hb]; exact ⟨rfl, rfl⟩
    · rw [hb]
      simp only
      by_cases h3 : req.points < 1 ∨ req.points > 10000
      · rw [if_pos h3]; exact ⟨rfl, rfl⟩
      rw [if_neg h3]
      by_cases h4 : req.port < 1 ∨ req.port > 65535
      · rw [if_pos h4]; exact ⟨rfl, rfl⟩
      rw [if_neg h4, hex]
      simp only
      rw [updatedImageName_no_image db existing req h1 h2, if_neg (by simp [him])]
      exact ⟨rfl, rfl⟩
  · intro existing hex him hnv hbe
    subst hbody
    unfold requestViolates at hnv
    push_neg at hnv
    simp only at hnv
    unfold updateChallenge shouldBindJSON
    simp only [hbe, if_true]
    rw [if_neg (by push_neg; exact ⟨hnv.1, by omega⟩),
      if_neg (by push_neg; exact ⟨hnv.2.2.1, by omega⟩), hex]
    simp only
    rw [updatedImageName_no_image db existing req h1 h2, if_pos him]

/-! ## The log queue -/

theorem store_full (s : MySQLLogStore) (log : APILog) (newID : String)
    (hopen : s.logChan.closed = false) (hfull : s.logChan.cap ≤ s.logChan.buf.length) :
    s.store log newID = (.ok ["LogStore: channel full, dropping log"], s) := by
  unfold MySQLLogStore.store
  simp only [hopen, Bool.false_eq_true, if_false]
  rw [if_neg (by omega)]

theorem store_room (s : MySQLLogStore) (log : APILog) (newID : String)
    (hopen : s.logChan.closed = false) (hroom : s.logChan.buf.length < s.logChan.cap) :
    s.store log newID
      = (.ok [], { s with logChan := { s.logChan with
          buf := s.logChan.buf ++ [if log.id = "" then { log with id := newID } else log] } }) := by
  unfold MySQLLogStore.store
  simp only [hopen, Bool.false_eq_true, if_false]
  rw [if_pos hroom]

theorem store_closed (s : MySQLLogStore) (log : APILog) (newID : String)
    (hclosed : s.logChan.closed = true) :
    s.store log newID = (.panic "send on closed channel", s) := by
  unfold MySQLLogStore.store
  simp only [hclosed, if_true]

/-- In a consistent state `killInstance` leaves the id in the set of no user. -/
theorem killInstance_no_set (s : State) (hinv : Inv s) (id : String) (e : Env) (row : Instance)
    (hrow : s.db.firstInstance id = some row) (u : String) :
    id ∉ (killInstance s id e).redis.smembers u := by
  rcases killInstance_cases s id e with ⟨hn, _⟩ | ⟨row', hr, hredis, _⟩
  · rw [hrow] at hn; simp at hn
  · rw [hrow] at hr
    cases hr
    rw [hredis, smembers_deleteInstance]
    by_cases hu : u = row.userID
    · rw [if_pos hu]; simp
    · rw [if_neg hu]
      intro hmem
      obtain ⟨_, r, _, hr, hrid, hru, _⟩ := hinv.index_row u id hmem
      obtain ⟨hrow1, hrow2⟩ := firstInstance_some s.db id row hrow
      have := rows_eq_of_id s.db.instances hinv.row_ids r row hr hrow1 (hrid.trans hrow2.symm)
      exact hu (by rw [← hru, this])

/-! ## Log store, tokens, login and images -/

theorem flush_spec (sys : LogSystem) :
    sys.flush.1.store = sys.store ∧ sys.flush.1.writerDone = sys.writerDone ∧
      sys.flush.1.batch = [] ∧ (sys.flush.2 = true → sys.flush.1.table = sys.table ++ sys.batch) := by
  unfold LogSystem.flush
  split
  · rename_i h
    have hb : sys.batch = [] := List.length_eq_zero.mp h
    simp [hb]
  · unfold insertLogBatch
    split
    · rename_i t ht
      split at ht
      · simp only [Option.some.injEq] at ht
        subst ht
        simp
      · simp at ht
    · simp

theorem flush_running (sys : LogSystem) (hc : sys.store.logChan.closed = false)
    (hs : sys.store.stopChanClosed = false) (hw : sys.writerDone = false)
    (hb : sys.store.batchSize = 100) : sys.flush.1.Running := by
  obtain ⟨h1, h2, h3, _⟩ := flush_spec sys
  refine ⟨?_, ?_, ?_, ?_, ?_⟩
  · rw [h1]; exact hc
  · rw [h1]; exact hs
  · rw [h2]; exact hw
  · rw [h1]; exact hb
  · rw [h3]; simp

theorem newLogSystem_running (table : List APILog) : (newLogSystem table).Running := by
  simp [LogSystem.Running, newLogSystem, newMySQLLogStore]

theorem step_running (sys : LogSystem) (h : sys.Running) (ev : LogEvent) :
    (sys.step ev).1.Running := by
  obtain ⟨hc, hs, hw, hb, hl⟩ := h
  cases ev with
  | store log newID =>
    simp only [LogSystem.step]
    by_cases hroom : sys.store.logChan.buf.length < sys.store.logChan.cap
    · rw [store_room _ _ _ hc hroom]
      exact ⟨hc, hs, hw, hb, hl⟩
    · rw [store_full _ _ _ hc (by omega)]
      exact ⟨hc, hs, hw, hb, hl⟩
  | receive =>
    simp only [LogSystem.step, hw, Bool.false_eq_true, if_false]
    cases hbuf : sys.store.logChan.buf with
    | nil => exact ⟨hc, hs, hw, hb, hl⟩
    | cons log rest =>
      simp only []
      split
      · exact flush_running _ hc hs rfl hb
      · rename_i hlt
        simp only [hb, ge_iff_le, not_le] at hlt
        exact ⟨hc, hs, rfl, hb, hlt⟩
  | tick =>
    simp only [LogSystem.step, hw, Bool.false_eq_true, if_false]
    exact flush_running _ hc hs hw hb

theorem flush_content (sys : LogSystem) (hok : sys.flush.2 = true) :
    sys.flush.1.content = sys.content := by
  obtain ⟨h1, _, h3, h4⟩ := flush_spec sys
  unfold LogSystem.content
  rw [h1, h3, h4 hok]
  simp

theorem step_content (sys : LogSystem) (h : sys.Running) (ev : LogEvent)
    (hok : (sys.step ev).2 = true) :
    (sys.step ev).1.content = sys.content ++ sys.accepted [ev] := by
  obtain ⟨hc, hs, hw, hb, hl⟩ := h
  cases ev with
  | store log newID =>
    simp only [LogSystem.step, LogSystem.accepted, MySQLLogStore.enqueued, LogSystem.content]
    by_cases hroom : sys.store.logChan.buf.length < sys.store.logChan.cap
    · rw [store_room _ _ _ hc hroom]
      simp
    · rw [store_full _ _ _ hc (by omega)]
      simp
  | receive =>
    simp only [LogSystem.step, hw, Bool.false_eq_true, if_false, LogSystem.accepted] at hok ⊢
    cases hbuf : sys.store.logChan.buf with
    | nil => simp
    | cons log rest =>
      rw [hbuf] at hok
      simp only [] at hok ⊢
      split
      · rename_i hge
        rw [if_pos hge] at hok
        rw [flush_content _ hok]
        simp [LogSystem.content, hbuf]
      · simp [LogSystem.content, hbuf]
  | tick =>
    simp only [LogSystem.step, hw, Bool.false_eq_true, if_false, LogSystem.accepted] at hok ⊢
    rw [flush_content _ hok]
    simp

theorem run_running (evs : List LogEvent) (sys : LogSystem) (h : sys.Running) :
    (sys.run evs).1.Running := by
  induction evs generalizing sys with
  | nil => exact h
  | cons ev evs ih => exact ih _ (step_running sys h ev)

theorem accepted_cons (sys : LogSystem) (ev : LogEvent) (evs : List LogEvent) :
    sys.accepted (ev :: evs) = sys.accepted [ev] ++ (sys.step ev).1.accepted evs := by
  cases ev <;> simp [LogSystem.accepted]

theorem run_content (evs : List LogEvent) (sys : LogSystem) (h : sys.Running)
    (hok : (sys.run evs).2 = true) :
    (sys.run evs).1.content = sys.content ++ sys.accepted evs := by
  induction evs generalizing sys with
  | nil => simp [LogSystem.run, LogSystem.accepted]
  | cons ev evs ih =>
    simp only [LogSystem.run, Bool.and_eq_true] at hok ⊢
    rw [ih _ (step_running sys h ev) hok.2, step_content sys h ev hok.1, accepted_cons sys ev evs]
    simp

theorem shutdown_running (sys : LogSystem) (h : sys.Running) :
    sys.shutdown.1 = .ok () ∧ sys.shutdown.2.1.batch = [] ∧
      sys.shutdown.2.1.store.logChan.buf = [] ∧ sys.shutdown.2.1.writerDone = true ∧
      sys.shutdown.2.1.store.logChan.closed = true ∧
      sys.shutdown.2.1.store.stopChanClosed = true ∧
      (sys.shutdown.2.2 = true → sys.shutdown.2.1.table = sys.content) := by
  obtain ⟨hc, hs, hw, hb, hl⟩ := h
  unfold LogSystem.shutdown
  rw [if_neg (by simp [hs])]
  obtain ⟨h1, h2, h3, h4⟩ := flush_spec
    (LogSystem.drain { sys with store := { sys.store with stopChanClosed := true } })
  refine ⟨rfl, h3, ?_, rfl, ?_, ?_, ?_⟩
  · show (LogSystem.flush _).1.store.logChan.buf = []
    rw [h1]; rfl
  · show (LogSystem.flush _).1.store.logChan.closed = true
    rw [h1]; rfl
  · show (LogSystem.flush _).1.store.stopChanClosed = true
    rw [h1]; rfl
  · intro hok
    show (LogSystem.flush _).1.table = _
    rw [h4 hok]
    simp [LogSystem.content, LogSystem.drain]

theorem truncationMarker_length : truncationMarker.length = 14 := by decide

theorem truncateBody_short (b : List Nat) (h : b.length ≤ 4096) : truncateBody b = b := by
  unfold truncateBody
  rw [if_neg (by omega)]

theorem truncateBody_long (b : List Nat) (h : 4096 < b.length) :
    truncateBody b = b.take 4096 ++ truncationMarker := by
  unfold truncateBody
  rw [if_pos h]

theorem truncateBody_long_length (b : List Nat) (h : 4096 < b.length) :
    (truncateBody b).length = 4110 := by
  rw [truncateBody_long b h, List.length_append, List.length_take, truncationMarker_length]
  omega

theorem reaper_stop_twice : (newReaper.stop.2.stop).1 = .panic "close of closed channel" := by
  decide

theorem toList_portFormat : "%d/tcp".toList = ['%', 'd', '/', 't', 'c', 'p'] := rfl

theorem sprintf_port (p : Int) : sprintf "%d/tcp" [.int p] = toString p ++ "/tcp" := by
  apply String.ext
  simp [sprintf, toList_portFormat, sprintfAux, formatVerb, String.data_append]

theorem toList_intFormat : "%d".toList = ['%', 'd'] := rfl

theorem sprintf_int (p : Int) : sprintf "%d" [.int p] = toString p := by
  apply String.ext
  simp [sprintf, toList_intFormat, sprintfAux, formatVerb]

theorem toList_flagEnvFormat : "FLAG=%s".toList = ['F', 'L', 'A', 'G', '=', '%', 's'] := rfl

theorem sprintf_flagEnv (f : String) : sprintf "FLAG=%s" [.str f] = "FLAG=" ++ f := by
  apply String.ext
  simp [sprintf, toList_flagEnvFormat, sprintfAux, formatVerb, String.data_append]

/-- The state after `StartContainer` once `ContainerCreate` has answered. -/
theorem startContainer_created (d : DockerClient) (s : State) (img : String)
    (env : List String) (cp : Int) (pr : Bool) (ml : Int) (cpu : Nat) (e : Env) (port : Int)
    (respID : String) (himg : e.ensureImageFails = false)
    (hport : d.allocatePort e.portRand = .ok port) (hcreate : e.containerCreate = some respID) :
    (d.startContainer s img env cp pr ml cpu e).2.containers
      = s.containers ++ [(d.endpoint,
          { d.createdContainer respID img env cp pr ml cpu port with
            running := !e.containerStartFails })] := by
  unfold DockerClient.startContainer
  simp only [himg, Bool.false_eq_true, if_false, hport, hcreate]
  cases e.containerStartFails <;> rfl

/-- In `StartInstance` the call of `StartContainer` has the flag as its only
environment entry and the port, privileged bit and limits of the challenge:
what the call returns decides how `StartInstance` goes on. -/
theorem startOnHost_call (s : State) (u c : String) (ch : Challenge) (host : DockerHost)
    (e : Env) (cl : DockerClient) (s1 : State)
    (hgc : getOrCreateClient s host e = (.ok cl, s1)) :
    (∀ containerID port s2,
      cl.startContainer s1 (resolveImageName s1.db ch)
          ["FLAG=" ++ generateFlag u e.now e.flagRand] ch.port ch.privileged ch.memoryLimit
          ch.cpuLimit e = (.ok (containerID, port), s2) →
      startOnHost s u c ch host e
        = recordInstance s2 u c host cl (generateFlag u e.now e.flagRand) containerID port e) ∧
    (∀ m s2,
      cl.startContainer s1 (resolveImageName s1.db ch)
          ["FLAG=" ++ generateFlag u e.now e.flagRand] ch.port ch.privileged ch.memoryLimit
          ch.cpuLimit e = (.error m, s2) →
      startOnHost s u c ch host e = (.error ("failed to start container: " ++ m), s2)) := by
  constructor
  · intro containerID port s2 h
    unfold startOnHost
    simp only [hgc, sprintf_flagEnv, h]
  · intro m s2 h
    unfold startOnHost
    simp only [hgc, sprintf_flagEnv, h]

theorem getOrCreateClient_new_limits (s : State) (host : DockerHost) (e : Env)
    (cl : DockerClient) (s1 : State) (hnone : kvGet s.clients host.id = none)
    (hgc : getOrCreateClient s host e = (.ok cl, s1)) :
    cl.memoryLimit = host.memoryLimit ∧ cl.cpuLimit = host.cpuLimit := by
  unfold getOrCreateClient at hgc
  rw [hnone] at hgc
  simp only at hgc
  by_cases hf : e.newClientFails = true
  · simp [hf] at hgc
  · simp only [hf, Bool.false_eq_true, if_false, Prod.mk.injEq, Result.ok.injEq] at hgc
    rw [← hgc.1]
    exact ⟨rfl, rfl⟩

theorem killInstance_no_row (s : State) (id : String) (e : Env)
    (h : s.db.firstInstance id = none) :
    killInstance s id e = { s with redis := { s.redis with zset := kvDel s.redis.zset id } } := by
  unfold killInstance
  rw [h]
  rfl

theorem verifyFlag_panic_iff (s : State) (u c f : String) (e : Env) :
    (∃ m, (verifyFlag s u c f e).1 = .panic m) ↔
      (findCorrectFlag s.redis c (getUserActiveInstances s.redis u) ≠ "" ∧
        findCorrectFlag s.redis c (getUserActiveInstances s.redis u) = f ∧
        s.db.firstChallenge c = none) := by
  unfold verifyFlag awardPoints
  by_cases h1 : findCorrectFlag s.redis c (getUserActiveInstances s.redis u) = ""
  · simp [h1]
  · by_cases h2 : findCorrectFlag s.redis c (getUserActiveInstances s.redis u) = f
    · have h4 : ¬ f = "" := fun hf => h1 (h2.trans hf)
      cases h3 : s.db.firstChallenge c <;> simp [h2, h3, h4]
    · simp [h1, h2]

theorem stringsSplit_no_sep (s : List Char) (sep : Char) (h : sep ∉ s) :
    stringsSplit s sep = [s] := by
  induction s with
  | nil => rfl
  | cons c cs ih =>
    have hc : c ≠ sep := fun hc => h (hc ▸ List.mem_cons_self _ _)
    have hcs : sep ∉ cs := fun hm => h (List.mem_cons_of_mem _ hm)
    simp only [stringsSplit, hc, if_false, ih hcs]

theorem stringsSplit_append_sep (s rest : List Char) (sep : Char) (h : sep ∉ s) :
    stringsSplit (s ++ sep :: rest) sep = s :: stringsSplit rest sep := by
  induction s with
  | nil => simp [stringsSplit]
  | cons c cs ih =>
    have hc : c ≠ sep := fun hc => h (hc ▸ List.mem_cons_self _ _)
    have hcs : sep ∉ cs := fun hm => h (List.mem_cons_of_mem _ hm)
    rw [List.cons_append]
    conv_lhs => unfold stringsSplit
    rw [if_neg hc, ih hcs]

theorem stringsSplit_three (a b c : List Char) (sep : Char) (ha : sep ∉ a) (hb : sep ∉ b)
    (hc : sep ∉ c) : stringsSplit (a ++ sep :: (b ++ sep :: c)) sep = [a, b, c] := by
  rw [stringsSplit_append_sep a _ sep ha, stringsSplit_append_sep b _ sep hb,
    stringsSplit_no_sep c sep hc]

theorem validateClaims_window (claims : AdminClaims) (now exp nbf : Int)
    (he : claims.expiresAt = some exp) (hn : claims.notBefore = some nbf) (h1 : nbf ≤ now)
    (h2 : now < exp) : validateClaims claims now = none := by
  unfold validateClaims
  rw [he, hn]
  simp only [Option.any_some, decide_eq_true_eq]
  rw [if_neg (by omega), if_neg (by omega)]

/-- What a token that `ParseAdminToken` accepts looks like. -/
theorem parseAdminToken_ok (lib : JWTLib) (key : List Nat) (tok : String) (now : Int)
    (claims : AdminClaims) (h : parseAdminToken lib key tok now = .ok claims) :
    ∃ header claimsSeg signature alg,
      stringsSplit tok.toList '.' = [header, claimsSeg, signature] ∧
      lib.decodeHeader (String.mk header) = some alg ∧ alg ∈ hmacMethods ∧
      lib.decodeClaims (String.mk claimsSeg) = some claims ∧
      lib.verify alg (String.mk header ++ "." ++ String.mk claimsSeg) (String.mk signature) key
        = true ∧
      validateClaims claims now = none := by
  unfold parseAdminToken at h
  split at h
  · rename_i header claimsSeg signature hsplit
    refine ⟨header, claimsSeg, signature, ?_⟩
    cases hh : lib.decodeHeader (String.mk header) with
    | none => rw [hh] at h; simp at h
    | some alg =>
      rw [hh] at h
      simp only at h
      cases hc : lib.decodeClaims (String.mk claimsSeg) with
      | none => rw [hc] at h; simp at h
      | some cl =>
        rw [hc] at h
        simp only at h
        by_cases h1 : alg ∉ signingMethods
        · rw [if_pos h1] at h; simp at h
        · rw [if_neg h1] at h
          by_cases h2 : alg ∉ hmacMethods
          · rw [if_pos h2] at h; simp at h
          · rw [if_neg h2] at h
            cases hv : lib.verify alg (String.mk header ++ "." ++ String.mk claimsSeg)
                (String.mk signature) key with
            | false => rw [hv] at h; simp at h
            | true =>
              rw [hv] at h
              simp only [Bool.not_true, Bool.false_eq_true, if_false] at h
              cases hval : validateClaims cl now with
              | some err => rw [hval] at h; simp at h
              | none =>
                rw [hval] at h
                simp only [Result.ok.injEq] at h
                subst h
                exact ⟨alg, hsplit, rfl, not_not.mp h2, rfl, hv, hval⟩
  · simp at h

theorem parseAdminToken_no_panic (lib : JWTLib) (key : List Nat) (tok : String) (now : Int)
    (m : String) : parseAdminToken lib key tok now ≠ .panic m := by
  unfold parseAdminToken
  split
  · split
    · simp
    · split
      · simp
      · split
        · simp
        · split
          · simp
          · split
            · simp
            · split <;> simp
  · simp

/-- A token that `ParseAdminToken` does not accept is rejected with an
error. -/
theorem parseAdminToken_error_of_not_ok (lib : JWTLib) (key : List Nat) (tok : String)
    (now : Int) (h : ∀ claims, parseAdminToken lib key tok now ≠ .ok claims) :
    ∃ m, parseAdminToken lib key tok now = .error m := by
  cases hp : parseAdminToken lib key tok now with
  | ok claims => exact absurd hp (h claims)
  | error m => exact ⟨m, rfl⟩
  | panic m => exact absurd hp (parseAdminToken_no_panic lib key tok now m)

theorem generateAdminToken_parse (lib : JWTLib) (key : List Nat) (adminID username : String)
    (tExp tIat tNbf now : Int)
    (hlib : lib.RoundTrips
      { adminID := adminID, username := username, expiresAt := some (tExp + 24 * 3600)
        issuedAt := some tIat, notBefore := some tNbf } key)
    (hnbf : tNbf ≤ now) (hexp : now < tExp + 24 * 3600) :
    ∃ token, generateAdminToken lib key adminID username tExp tIat tNbf = .ok token ∧
      token ≠ "" ∧
      parseAdminToken lib key token now
        = .ok { adminID := adminID, username := username, expiresAt := some (tExp + 24 * 3600)
                issuedAt := some tIat, notBefore := some tNbf } := by
  obtain ⟨h1, h2, h3, h4, h5, h6⟩ := hlib
  refine ⟨_, rfl, ?_, ?_⟩
  · intro h
    have := congrArg String.data h
    simp [String.data_append] at this
  · unfold parseAdminToken
    have hsplit : stringsSplit
        (lib.encodeHeader "HS256" ++ "." ++ lib.encodeClaims
          { adminID := adminID, username := username, expiresAt := some (tExp + 24 * 3600)
            issuedAt := some tIat, notBefore := some tNbf } ++ "." ++
          lib.sign "HS256" (lib.encodeHeader "HS256" ++ "." ++ lib.encodeClaims
            { adminID := adminID, username := username, expiresAt := some (tExp + 24 * 3600)
              issuedAt := some tIat, notBefore := some tNbf }) key).toList '.'
        = [(lib.encodeHeader "HS256").toList,
           (lib.encodeClaims
            { adminID := adminID, username := username, expiresAt := some (tExp + 24 * 3600)
              issuedAt := some tIat, notBefore := some tNbf }).toList,
           (lib.sign "HS256" (lib.encodeHeader "HS256" ++ "." ++ lib.encodeClaims
            { adminID := adminID, username := username, expiresAt := some (tExp + 24 * 3600)
              issuedAt := some tIat, notBefore := some tNbf }) key).toList] := by
      have := stringsSplit_three _ _ _ '.' h1 h3 h5
      simpa [String.toList, String.data_append] using this
    rw [hsplit]
    have e : ∀ s : String, String.mk s.toList = s := fun _ => rfl
    simp only [e, h2, h4, h6]
    rw [validateClaims_window _ now (tExp + 24 * 3600) tNbf rfl rfl hnbf hexp]
    simp [signingMethods, hmacMethods]

/-! ## `firstMatch` -/

theorem firstMatch_fold_some {α : Type} (key : α → String) (l : List α) (b : α) :
    ∃ x, l.foldl (pickLeast key) (some b) = some x ∧ (x = b ∨ x ∈ l) := by
  induction l generalizing b with
  | nil => exact ⟨b, rfl, Or.inl rfl⟩
  | cons a l ih =>
    simp only [List.foldl_cons, pickLeast]
    by_cases h : key a < key b
    · rw [if_pos h]
      obtain ⟨x, hx, hm⟩ := ih a
      refine ⟨x, hx, Or.inr ?_⟩
      rcases hm with rfl | hm
      · exact List.mem_cons_self _ _
      · exact List.mem_cons_of_mem _ hm
    · rw [if_neg h]
      obtain ⟨x, hx, hm⟩ := ih b
      refine ⟨x, hx, ?_⟩
      rcases hm with rfl | hm
      · exact Or.inl rfl
      · exact Or.inr (List.mem_cons_of_mem _ hm)

theorem firstMatch_none {α : Type} (key : α → String) (p : α → Bool) (rows : List α) :
    firstMatch key p rows = none ↔ ∀ r ∈ rows, p r = false := by
  unfold firstMatch
  cases hf : rows.filter p with
  | nil =>
    simp only [List.foldl_nil, true_iff]
    intro r hr
    by_contra hp
    have : r ∈ rows.filter p := List.mem_filter.2 ⟨hr, by simpa using hp⟩
    rw [hf] at this
    simp at this
  | cons a l =>
    simp only [List.foldl_cons, pickLeast]
    obtain ⟨x, hx, _⟩ := firstMatch_fold_some key l a
    rw [hx]
    simp only [false_iff, reduceCtorEq]
    intro hall
    have ha : a ∈ rows.filter p := by rw [hf]; exact List.mem_cons_self _ _
    have := List.mem_filter.1 ha
    rw [hall a this.1] at this
    simp at this

theorem firstMatch_some {α : Type} (key : α → String) (p : α → Bool) (rows : List α) (r : α)
    (h : firstMatch key p rows = some r) : r ∈ rows ∧ p r = true := by
  unfold firstMatch at h
  cases hf : rows.filter p with
  | nil => rw [hf] at h; simp at h
  | cons a l =>
    rw [hf] at h
    simp only [List.foldl_cons, pickLeast] at h
    obtain ⟨x, hx, hm⟩ := firstMatch_fold_some key l a
    rw [hx] at h
    simp only [Option.some.injEq] at h
    subst h
    have hx' : x ∈ rows.filter p := by
      rw [hf]
      rcases hm with rfl | hm
      · exact List.mem_cons_self _ _
      · exact List.mem_cons_of_mem _ hm
    exact List.mem_filter.1 hx'

/-! ## `Login` -/

theorem login_cases (lib : JWTLib) (key : List Nat) (cmp : String → String → Bool)
    (admins : List Admin) (u pw : String) (now tExp tIat tNbf : Int) :
    ((∀ a ∈ admins, a.username ≠ u) ∧
      login lib key cmp admins u pw now tExp tIat tNbf = (.error "用户名或密码错误", admins)) ∨
    (∃ row ∈ admins, row.username = u ∧ row.isActive = false ∧
      login lib key cmp admins u pw now tExp tIat tNbf = (.error "账号已被禁用", admins)) ∨
    (∃ row ∈ admins, row.username = u ∧ row.isActive = true ∧
      cmp row.passwordHash pw = false ∧
      login lib key cmp admins u pw now tExp tIat tNbf = (.error "用户名或密码错误", admins)) ∨
    (∃ row ∈ admins, row.username = u ∧ row.isActive = true ∧
      cmp row.passwordHash pw = true ∧
      ∃ token, token ≠ "" ∧
        generateAdminToken lib key row.id row.username tExp tIat tNbf = .ok token ∧
        login lib key cmp admins u pw now tExp tIat tNbf
          = (.ok (token, { row with lastLoginAt := some now }),
             updateLastLogin admins row.id now)) := by
  unfold login
  cases hf : firstMatch (·.id) (fun a => decide (a.username = u)) admins with
  | none =>
    left
    refine ⟨?_, rfl⟩
    intro a ha hu
    have := (firstMatch_none _ _ _).1 hf a ha
    simp [hu] at this
  | some row =>
    right
    obtain ⟨hmem, hp⟩ := firstMatch_some _ _ _ _ hf
    have hu : row.username = u := by simpa using hp
    simp only
    cases hact : row.isActive with
    | false => left; exact ⟨row, hmem, hu, hact, by simp⟩
    | true =>
      right
      cases hc : cmp row.passwordHash pw with
      | false => left; exact ⟨row, hmem, hu, hact, hc, by simp⟩
      | true =>
        right
        refine ⟨row, hmem, hu, hact, hc, _, ?_, rfl, ?_⟩
        · intro h
          have := congrArg String.data h
          simp [String.data_append] at this
        · simp [generateAdminToken]
          exact hact

theorem username_inj (admins : List Admin) (h : usernamesUnique admins) (a b : Admin)
    (ha : a ∈ admins) (hb : b ∈ admins) (hab : a.username = b.username) : a = b :=
  List.inj_on_of_nodup_map h ha hb hab

/-! ## `SyncFromRegistry` -/

theorem getImageByName_none_iff (db : DB) (name tag : String) :
    db.getImageByName name tag = none ↔ (name, tag) ∉ db.dockerImages.map pairOf := by
  unfold DB.getImageByName
  rw [firstMatch_none]
  simp only [List.mem_map, pairOf, Prod.mk.injEq, not_exists, not_and, Bool.and_eq_false_imp,
    decide_eq_true_eq, decide_eq_false_iff_not]

theorem newPairs_mem (ps : List (String × String)) :
    ∀ (seen : List (String × String)) (p : String × String),
      p ∈ newPairs seen ps ↔ p ∈ ps ∧ p ∉ seen := by
  induction ps with
  | nil => intro seen p; simp [newPairs]
  | cons q ps ih =>
    intro seen p
    unfold newPairs
    by_cases hq : q ∈ seen
    · rw [if_pos hq, ih]
      constructor
      · rintro ⟨h1, h2⟩; exact ⟨List.mem_cons_of_mem _ h1, h2⟩
      · rintro ⟨h1, h2⟩
        rcases List.mem_cons.1 h1 with rfl | h1
        · exact absurd hq h2
        · exact ⟨h1, h2⟩
    · rw [if_neg hq, List.mem_cons, ih]
      constructor
      · rintro (rfl | ⟨h1, h2⟩)
        · exact ⟨List.mem_cons_self _ _, hq⟩
        · exact ⟨List.mem_cons_of_mem _ h1, fun h => h2 (List.mem_append_left _ h)⟩
      · rintro ⟨h1, h2⟩
        by_cases hpq : p = q
        · exact Or.inl hpq
        · right
          rcases List.mem_cons.1 h1 with h | h1
          · exact absurd h hpq
          · refine ⟨h1, ?_⟩
            intro h
            rcases List.mem_append.1 h with h | h
            · exact h2 h
            · exact hpq (List.mem_singleton.1 h)

theorem newPairs_nodup (ps : List (String × String)) :
    ∀ seen : List (String × String), (newPairs seen ps).Nodup := by
  induction ps with
  | nil => intro seen; simp [newPairs]
  | cons q ps ih =>
    intro seen
    unfold newPairs
    by_cases hq : q ∈ seen
    · rw [if_pos hq]; exact ih seen
    · rw [if_neg hq, List.nodup_cons]
      refine ⟨?_, ih _⟩
      rw [newPairs_mem]
      rintro ⟨_, h⟩
      exact h (List.mem_append_right _ (List.mem_singleton.2 rfl))

theorem newPairs_perm_missing (db : DB) (registry : Registry) :
    (newPairs (db.dockerImages.map pairOf) (listedPairs registry)).Perm
      (missingPairs db registry) := by
  unfold missingPairs
  rw [List.perm_ext_iff_of_nodup (newPairs_nodup _ _) (List.nodup_dedup _)]
  intro p
  rw [newPairs_mem]
  rw [List.mem_dedup, List.mem_filter, Option.isNone_iff_eq_none, getImageByName_none_iff]

theorem syncTag_present (ids : Nat → String) (repo tag : String) (st : SyncState)
    (h : (repo, tag) ∈ st.db.dockerImages.map pairOf) : syncTag ids repo st tag = st := by
  unfold syncTag
  cases hg : st.db.getImageByName repo tag with
  | none => exact absurd h ((getImageByName_none_iff _ _ _).1 hg)
  | some _ => rfl

theorem syncTag_absent (ids : Nat → String) (repo tag : String) (st : SyncState)
    (h : (repo, tag) ∉ st.db.dockerImages.map pairOf) (htag : tag ≠ "")
    (hid : ids st.drawn ∉ st.db.dockerImages.map (·.id)) :
    syncTag ids repo st tag
      = { db := { st.db with dockerImages := st.db.dockerImages ++
              [{ id := ids st.drawn, name := repo, tag := tag, registry := "localhost:5000"
                 isAvailable := true }] }
          syncedCount := st.syncedCount + 1, drawn := st.drawn + 1 } := by
  unfold syncTag
  rw [(getImageByName_none_iff _ _ _).2 h]
  simp only [DB.createImage]
  have hany : (st.db.dockerImages.any fun i => decide (i.id = ids st.drawn)) = false := by
    rw [List.any_eq_false]
    intro i hi
    simp only [decide_eq_true_eq]
    intro hEq
    exact hid (List.mem_map.2 ⟨i, hi, hEq⟩)
  rw [hany]
  simp [DockerImage.withColumnDefaults, htag]

theorem syncRepo_pairs (ids : Nat → String) (tags : String → Option (List String))
    (repos : List String) :
    ∀ st : SyncState, repos.foldl (syncRepo ids tags) st
      = (repos.flatMap (repoPairs tags)).foldl (syncPair ids) st := by
  induction repos with
  | nil => intro st; rfl
  | cons repo repos ih =>
    intro st
    rw [List.foldl_cons, ih, List.flatMap_cons, List.foldl_append]
    congr 1
    unfold syncRepo repoPairs
    cases tags repo with
    | none => rfl
    | some ts =>
      simp only [List.foldl_map]
      rfl

theorem syncPairs_spec (ids : Nat → String) (hinj : Function.Injective ids)
    (ps : List (String × String)) :
    ∀ st : SyncState, (∀ p ∈ ps, p.2 ≠ "") →
      (∀ k, st.drawn ≤ k → ids k ∉ st.db.dockerImages.map (·.id)) →
      ∃ rows : List DockerImage,
        (ps.foldl (syncPair ids) st).db
          = { st.db with dockerImages := st.db.dockerImages ++ rows } ∧
        rows.map pairOf = newPairs (st.db.dockerImages.map pairOf) ps ∧
        (ps.foldl (syncPair ids) st).syncedCount = st.syncedCount + rows.length ∧
        (ps.foldl (syncPair ids) st).drawn = st.drawn + rows.length ∧
        ∀ r ∈ rows, r.registry = "localhost:5000" ∧ r.isAvailable = true := by
  induction ps with
  | nil =>
    intro st _ _
    exact ⟨[], by simp, rfl, rfl, rfl, by simp⟩
  | cons p ps ih =>
    intro st htags hfresh
    rw [List.foldl_cons]
    have htags' : ∀ q ∈ ps, q.2 ≠ "" := fun q hq => htags q (List.mem_cons_of_mem _ hq)
    by_cases hp : p ∈ st.db.dockerImages.map pairOf
    · have hstep : syncPair ids st p = st := syncTag_present ids p.1 p.2 st hp
      rw [hstep]
      obtain ⟨rows, h1, h2, h3, h4, h5⟩ := ih st htags' hfresh
      refine ⟨rows, h1, ?_, h3, h4, h5⟩
      rw [h2]
      conv_rhs => unfold newPairs
      rw [if_pos hp]
    · have hstep := syncTag_absent ids p.1 p.2 st hp (htags p (List.mem_cons_self _ _))
        (hfresh st.drawn (le_refl _))
      have hstep' : syncPair ids st p = _ := hstep
      rw [hstep']
      have hfresh1 : ∀ k, st.drawn + 1 ≤ k → ids k ∉ List.map (·.id) (st.db.dockerImages ++
          [{ id := ids st.drawn, name := p.1, tag := p.2, registry := "localhost:5000"
             isAvailable := true }]) := by
        intro k hk hmem
        rw [List.map_append, List.mem_append] at hmem
        rcases hmem with h | h
        · exact hfresh k (by omega) h
        · simp only [List.map_cons, List.map_nil, List.mem_singleton] at h
          have := hinj h
          omega
      obtain ⟨rows, h1, h2, h3, h4, h5⟩ := ih
        { db := { st.db with dockerImages := st.db.dockerImages ++
              [{ id := ids st.drawn, name := p.1, tag := p.2, registry := "localhost:5000"
                 isAvailable := true }] }
          syncedCount := st.syncedCount + 1, drawn := st.drawn + 1 } htags' hfresh1
      refine ⟨{ id := ids st.drawn, name := p.1, tag := p.2, registry := "localhost:5000"
                isAvailable := true } :: rows, ?_, ?_, ?_, ?_, ?_⟩
      · rw [h1]
        show ({ st.db with dockerImages := (st.db.dockerImages ++ [_]) ++ rows } : DB) = _
        rw [List.append_assoc]
        rfl
      · conv_rhs => unfold newPairs
        rw [if_neg hp]
        simp only [List.map_cons, pairOf]
        congr 1
        rw [h2]
        simp only [List.map_append, List.map_cons, List.map_nil, pairOf]
      · rw [h3]
        show st.syncedCount + 1 + rows.length = st.syncedCount + (rows.length + 1)
        omega
      · rw [h4]
        show st.drawn + 1 + rows.length = st.drawn + (rows.length + 1)
        omega
      · intro r hr
        rcases List.mem_cons.1 hr with rfl | hr
        · exact ⟨rfl, rfl⟩
        · exact h5 r hr

theorem syncPairs_present (ids : Nat → String) (ps : List (String × String)) :
    ∀ st : SyncState, (∀ p ∈ ps, p ∈ st.db.dockerImages.map pairOf) →
      ps.foldl (syncPair ids) st = st := by
  induction ps with
  | nil => intro st _; rfl
  | cons p ps ih =>
    intro st h
    rw [List.foldl_cons]
    have hstep : syncPair ids st p = st :=
      syncTag_present ids p.1 p.2 st (h p (List.mem_cons_self _ _))
    rw [hstep]
    exact ih st (fun q hq => h q (List.mem_cons_of_mem _ hq))

theorem syncFromRegistry_pairs (db : DB) (registry : Registry) (repos : List String)
    (ids : Nat → String) (hcat : registry.catalog = .ok repos) :
    syncFromRegistry db registry ids
      = (.ok ((listedPairs registry).foldl (syncPair ids)
            { db := db, syncedCount := 0, drawn := 0 }).syncedCount,
         ((listedPairs registry).foldl (syncPair ids)
            { db := db, syncedCount := 0, drawn := 0 }).db) := by
  unfold syncFromRegistry listedPairs
  rw [hcat]
  simp only
  rw [syncRepo_pairs]

theorem demoIds_injective : Function.Injective demoIds := by
  intro a b h
  have := congrArg String.length h
  simp [demoIds, String.length] at this
  exact this

theorem demoIds_fresh (k : Nat) : demoIds k ∉ demoImageDB.dockerImages.map (·.id) := by
  intro h
  simp only [demoImageDB, List.map_cons, List.map_nil, List.mem_singleton] at h
  have := congrArg String.data h
  simp [demoIds, List.replicate_succ] at this

/-! ## `ImportFromTar` -/

theorem importFromTar_unparsed (db : DB) (path : String) (e : ImportEnv)
    (hload : e.loadFails = false) (h : loadedImageOf e.loadOutput = "") :
    importFromTar db path e
      = (.error ("无法解析镜像名，docker load 输出: " ++ e.loadOutput), db,
         [["docker", "load", "-i", path]]) := by
  unfold importFromTar
  simp [hload, h]

theorem loadedImageOf_fold_none (lines : List (List Char)) (init : String)
    (h : ∀ line ∈ lines, stringsContains line "Loaded image:".toList = false) :
    lines.foldl loadedImageStep init = init := by
  induction lines generalizing init with
  | nil => rfl
  | cons l ls ih =>
    rw [List.foldl_cons]
    have hl : loadedImageStep init l = init := by
      unfold loadedImageStep
      rw [h l (List.mem_cons_self _ _)]
      simp
    rw [hl]
    exact ih init (fun x hx => h x (List.mem_cons_of_mem _ hx))

/-- Without a line that holds `Loaded image:` the call fails after
`docker load`: it runs no other command and leaves the store as it was. -/
theorem importFromTar_no_loaded_line (db : DB) (path : String) (e : ImportEnv)
    (hload : e.loadFails = false)
    (h : ∀ line ∈ scanLines e.loadOutput.toList,
      stringsContains line "Loaded image:".toList = false) :
    importFromTar db path e
      = (.error ("无法解析镜像名，docker load 输出: " ++ e.loadOutput), db,
         [["docker", "load", "-i", path]]) := by
  apply importFromTar_unparsed db path e hload
  unfold loadedImageOf
  exact loadedImageOf_fold_none _ "" h

/-! ## Properties of the specification -/

/-- C1. In every state reachable from an empty state by calls of
StartInstance, StopInstance, VerifyFlag and killInstance executed one at a
time, where StartInstance draws an id that is not in use, for every user `u`
and every challenge `c` at most one id in `user_instances:{u}` has a hash
whose `challenge_id` is `c`, and at most one instance row of `(u, c)` has
status `running`. -/
theorem at_most_one_live_instance (s : State) (h : Reachable s) (u c : String) :
    (liveIds s.redis u c).length ≤ 1 ∧ (runningRows s.db u c).length ≤ 1 :=
  ⟨inv_liveIds s (reachable_inv s h) u c, inv_runningRows s (reachable_inv s h) u c⟩

/-- Witness of C1: the state after one StartInstance on the sample
deployment, where the index holds exactly one instance of `(u1, c1)`. -/
theorem at_most_one_live_instance_witness :
    Reachable demoStarted ∧ liveIds demoStarted.redis "u1" "c1" = [demoInstance.id] ∧
      ((liveIds demoStarted.redis "u1" "c1").length ≤ 1 ∧
        (runningRows demoStarted.db "u1" "c1").length ≤ 1) :=
  ⟨demo_reachable, by decide, at_most_one_live_instance demoStarted demo_reachable "u1" "c1"⟩

/-- C2, amended. For every state in which the challenge row exists and the
state index already holds an instance of `(userID, challengeID)`,
StartInstance returns the error with the already-started message and the
state is unchanged: no container is started, and neither the index nor
the instance table is modified. -/
theorem startInstance_rejects_duplicate (s : State) (u c : String) (e : Env) (ch : Challenge)
    (i : String) (h : Hash)
    (hch : s.db.firstChallenge c = some ch)
    (hi : i ∈ s.redis.smembers u) (hh : kvGet s.redis.hashes i = some h)
    (hc : hget h "challenge_id" = c) :
    startInstance s u c e = (.error alreadyStartedMsg, s) :=
  startInstance_duplicate s u c e ch i h hch hi hh hc

/-- Witness of C2: a second StartInstance of user `u1` on the sample
deployment. -/
theorem startInstance_rejects_duplicate_witness :
    (demoStarted.db.firstChallenge "c1" = some demoChallenge ∧
      demoInstance.id ∈ demoStarted.redis.smembers "u1" ∧
      kvGet demoStarted.redis.hashes demoInstance.id
        = some (instanceData "u1" "c1" "cont1" demoInstance.flag 32345 1700003600)) ∧
    startInstance demoStarted "u1" "c1" demoEnv2 = (.error alreadyStartedMsg, demoStarted) :=
  ⟨by decide,
    startInstance_rejects_duplicate demoStarted "u1" "c1" demoEnv2 demoChallenge demoInstance.id
      (instanceData "u1" "c1" "cont1" demoInstance.flag 32345 1700003600)
      (by decide) (by decide) (by decide) (by decide)⟩

/-- Counterexample to C2 as stated: the index holds an instance of
`(u1, c1)` but the challenge row is gone; StartInstance answers
"challenge not found", not the already-started message. -/
theorem startInstance_duplicate_without_challenge :
    liveIds orphanState.redis "u1" "c1" = [demoInstance.id] ∧
    (startInstance orphanState "u1" "c1" demoEnv2).1
      = .error "challenge not found: challenge not found" ∧
    (startInstance orphanState "u1" "c1" demoEnv2).1 ≠ .error alreadyStartedMsg := by
  decide

/-- C3, at the failing input: the instance that StartInstance created for
`(u1, c1)` is still in the state index, the challenge row has been removed,
and VerifyFlag with the minted flag dereferences the missing challenge and
panics instead of returning `correct = true`. -/
theorem verifyFlag_minted_flag_panics :
    startInstance demoState "u1" "c1" demoEnv = (.ok demoInstance, demoStarted) ∧
    orphanState.redis = demoStarted.redis ∧
    liveIds orphanState.redis "u1" "c1" = [demoInstance.id] ∧
    (verifyFlag orphanState "u1" "c1" demoInstance.flag demoEnv2).1
      = .panic "invalid memory address or nil pointer dereference" := by
  decide

/-- C4, at the failing input: VerifyFlag finds the live instance of
`(u1, c1)` and the submitted flag matches, but the challenge row is missing;
the call panics and no Submission row is appended. -/
theorem verifyFlag_match_appends_nothing :
    liveIds orphanState.redis "u1" "c1" = [demoInstance.id] ∧
    verifyFlag orphanState "u1" "c1" demoInstance.flag demoEnv2
      = (.panic "invalid memory address or nil pointer dereference", orphanState) ∧
    (verifyFlag orphanState "u1" "c1" demoInstance.flag demoEnv2).2.db.submissions
      = orphanState.db.submissions := by
  decide

/-- C5. For every state in which the user has no live instance of the
challenge in the state index, VerifyFlag returns `correct = false` with the
fixed no-active-instance message and a nil error, and the state is unchanged:
no Submission row is appended and no user's points change. -/
theorem verifyFlag_no_instance (s : State) (u c f : String) (e : Env)
    (h : liveIds s.redis u c = []) :
    verifyFlag s u c f e = (.ok (false, noActiveInstanceMsg), s) ∧
      (verifyFlag s u c f e).2.db.submissions = s.db.submissions ∧
      (verifyFlag s u c f e).2.db.users = s.db.users := by
  have := verifyFlag_without_instance s u c f e h
  rw [this]
  exact ⟨rfl, rfl, rfl⟩

/-- Witness of C5: user `u2` has no instance on the sample deployment. -/
theorem verifyFlag_no_instance_witness :
    liveIds demoStarted.redis "u2" "c1" = [] ∧
    (verifyFlag demoStarted "u2" "c1" demoInstance.flag demoEnv2
        = (.ok (false, noActiveInstanceMsg), demoStarted) ∧
      (verifyFlag demoStarted "u2" "c1" demoInstance.flag demoEnv2).2.db.submissions
        = demoStarted.db.submissions ∧
      (verifyFlag demoStarted "u2" "c1" demoInstance.flag demoEnv2).2.db.users
        = demoStarted.db.users) :=
  ⟨by decide, verifyFlag_no_instance demoStarted "u2" "c1" demoInstance.flag demoEnv2 (by decide)⟩

/-- C6, amended. For every host whose port range satisfies `min ≤ max` and
spans fewer than `2^63` ports: AllocatePort of the client that
GetOrCreateClient returns for the host (newly built, or pooled with the range
of the host row) never fails and returns a port `p` with
`portRangeMin ≤ p ≤ portRangeMax`; and the port recorded on every instance
that StartInstance creates on that host through such a client lies in that
range. -/
theorem allocated_port_in_range (host : DockerHost)
    (hmin : isInt64 host.portRangeMin) (hmax : isInt64 host.portRangeMax)
    (hle : host.portRangeMin ≤ host.portRangeMax)
    (hno : host.portRangeMax - host.portRangeMin + 1 < 2 ^ 63) :
    (∀ (s : State) (e : Env) (cl : DockerClient) (s1 : State) (draw : Nat),
      poolCoherent s host → getOrCreateClient s host e = (.ok cl, s1) →
      ∃ p, cl.allocatePort draw = .ok p ∧ host.portRangeMin ≤ p ∧ p ≤ host.portRangeMax) ∧
    (∀ (s : State) (u c : String) (e : Env) (inst : Instance) (s' : State),
      poolCoherent s host → startInstance s u c e = (.ok inst, s') →
      getDockerHostByID s.db inst.dockerHostID = .ok host →
      host.portRangeMin ≤ inst.port ∧ inst.port ≤ host.portRangeMax) := by
  constructor
  · intro s e cl s1 draw hco hgc
    obtain ⟨r1, r2⟩ := getOrCreateClient_range s host e cl s1 hco hgc
    rw [← r1, ← r2]
    exact allocatePort_ok cl draw (by rw [r1]; exact hmin) (by rw [r2]; exact hmax)
      (by rw [r1, r2]; exact hle) (by rw [r1, r2]; exact hno)
  · intro s u c e inst s' hco hstart hh
    exact startInstance_port_range host hmin hmax hle s u c e inst s' hco hstart hh

/-- Witness of C6: the host of the sample deployment, range 20000 to 40000,
and the instance started on it. -/
theorem allocated_port_in_range_witness :
    (isInt64 demoHost.portRangeMin ∧ isInt64 demoHost.portRangeMax ∧
      demoHost.portRangeMin ≤ demoHost.portRangeMax ∧
      demoHost.portRangeMax - demoHost.portRangeMin + 1 < 2 ^ 63) ∧
    demoInstance.port = 32345 ∧
    (demoHost.portRangeMin ≤ demoInstance.port ∧ demoInstance.port ≤ demoHost.portRangeMax) :=
  ⟨by decide, by decide,
    (allocated_port_in_range demoHost (by decide) (by decide) (by decide) (by decide)).2
      demoState "u1" "c1" demoEnv demoInstance demoStarted (by decide) demo_start (by decide)⟩

/-- Counterexample to C6 as stated. A range from 0 to `2^63 - 1` satisfies
`min ≤ max`, yet `portRangeMax - portRangeMin + 1` wraps to `-2^63` and
`rand.Intn` panics. And on a host with range 20000 to 40000 whose pooled
client was built for 50000 to 50010, StartInstance records port 50003. -/
theorem allocatePort_fails_on_wide_range :
    (wideClient.portRangeMin ≤ wideClient.portRangeMax ∧
      wideClient.allocatePort 0 = .panic "invalid argument to Intn") ∧
    (getDockerHostByID staleState.db "h1" = .ok demoHost ∧
      demoHost.portRangeMin ≤ demoHost.portRangeMax ∧
      (startInstance staleState "u1" "c1" demoEnv).1
        = .ok { demoInstance with port := 50003 } ∧
      ¬ (50003 : Int) ≤ demoHost.portRangeMax) := by
  decide

/-- C7, amended. For every non-empty user id without a line feed, at every
time at or after the Unix epoch and for every random draw, the flag that
generateFlag produces matches `flag\{.+_\d+_[0-9a-f]{8}\}` as a whole. -/
theorem generateFlag_matches_pattern (u : String) (t : Int) (src : List Nat)
    (hu : u ≠ "") (hnl : '\n' ∉ u.toList) (ht : 0 ≤ t) :
    Regex.rmatch flagPattern (generateFlag u t src).toList = true :=
  generateFlag_matches u t src hu hnl ht

/-- Witness of C7: the user id of the repository's test. -/
theorem generateFlag_matches_pattern_witness :
    ("user_123" ≠ "" ∧ '\n' ∉ "user_123".toList ∧ (0 : Int) ≤ 1700000000) ∧
    Regex.rmatch flagPattern
      (generateFlag "user_123" 1700000000 [222, 173, 190, 239]).toList = true :=
  ⟨by decide,
    generateFlag_matches_pattern "user_123" 1700000000 [222, 173, 190, 239]
      (by decide) (by decide) (by decide)⟩

/-- Counterexample to C7 as stated: for the empty user id (the second case of
the repository's TestGenerateFlag) the flag is `flag{_1700000000_deadbeef}`,
which the pattern does not match; nor does it match for a user id with a line
feed, nor for a clock before the epoch. -/
theorem generateFlag_empty_user_no_match :
    generateFlag "" 1700000000 [222, 173, 190, 239] = "flag\x7b_1700000000_deadbeef\x7d" ∧
    Regex.rmatch flagPattern (generateFlag "" 1700000000 [222, 173, 190, 239]).toList = false ∧
    Regex.rmatch flagPattern (generateFlag "a\nb" 1700000000 [222, 173, 190, 239]).toList
      = false ∧
    Regex.rmatch flagPattern (generateFlag "u1" (-5) [222, 173, 190, 239]).toList = false := by
  decide

/-- C8. For every user id `u`, clock value `t` and random source, with `r`
the four bytes read from the source, generateFlag equals
`"flag{" ++ u ++ "_" ++ decimal(t) ++ "_" ++ hex(r) ++ "}"`, where `hex(r)` is
exactly 8 lowercase hexadecimal characters; the result starts with
`"flag{" ++ u ++ "_"` and ends with `"}"`. -/
theorem generateFlag_format (u : String) (t : Int) (src : List Nat) :
    generateFlag u t src
      = "flag\x7b" ++ u ++ "_" ++ toString t ++ "_" ++ hexEncode (randRead 4 src) ++ "\x7d" ∧
    (randRead 4 src).length = 4 ∧
    (hexEncode (randRead 4 src)).toList.length = 8 ∧
    (∀ c ∈ (hexEncode (randRead 4 src)).toList, c ∈ "0123456789abcdef".toList) ∧
    ("flag\x7b" ++ u ++ "_").toList <+: (generateFlag u t src).toList ∧
    "\x7d".toList <:+ (generateFlag u t src).toList := by
  refine ⟨generateFlag_eq u t src, randRead_length 4 src, ?_, ?_, ?_, ?_⟩
  · rw [hexEncode_length, randRead_length]
  · exact hexEncode_mem_table _
  · rw [generateFlag_eq]
    refine ⟨(toString t ++ "_" ++ hexEncode (randRead 4 src) ++ "\x7d").toList, ?_⟩
    simp [String.toList, String.data_append]
  · rw [generateFlag_eq]
    refine ⟨("flag\x7b" ++ u ++ "_" ++ toString t ++ "_" ++ hexEncode (randRead 4 src)).toList, ?_⟩
    simp [String.toList, String.data_append]

/-- C9, amended. For every state in which the instance `i` is the one
live instance of challenge `c` in the set of user `u`, a successful
StopInstance(u, c) leaves no entry for `i` in the state index (no hash, no
member of the user's set, no member of the expiry index); it leaves no
container for it on the engine when the engine's stop and remove calls went
through (when they fail the call still succeeds and the container stays);
and a second StopInstance(u, c) issued immediately afterwards fails with the
not-found error and changes nothing. -/
theorem stopInstance_clears (s : State) (u c : String) (e : Env) (i : String) (h : Hash)
    (hi : i ∈ s.redis.smembers u) (hh : kvGet s.redis.hashes i = some h)
    (hc : hget h "challenge_id" = c)
    (hone : ∀ j ∈ s.redis.smembers u, hget (getInstance s.redis j) "challenge_id" = c → j = i)
    (hok : (stopInstance s u c e).1 = .ok ()) :
    kvGet (stopInstance s u c e).2.redis.hashes i = none ∧
    i ∉ (stopInstance s u c e).2.redis.smembers u ∧
    kvGet (stopInstance s u c e).2.redis.zset i = none ∧
    (∃ row host cl s1, s.db.firstInstance i = some row ∧
      getDockerHostByID s.db row.dockerHostID = .ok host ∧
      getOrCreateClient s host e = (.ok cl, s1) ∧
      (e.containerStopFails = false → e.containerRemoveFails = false →
        hasContainer (stopInstance s u c e).2 cl.endpoint (hget h "container_id") = false)) ∧
    ∀ e2, stopInstance (stopInstance s u c e).2 u c e2
      = (.error noInstanceMsg, (stopInstance s u c e).2) :=
  have _ := hi
  have _ := hc
  stopInstance_clears_aux s u c e i h hh hone hok

/-- Witness of C9: StopInstance of user `u1` on the sample deployment, with
an engine whose calls go through. -/
theorem stopInstance_clears_witness :
    (demoInstance.id ∈ demoStarted.redis.smembers "u1" ∧
      kvGet demoStarted.redis.hashes demoInstance.id
        = some (instanceData "u1" "c1" "cont1" demoInstance.flag 32345 1700003600) ∧
      hget (instanceData "u1" "c1" "cont1" demoInstance.flag 32345 1700003600) "challenge_id"
        = "c1" ∧
      (∀ j ∈ demoStarted.redis.smembers "u1",
        hget (getInstance demoStarted.redis j) "challenge_id" = "c1" → j = demoInstance.id) ∧
      (stopInstance demoStarted "u1" "c1" demoEnv2).1 = .ok ()) ∧
    (kvGet (stopInstance demoStarted "u1" "c1" demoEnv2).2.redis.hashes demoInstance.id = none ∧
      demoInstance.id ∉ (stopInstance demoStarted "u1" "c1" demoEnv2).2.redis.smembers "u1" ∧
      kvGet (stopInstance demoStarted "u1" "c1" demoEnv2).2.redis.zset demoInstance.id = none ∧
      (∃ row host cl s1, demoStarted.db.firstInstance demoInstance.id = some row ∧
        getDockerHostByID demoStarted.db row.dockerHostID = .ok host ∧
        getOrCreateClient demoStarted host demoEnv2 = (.ok cl, s1) ∧
        (demoEnv2.containerStopFails = false → demoEnv2.containerRemoveFails = false →
          hasContainer (stopInstance demoStarted "u1" "c1" demoEnv2).2 cl.endpoint
            (hget (instanceData "u1" "c1" "cont1" demoInstance.flag 32345 1700003600)
              "container_id") = false)) ∧
      ∀ e2, stopInstance (stopInstance demoStarted "u1" "c1" demoEnv2).2 "u1" "c1" e2
        = (.error noInstanceMsg, (stopInstance demoStarted "u1" "c1" demoEnv2).2)) :=
  ⟨by decide,
    stopInstance_clears demoStarted "u1" "c1" demoEnv2 demoInstance.id
      (instanceData "u1" "c1" "cont1" demoInstance.flag 32345 1700003600)
      (by decide) (by decide) (by decide) (by decide) (by decide)⟩

/-- Counterexample to C9 as stated. When the engine's ContainerStop fails,
StopInstance still returns success and the container of the instance stays on
the engine. And in a state whose set holds two instances of the challenge,
the second StopInstance succeeds as well instead of failing with not-found. -/
theorem stopInstance_succeeds_with_container_left :
    (liveIds demoStarted.redis "u1" "c1" = [demoInstance.id] ∧
      hasContainer demoStarted demoHost.host demoInstance.containerID = true ∧
      (stopInstance demoStarted "u1" "c1" { demoEnv2 with containerStopFails := true }).1
        = .ok () ∧
      hasContainer
        (stopInstance demoStarted "u1" "c1" { demoEnv2 with containerStopFails := true }).2
        demoHost.host demoInstance.containerID = true) ∧
    (liveIds twinState.redis "u1" "c1"
        = [demoInstance.id, "08000000-0000-0000-0000-000000000000"] ∧
      (stopInstance twinState "u1" "c1" demoEnv2).1 = .ok () ∧
      (stopInstance (stopInstance twinState "u1" "c1" demoEnv2).2 "u1" "c1" demoEnv2).1
        = .ok ()) := by
  decide

/-- C10, amended. For every state `s` and every successful StartInstance(u, c)
from `s` that drew an id not in use: when the reaper runs at a time at or
after the expiry of the new instance and no instance that was already in the
expiry index of `s` is due at that time, it leaves the same state-index
contents, the same containers and the same client pool as StopInstance(u, c)
run instead with the same engine outcomes, and the same instance rows except
that the row of the instance has status `expired` rather than `stopped`. -/
theorem reaper_matches_stop (s : State) (u c : String) (e : Env) (inst : Instance) (s1 : State)
    (now' : Int) (envOf : String → Env)
    (hstart : startInstance s u c e = (.ok inst, s1))
    (hfresh : FreshId s (generateID e.idRand))
    (hpast : inst.expiresAt ≤ now')
    (hdue : ∀ p ∈ s.redis.zset, now' < p.2) :
    (reapExpiredInstances s1 now' envOf).redis = (stopInstance s1 u c (envOf inst.id)).2.redis ∧
    (reapExpiredInstances s1 now' envOf).containers
      = (stopInstance s1 u c (envOf inst.id)).2.containers ∧
    (reapExpiredInstances s1 now' envOf).clients
      = (stopInstance s1 u c (envOf inst.id)).2.clients ∧
    (reapExpiredInstances s1 now' envOf).db = s1.db.updateInstanceStatus inst.id "expired" ∧
    (stopInstance s1 u c (envOf inst.id)).2.db = s1.db.updateInstanceStatus inst.id "stopped" :=
  reap_eq_stop_aux s u c e inst s1 now' envOf hstart hfresh hpast hdue

/-- Witness of C10: the instance of user `u1` on the sample deployment,
reaped at its expiry time. -/
theorem reaper_matches_stop_witness :
    (startInstance demoState "u1" "c1" demoEnv = (.ok demoInstance, demoStarted) ∧
      FreshId demoState (generateID demoEnv.idRand) ∧
      demoInstance.expiresAt ≤ 1700003600 ∧
      (∀ p ∈ demoState.redis.zset, (1700003600 : Int) < p.2)) ∧
    ((reapExpiredInstances demoStarted 1700003600 (fun _ => demoEnv2)).redis
        = (stopInstance demoStarted "u1" "c1" demoEnv2).2.redis ∧
      (reapExpiredInstances demoStarted 1700003600 (fun _ => demoEnv2)).containers
        = (stopInstance demoStarted "u1" "c1" demoEnv2).2.containers ∧
      (reapExpiredInstances demoStarted 1700003600 (fun _ => demoEnv2)).clients
        = (stopInstance demoStarted "u1" "c1" demoEnv2).2.clients ∧
      (reapExpiredInstances demoStarted 1700003600 (fun _ => demoEnv2)).db
        = demoStarted.db.updateInstanceStatus demoInstance.id "expired" ∧
      (stopInstance demoStarted "u1" "c1" demoEnv2).2.db
        = demoStarted.db.updateInstanceStatus demoInstance.id "stopped") :=
  ⟨by decide,
    reaper_matches_stop demoState "u1" "c1" demoEnv demoInstance demoStarted 1700003600
      (fun _ => demoEnv2) demo_start demo_fresh (by decide) (by decide)⟩

/-- Counterexample to C10 as stated. User `u2` starts the challenge while
the instance of user `u1` is in the index; once both are due the reaper removes
both, whereas StopInstance(u2, c1) leaves the instance of `u1` in the index:
the two post-states differ in more than the status of the row. -/
theorem reaper_removes_every_due_instance :
    startInstance demoStarted "u2" "c1" demoEnv2 = (.ok demoInstance2, demoTwoUsers) ∧
    demoInstance2.expiresAt ≤ 1700010000 ∧
    (reapExpiredInstances demoTwoUsers 1700010000 (fun _ => demoEnv2)).redis
      = { hashes := [], sets := [], zset := [] } ∧
    liveIds (stopInstance demoTwoUsers "u2" "c1" demoEnv2).2.redis "u1" "c1"
      = [demoInstance.id] ∧
    (reapExpiredInstances demoTwoUsers 1700010000 (fun _ => demoEnv2)).redis
      ≠ (stopInstance demoTwoUsers "u2" "c1" demoEnv2).2.redis := by
  decide

/-- C11, amended. For every successful StartInstance(u, c) at time `now` on a
deployment whose configured lifetime is between 0 and 2,562,047 hours (so that
it fits a 64-bit count of nanoseconds), the returned instance has status
`running` and `expiresAt = now + ttl`, and the state index afterwards holds
the instance hash with user id, challenge id, container id, flag, port and expiry,
the instance id in the set of `u`, and the instance id in the expiry index
with score `expiresAt` in epoch seconds. -/
theorem startInstance_records_instance (s : State) (u c : String) (e : Env) (inst : Instance)
    (s' : State) (hstart : startInstance s u c e = (.ok inst, s'))
    (h0 : 0 ≤ s.ttlHours) (h1 : s.ttlHours ≤ 2562047) :
    inst.status = "running" ∧ inst.expiresAt = e.now + s.ttlHours * 3600 ∧
    (∃ h, kvGet s'.redis.hashes inst.id = some h ∧
      hget h "user_id" = u ∧ hget h "challenge_id" = c ∧
      hget h "container_id" = inst.containerID ∧ hget h "flag" = inst.flag ∧
      hget h "port" = toString inst.port ∧ hget h "expires_at" = toString inst.expiresAt) ∧
    inst.id ∈ s'.redis.smembers u ∧
    kvGet s'.redis.zset inst.id = some inst.expiresAt := by
  obtain ⟨hs, _, _, he, hh, hm, hz⟩ := startInstance_index s u c e inst s' hstart
  exact ⟨hs, by rw [he, ttlSeconds_of_fits s.ttlHours h0 h1], hh, hm, hz⟩

/-- Witness of C11: the start of user `u1` on the sample deployment, whose
lifetime is one hour. -/
theorem startInstance_records_instance_witness :
    (startInstance demoState "u1" "c1" demoEnv = (.ok demoInstance, demoStarted) ∧
      (0 : Int) ≤ demoState.ttlHours ∧ demoState.ttlHours ≤ 2562047) ∧
    (demoInstance.status = "running" ∧
      demoInstance.expiresAt = demoEnv.now + demoState.ttlHours * 3600 ∧
      (∃ h, kvGet demoStarted.redis.hashes demoInstance.id = some h ∧
        hget h "user_id" = "u1" ∧ hget h "challenge_id" = "c1" ∧
        hget h "container_id" = demoInstance.containerID ∧ hget h "flag" = demoInstance.flag ∧
        hget h "port" = toString demoInstance.port ∧
        hget h "expires_at" = toString demoInstance.expiresAt) ∧
      demoInstance.id ∈ demoStarted.redis.smembers "u1" ∧
      kvGet demoStarted.redis.zset demoInstance.id = some demoInstance.expiresAt) :=
  ⟨by decide,
    startInstance_records_instance demoState "u1" "c1" demoEnv demoInstance demoStarted
      demo_start (by decide) (by decide)⟩

/-- Counterexample to C11 as stated. With a configured lifetime of
10,007,999,171,935 hours the product with the nanoseconds of an hour wraps
around in 64 bits to 2,032 seconds: StartInstance succeeds and the instance
expires 2,032 seconds after `now`, not `now + ttl`. -/
theorem startInstance_lifetime_wraps :
    longTTLState.ttlHours = 10007999171935 ∧
    (startInstance longTTLState "u1" "c1" demoEnv).1
      = .ok { demoInstance with expiresAt := 1700002032 } ∧
    demoEnv.now + 2032 = 1700002032 ∧
    (1700002032 : Int) ≠ demoEnv.now + longTTLState.ttlHours * 3600 := by
  decide

/-- C12, amended. For every StartInstance call in which the container was
started but the write to the state index fails, the call runs StopContainer on
that container (which is gone from the engine afterwards when the engine's
stop and remove calls go through), returns the error of the write, and writes
no instance row: the state index and the store are the same as before the
call. -/
theorem startInstance_rolls_back (s : State) (u c : String) (e : Env) (ch : Challenge)
    (host : DockerHost) (cl : DockerClient) (s1 : State) (cid : String) (port : Int)
    (s2 : State) (m : String)
    (hch : getChallenge s.db c = .ok ch)
    (hdup : getInstanceByUserAndChallenge s.redis u c = none)
    (hhost : chosenHost s.db ch = .ok host) (hen : host.enabled = true)
    (hgc : getOrCreateClient s host e = (.ok cl, s1))
    (hsc : cl.startContainer s1 (resolveImageName s1.db ch)
      [sprintf "FLAG=%s" [.str (generateFlag u e.now e.flagRand)]] ch.port ch.privileged
      ch.memoryLimit ch.cpuLimit e = (.ok (cid, port), s2))
    (hfail : (storeInstance s2.redis (generateID e.idRand) u c cid
      (generateFlag u e.now e.flagRand) port (e.now + ttlSeconds s2.ttlHours) e.now).1
        = .error m) :
    startInstance s u c e
      = (.error ("failed to store instance in Redis: " ++ m), (cl.stopContainer s2 cid e).2) ∧
    (e.containerStopFails = false → e.containerRemoveFails = false →
      hasContainer (startInstance s u c e).2 cl.endpoint cid = false) ∧
    (startInstance s u c e).2.redis = s.redis ∧ (startInstance s u c e).2.db = s.db := by
  obtain ⟨heq, hr, hd, _⟩ :=
    startInstance_rollback s u c e ch host cl s1 cid port s2 m hch hdup hhost hen hgc hsc hfail
  refine ⟨heq, ?_, hr, hd⟩
  intro hs hrm
  rw [heq]
  exact stopContainer_removes cl s2 cid e hs hrm

/-- Witness of C12: a start on the deployment whose lifetime is zero hours,
with an engine whose calls go through. -/
theorem startInstance_rolls_back_witness :
    (getChallenge zeroTTLState.db "c1" = .ok demoChallenge ∧
      getInstanceByUserAndChallenge zeroTTLState.redis "u1" "c1" = none ∧
      chosenHost zeroTTLState.db demoChallenge = .ok demoHost ∧ demoHost.enabled = true ∧
      (getOrCreateClient zeroTTLState demoHost demoEnv).1 = .ok demoClient ∧
      (demoClient.startContainer (getOrCreateClient zeroTTLState demoHost demoEnv).2
        "nginx:alpine" ["FLAG=flag\x7bu1_1700000000_01020304\x7d"] 80 false 0 0 demoEnv).1
          = .ok ("cont1", 32345) ∧
      (storeInstance zeroTTLState.redis (generateID demoEnv.idRand) "u1" "c1" "cont1"
        (generateFlag "u1" demoEnv.now demoEnv.flagRand) 32345
        (demoEnv.now + ttlSeconds zeroTTLState.ttlHours) demoEnv.now).1
          = .error "expiry time is in the past") ∧
    (startInstance zeroTTLState "u1" "c1" demoEnv).1
      = .error "failed to store instance in Redis: expiry time is in the past" ∧
    hasContainer (startInstance zeroTTLState "u1" "c1" demoEnv).2 demoClient.endpoint "cont1"
      = false ∧
    (startInstance zeroTTLState "u1" "c1" demoEnv).2.redis = zeroTTLState.redis ∧
    (startInstance zeroTTLState "u1" "c1" demoEnv).2.db = zeroTTLState.db :=
  have h := startInstance_rolls_back zeroTTLState "u1" "c1" demoEnv demoChallenge demoHost
    demoClient (getOrCreateClient zeroTTLState demoHost demoEnv).2 "cont1" 32345
    (demoClient.startContainer (getOrCreateClient zeroTTLState demoHost demoEnv).2
      "nginx:alpine" ["FLAG=flag\x7bu1_1700000000_01020304\x7d"] 80 false 0 0 demoEnv).2
    "expiry time is in the past"
    (by decide) (by decide) (by decide) (by decide) (by decide) (by decide) (by decide)
  ⟨by decide, by rw [h.1]; rfl, h.2.1 (by decide) (by decide), h.2.2.1, h.2.2.2⟩

/-- Counterexample to C12 as stated: the write to the state index fails after
the container `cont1` was started, the engine's ContainerStop fails, and the
call returns its error with the container still running on the engine. -/
theorem startInstance_rollback_leaves_container :
    (startInstance zeroTTLState "u1" "c1" { demoEnv with containerStopFails := true }).1
      = .error "failed to store instance in Redis: expiry time is in the past" ∧
    hasContainer
      (startInstance zeroTTLState "u1" "c1" { demoEnv with containerStopFails := true }).2
      demoHost.host "cont1" = true ∧
    ((startInstance zeroTTLState "u1" "c1"
      { demoEnv with containerStopFails := true }).2.containers.map (fun p => p.2.running))
      = [true] := by
  decide

/-- C13, amended. For every challenge and every user who has no instance of it
in the state index: when the challenge names its own host and that host row
has `enabled = false`, StartInstance fails with the message
"Docker 主机已禁用: " followed by the host name; when the challenge names no
host and every default host is disabled, it fails with the message that no
default host was found. In both cases the state is unchanged: no container is
started, nothing is written to the state index or the instance table, and the
instances already running on the host are left as they are. -/
theorem startInstance_on_disabled_host (s : State) (u c : String) (e : Env) (ch : Challenge)
    (hch : s.db.firstChallenge c = some ch)
    (hnew : getInstanceByUserAndChallenge s.redis u c = none) :
    (∀ host, ch.dockerHostID ≠ "" → getDockerHostByID s.db ch.dockerHostID = .ok host →
      host.enabled = false →
      startInstance s u c e = (.error ("Docker 主机已禁用: " ++ host.name), s)) ∧
    (ch.dockerHostID = "" →
      (∀ h ∈ s.db.dockerHosts, h.isDefault = true → h.enabled = false) →
      startInstance s u c e
        = (.error "未找到默认 Docker 主机: 未找到启用的默认 Docker 主机", s)) :=
  ⟨fun host hid hhost hdis => startInstance_pinned_disabled s u c e ch host hch hnew hid hhost hdis,
    fun hid hdis => startInstance_default_disabled s u c e ch hch hnew hid hdis⟩

/-- Witness of C13: the sample challenge pinned to host `h1`, which is
disabled. -/
theorem startInstance_on_disabled_host_witness :
    (pinnedDisabledState.db.firstChallenge "c1" = some pinnedChallenge ∧
      getInstanceByUserAndChallenge pinnedDisabledState.redis "u2" "c1" = none ∧
      pinnedChallenge.dockerHostID ≠ "" ∧
      getDockerHostByID pinnedDisabledState.db pinnedChallenge.dockerHostID
        = .ok { demoHost with enabled := false }) ∧
    startInstance pinnedDisabledState "u2" "c1" demoEnv
      = (.error "Docker 主机已禁用: local", pinnedDisabledState) :=
  ⟨by decide,
    (startInstance_on_disabled_host pinnedDisabledState "u2" "c1" demoEnv pinnedChallenge
      (by decide) (by decide)).1 { demoHost with enabled := false } (by decide) (by decide) rfl⟩

/-- Counterexample to C13 as stated. The sample challenge names no host and
the default host `h1` is disabled: StartInstance fails with the message that no
default host was found, not with "Docker 主机已禁用". And for a user who already
has an instance of the challenge the answer is the already-started message. -/
theorem startInstance_disabled_default_host :
    (demoChallenge.dockerHostID = "" ∧
      disabledHostState.db.dockerHosts = [{ demoHost with enabled := false }] ∧
      startInstance disabledHostState "u2" "c1" demoEnv
        = (.error "未找到默认 Docker 主机: 未找到启用的默认 Docker 主机", disabledHostState)) ∧
    (getDockerHostByID disabledAfterStart.db pinnedChallenge.dockerHostID
        = .ok { demoHost with enabled := false } ∧
      startInstance disabledAfterStart "u1" "c1" demoEnv2
        = (.error alreadyStartedMsg, disabledAfterStart)) := by
  decide

/-- C14. For every instance id that has an instance row, and for every
outcome of the host lookup, of the client construction and of the container
stop, killInstance ends with no entry for the id in the state index (no hash,
not in the set of the row's user, not in the expiry index) and with the
status of the instance row set to `expired`; in a state reached by calls from
an empty state the id is then in the set of no user at all. -/
theorem killInstance_clears_index (s : State) (id : String) (e : Env) (row : Instance)
    (hrow : s.db.firstInstance id = some row) :
    kvGet (killInstance s id e).redis.hashes id = none ∧
    id ∉ (killInstance s id e).redis.smembers row.userID ∧
    (Reachable s → ∀ u, id ∉ (killInstance s id e).redis.smembers u) ∧
    kvGet (killInstance s id e).redis.zset id = none ∧
    (killInstance s id e).db.firstInstance id = some { row with status := "expired" } ∧
    (∀ r ∈ (killInstance s id e).db.instances, r.id = id → r.status = "expired") :=
  have h := killInstance_with_row s id e row hrow
  ⟨h.1, h.2.1, fun hr u => killInstance_no_set s (reachable_inv s hr) id e row hrow u,
    h.2.2.1, h.2.2.2.1, h.2.2.2.2⟩

/-- Witness of C14: the instance of user `u1` on the sample deployment, reaped
while the engine refuses to stop the container. -/
theorem killInstance_clears_index_witness :
    demoStarted.db.firstInstance demoInstance.id = some demoInstance ∧
    (kvGet (killInstance demoStarted demoInstance.id
        { demoEnv2 with containerStopFails := true }).redis.hashes demoInstance.id = none ∧
      demoInstance.id ∉ (killInstance demoStarted demoInstance.id
        { demoEnv2 with containerStopFails := true }).redis.smembers demoInstance.userID ∧
      (Reachable demoStarted → ∀ u, demoInstance.id ∉ (killInstance demoStarted demoInstance.id
        { demoEnv2 with containerStopFails := true }).redis.smembers u) ∧
      kvGet (killInstance demoStarted demoInstance.id
        { demoEnv2 with containerStopFails := true }).redis.zset demoInstance.id = none ∧
      (killInstance demoStarted demoInstance.id
        { demoEnv2 with containerStopFails := true }).db.firstInstance demoInstance.id
          = some { demoInstance with status := "expired" } ∧
      (∀ r ∈ (killInstance demoStarted demoInstance.id
        { demoEnv2 with containerStopFails := true }).db.instances,
          r.id = demoInstance.id → r.status = "expired")) :=
  ⟨by decide,
    killInstance_clears_index demoStarted demoInstance.id
      { demoEnv2 with containerStopFails := true } demoInstance (by decide)⟩

/-- C15. In every store reachable through CreateDockerHost and
UpdateDockerHost from a store whose host table (keyed by id) has at most one
default host, at most one host row has `isDefault = true`; and after a
successful create or update of a host with `isDefault = true` the one default
row is the row of that host. -/
theorem default_host_unique (db0 : DB) (hkey : hostKeysUnique db0)
    (hone : (defaultHosts db0).length ≤ 1) :
    (∀ db, HostSteps db0 db → (defaultHosts db).length ≤ 1) ∧
    (∀ db host, HostSteps db0 db → host.isDefault = true →
      ((createDockerHost db host).1 = .ok () →
        (defaultHosts (createDockerHost db host).2).map (·.id) = [host.id]) ∧
      ((updateDockerHost db host).1 = .ok () →
        (defaultHosts (updateDockerHost db host).2).map (·.id) = [host.id])) := by
  refine ⟨fun db hs => (hostSteps_inv db0 db hkey hone hs).2, ?_⟩
  intro db host hs hd
  have hinv := hostSteps_inv db0 db hkey hone hs
  refine ⟨fun hok => ?_, fun hok => updateDockerHost_only db host hinv.1 hd hok⟩
  rw [createDockerHost_only db host hd hok]
  rfl

/-- Witness of C15: a second default host is created on the sample
deployment, whose host `h1` was the default one. -/
theorem default_host_unique_witness :
    (hostKeysUnique demoState.db ∧ (defaultHosts demoState.db).length ≤ 1 ∧
      secondHost.isDefault = true ∧ (createDockerHost demoState.db secondHost).1 = .ok ()) ∧
    (defaultHosts (createDockerHost demoState.db secondHost).2).map (·.id) = ["h2"] ∧
    (defaultHosts (createDockerHost demoState.db secondHost).2).length ≤ 1 :=
  ⟨by decide,
    ((default_host_unique demoState.db (by decide) (by decide)).2 demoState.db secondHost
      Relation.ReflTransGen.refl (by decide)).1 (by decide),
    (default_host_unique demoState.db (by decide) (by decide)).1 _
      (Relation.ReflTransGen.single (HostStep.create demoState.db secondHost))⟩

/-- C16. For every host id referenced by at least one challenge row,
DeleteDockerHost returns an error and leaves the store unchanged; for a host
id referenced by no challenge it removes the host row with that id and no
other row. -/
theorem deleteDockerHost_guard (db : DB) (id : String) :
    ((∃ c ∈ db.challenges, c.dockerHostID = id) →
      (deleteDockerHost db id).1 = .error (sprintf "无法删除：有 %d 个题目关联此 Docker 主机"
        [.int ((db.challenges.filter (fun c => decide (c.dockerHostID = id))).length : Nat)]) ∧
      (deleteDockerHost db id).2 = db) ∧
    ((∀ c ∈ db.challenges, c.dockerHostID ≠ id) →
      deleteDockerHost db id
        = (.ok (), { db with dockerHosts := db.dockerHosts.filter (fun h => decide (h.id ≠ id)) }) ∧
      (∀ h, h ∈ (deleteDockerHost db id).2.dockerHosts ↔ h ∈ db.dockerHosts ∧ h.id ≠ id)) := by
  constructor
  · rintro ⟨c, hc, hid⟩
    have hpos : 0 < (db.challenges.filter (fun c => decide (c.dockerHostID = id))).length :=
      List.length_pos_of_mem (List.mem_filter.2 ⟨hc, by simpa using hid⟩)
    unfold deleteDockerHost
    simp only
    rw [if_pos (by exact_mod_cast hpos)]
    exact ⟨rfl, rfl⟩
  · intro hno
    have hz : (db.challenges.filter (fun c => decide (c.dockerHostID = id))) = [] := by
      rw [List.filter_eq_nil_iff]
      intro c hc
      simpa using hno c hc
    have heq : deleteDockerHost db id
        = (.ok (), { db with dockerHosts := db.dockerHosts.filter (fun h => decide (h.id ≠ id)) }) := by
      unfold deleteDockerHost
      simp only [hz, List.length_nil]
      rfl
    refine ⟨heq, ?_⟩
    intro h
    rw [heq]
    simp [List.mem_filter]

/-- C17. For every challenge id that has at least one instance row with
status `running`, DeleteChallenge answers 400 and leaves the store unchanged;
when no running instance row references the id it answers 200 and deletes the
challenge row with that id and no other row. -/
theorem deleteChallenge_guard (db : DB) (id : String) :
    ((∃ i ∈ db.instances, i.challengeID = id ∧ i.status = "running") →
      (deleteChallenge db id).1 = ⟨400, 400, "该题目有正在运行的实例，无法删除"⟩ ∧
      (deleteChallenge db id).2 = db) ∧
    ((∀ i ∈ db.instances, i.challengeID = id → i.status ≠ "running") →
      deleteChallenge db id
        = (⟨200, 200, "Challenge deleted successfully"⟩,
           { db with challenges := db.challenges.filter (fun c => decide (c.id ≠ id)) }) ∧
      (∀ c, c ∈ (deleteChallenge db id).2.challenges ↔ c ∈ db.challenges ∧ c.id ≠ id)) := by
  constructor
  · rintro ⟨i, hi, hc, hs⟩
    have hpos : 0 < (db.instances.filter (fun i =>
        decide (i.challengeID = id) && decide (i.status = "running"))).length :=
      List.length_pos_of_mem (List.mem_filter.2 ⟨hi, by simp [hc, hs]⟩)
    unfold deleteChallenge
    simp only
    rw [if_pos hpos]
    exact ⟨rfl, rfl⟩
  · intro hno
    have hz : (db.instances.filter (fun i =>
        decide (i.challengeID = id) && decide (i.status = "running"))) = [] := by
      rw [List.filter_eq_nil_iff]
      intro i hi
      simpa using hno i hi
    have heq : deleteChallenge db id
        = (⟨200, 200, "Challenge deleted successfully"⟩,
           { db with challenges := db.challenges.filter (fun c => decide (c.id ≠ id)) }) := by
      unfold deleteChallenge
      simp only [hz, List.length_nil]
      rfl
    refine ⟨heq, ?_⟩
    intro c
    rw [heq]
    simp [List.mem_filter]

/-- C18, amended. Every challenge row written by CreateChallenge or
UpdateChallenge satisfies points from 1 to 10000, container port from 1 to
65535 and a non-empty image name or image id. A request with points or port
out of range is answered with 400 by both handlers and writes nothing, and so
is a request to CreateChallenge that has neither image name nor image id.
UpdateChallenge given neither image name nor image id writes nothing when the
challenge does not exist (answering 400 or 404) or when its row has no image
name (answering 400); otherwise it keeps the image name of the row. -/
theorem challenge_rows_valid (db : DB) :
    (∀ body newID,
      (∀ row ∈ (createChallenge db body newID).2.challenges,
        row ∈ db.challenges ∨ challengeRowValid row) ∧
      (∀ req, body = .ok req → requestViolates req →
        (createChallenge db body newID).1.status = 400 ∧
          (createChallenge db body newID).2 = db)) ∧
    (∀ id body,
      (∀ row ∈ (updateChallenge db id body).2.challenges,
        row ∈ db.challenges ∨ challengeRowValid row) ∧
      (∀ req, body = .ok req →
        (req.points < 1 ∨ 10000 < req.points ∨ req.port < 1 ∨ 65535 < req.port) →
        (updateChallenge db id body).1.status = 400 ∧ (updateChallenge db id body).2 = db) ∧
      (∀ req, body = .ok req → req.image = "" → req.imageID = "" →
        (db.firstChallenge id = none →
          ((updateChallenge db id body).1.status = 400 ∨
            (updateChallenge db id body).1.status = 404) ∧
          (updateChallenge db id body).2 = db) ∧
        (∀ existing, db.firstChallenge id = some existing → existing.image = "" →
          (updateChallenge db id body).1.status = 400 ∧
            (updateChallenge db id body).2 = db) ∧
        (∀ existing, db.firstChallenge id = some existing → existing.image ≠ "" →
          (updateChallenge db id body).2 = db ∨
          (updateChallenge db id body).2 = db.updateChallenge existing req existing.image))) := by
  constructor
  · intro body newID
    constructor
    · intro row hrow
      rcases createChallenge_cases db body newID with ⟨_, h⟩ | ⟨req, r, _, _, hv, _, _, _, _, _, h⟩
      · rw [h] at hrow; exact Or.inl hrow
      · rw [h] at hrow
        simp only [List.mem_append, List.mem_singleton] at hrow
        rcases hrow with hrow | rfl
        · exact Or.inl hrow
        · exact Or.inr hv
    · intro req hbody hv
      exact createChallenge_violates db body newID req hbody hv
  · intro id body
    refine ⟨?_, ?_, ?_⟩
    · intro row hrow
      rcases updateChallenge_cases db id body with
        ⟨_, h⟩ | ⟨req, existing, image, _, _, him, h1, h2, h3, h4, h⟩
      · rw [h] at hrow; exact Or.inl hrow
      · rw [h] at hrow
        exact updateChallenge_rows db existing req image
          (updatedImageName_ne_empty db existing req image him) h1 h2 h3 h4 row hrow
    · intro req hbody hv
      exact updateChallenge_range db id body req hbody hv
    · intro req hbody hi hj
      have h := updateChallenge_no_image db id body req hbody hi hj
      refine ⟨h.1, h.2.1, ?_⟩
      intro existing hex him
      rcases updateChallenge_cases db id body with
        ⟨_, hu⟩ | ⟨req', existing', image, hb', hex', him', _, _, _, _, hu⟩
      · exact Or.inl hu
      · right
        rw [hbody] at hb'
        simp only [Except.ok.injEq] at hb'
        subst hb'
        rw [hex] at hex'
        simp only [Option.some.injEq] at hex'
        subst hex'
        rw [updatedImageName_no_image db existing req hi hj, if_pos him] at him'
        simp only [Option.some.injEq] at him'
        rw [hu, him']

/-- Counterexample to C18 as stated. The request names neither an image nor
an image id, so it violates the invariant; UpdateChallenge on the sample
challenge, whose row has an image name, answers 200 and writes the row, keeping
that image name. And for an id without a row the answer is 404, not 400. -/
theorem updateChallenge_accepts_missing_image :
    requestViolates noImageRequest ∧
    (updateChallenge demoState.db "c1" (.ok noImageRequest)).1
      = ⟨200, 200, "Challenge updated successfully"⟩ ∧
    (updateChallenge demoState.db "c1" (.ok noImageRequest)).2.challenges
      = [{ demoChallenge with title := "renamed" }] ∧
    (updateChallenge demoState.db "c1" (.ok noImageRequest)).2 ≠ demoState.db ∧
    (updateChallenge demoState.db "c9" (.ok noImageRequest)).1 = ⟨404, 404, "题目不存在"⟩ := by
  decide

/-- C19. For every pool state and host: GetOrCreateClient returns the client
cached under the id of the host when there is one and leaves the state
unchanged; RemoveClient deletes the entry of the id and no other entry; and
the next GetOrCreateClient for the host builds a client (when the engine
library returns one) that carries the port range, memory limit and CPU limit
of the host row it is given, and caches it under the id of the host. -/
theorem pool_returns_cached_client (s : State) (host : DockerHost) (e : Env) :
    (∀ cl, kvGet s.clients host.id = some cl → getOrCreateClient s host e = (.ok cl, s)) ∧
    (∀ id, kvGet (removeClient s id).clients id = none ∧
      (∀ k, k ≠ id → kvGet (removeClient s id).clients k = kvGet s.clients k) ∧
      (removeClient s id).db = s.db ∧ (removeClient s id).redis = s.redis ∧
      (removeClient s id).containers = s.containers) ∧
    (e.newClientFails = true →
      (∃ m, (getOrCreateClient (removeClient s host.id) host e).1 = .error m) ∧
      (getOrCreateClient (removeClient s host.id) host e).2 = removeClient s host.id) ∧
    (e.newClientFails = false →
      ∃ cl, (getOrCreateClient (removeClient s host.id) host e).1 = .ok cl ∧
        cl.hostID = host.id ∧
        cl.portRangeMin = host.portRangeMin ∧ cl.portRangeMax = host.portRangeMax ∧
        cl.memoryLimit = host.memoryLimit ∧ cl.cpuLimit = host.cpuLimit ∧
        kvGet (getOrCreateClient (removeClient s host.id) host e).2.clients host.id = some cl ∧
        (∀ k, k ≠ host.id →
          kvGet (getOrCreateClient (removeClient s host.id) host e).2.clients k
            = kvGet s.clients k)) := by
  have hrm : ∀ id k, kvGet (removeClient s id).clients k
      = if k = id then none else kvGet s.clients k := by
    intro id k
    simp only [removeClient, kvGet_kvDel]
  refine ⟨?_, ?_, ?_, ?_⟩
  · intro cl hcl
    unfold getOrCreateClient
    rw [hcl]
  · intro id
    refine ⟨by rw [hrm, if_pos rfl], fun k hk => by rw [hrm, if_neg hk], rfl, rfl, rfl⟩
  · intro hf
    unfold getOrCreateClient
    rw [hrm, if_pos rfl]
    simp only [hf, if_true]
    exact ⟨⟨_, rfl⟩, trivial⟩
  · intro hf
    unfold getOrCreateClient
    rw [hrm, if_pos rfl]
    simp only [hf, Bool.false_eq_true, if_false]
    refine ⟨_, rfl, rfl, rfl, rfl, rfl, rfl, ?_, ?_⟩
    · rw [kvGet_kvSet, if_pos rfl]
    · intro k hk
      rw [kvGet_kvSet, if_neg hk, hrm, if_neg hk]

/-- C20, amended. For every log queue of capacity 1,000 that has not been shut
down: when it holds 1,000 entries, Store(entry) returns without blocking,
leaves the store and its queue unchanged (the entry is dropped) and logs one
warning, the store keeping no drop counter; when it holds fewer than 1,000
entries, Store appends that entry, given an id when it came without one, at the
tail. -/
theorem store_on_bounded_queue (s : MySQLLogStore) (log : APILog) (newID : String)
    (hcap : s.logChan.cap = 1000) (hopen : s.logChan.closed = false) :
    (s.logChan.buf.length = 1000 →
      s.store log newID = (.ok ["LogStore: channel full, dropping log"], s)) ∧
    (s.logChan.buf.length < 1000 →
      s.store log newID
        = (.ok [], { s with logChan := { s.logChan with
            buf := s.logChan.buf ++ [if log.id = "" then { log with id := newID } else log] } })) :=
  ⟨fun h => store_full s log newID hopen (by omega),
    fun h => store_room s log newID hopen (by omega)⟩

/-- Witness of C20: an entry stored in the empty queue of a new log store. -/
theorem store_on_bounded_queue_witness :
    (newMySQLLogStore.logChan.cap = 1000 ∧ newMySQLLogStore.logChan.closed = false ∧
      newMySQLLogStore.logChan.buf.length < 1000) ∧
    newMySQLLogStore.store demoLog "l1"
      = (.ok [], { newMySQLLogStore with logChan := { newMySQLLogStore.logChan with
          buf := newMySQLLogStore.logChan.buf ++
            [if demoLog.id = "" then { demoLog with id := "l1" } else demoLog] } }) :=
  ⟨by decide,
    (store_on_bounded_queue newMySQLLogStore demoLog "l1" (by decide) (by decide)).2 (by decide)⟩

/-- Counterexample to C20 as stated. On a queue that holds 1,000 entries the
call leaves the whole log store as it was, so nothing that can be read off the
store as a counter goes up by one. And on a queue that Shutdown has closed the
call panics instead of appending. -/
theorem store_keeps_no_drop_counter :
    (fullLogStore.logChan.buf.length = 1000 ∧
      fullLogStore.store demoLog "l1"
        = (.ok ["LogStore: channel full, dropping log"], fullLogStore) ∧
      ¬ ∃ counter : MySQLLogStore → Nat,
        counter (fullLogStore.store demoLog "l1").2 = counter fullLogStore + 1) ∧
    (closedLogStore.logChan.buf.length < 1000 ∧
      closedLogStore.store demoLog "l1" = (.panic "send on closed channel", closedLogStore)) := by
  have hlen : fullLogStore.logChan.buf.length = 1000 :=
    List.length_replicate 1000 _
  have hfull := store_full fullLogStore demoLog "l1" rfl (by rw [hlen]; decide)
  refine ⟨⟨hlen, hfull, ?_⟩, by decide, store_closed closedLogStore demoLog "l1" rfl⟩
  rintro ⟨counter, hc⟩
  rw [hfull] at hc
  simp at hc

/-- C21. From a new log store over any table, after any sequence of `Store`
calls, receives and ticks and then `Shutdown`: when no batch insert fails, the
table is the old table followed by the accepted entries, each once and in the
order in which they were queued; `Shutdown` returns, and afterwards the batch
and the queue are empty. After every step the batch holds fewer than 100
entries, whether inserts fail or not. -/
theorem batchWriter_inserts_in_order (table0 : List APILog) (evs : List LogEvent)
    (hrun : ((newLogSystem table0).run evs).2 = true)
    (hlast : ((newLogSystem table0).run evs).1.shutdown.2.2 = true) :
    ((newLogSystem table0).run evs).1.shutdown.1 = .ok () ∧
      ((newLogSystem table0).run evs).1.shutdown.2.1.table
        = table0 ++ (newLogSystem table0).accepted evs ∧
      ((newLogSystem table0).run evs).1.shutdown.2.1.batch = [] ∧
      ((newLogSystem table0).run evs).1.shutdown.2.1.store.logChan.buf = [] ∧
      ∀ k, ((newLogSystem table0).run (evs.take k)).1.batch.length < 100 := by
  have hr := run_running evs _ (newLogSystem_running table0)
  obtain ⟨h1, h2, h3, _, _, _, h7⟩ := shutdown_running _ hr
  refine ⟨h1, ?_, h2, h3, ?_⟩
  · rw [h7 hlast, run_content evs _ (newLogSystem_running table0) hrun]
    simp [LogSystem.content, newLogSystem, newMySQLLogStore]
  · intro k
    exact (run_running (evs.take k) _ (newLogSystem_running table0)).2.2.2.2

/-- C21 at two logged requests, one flushed by a tick and one by `Shutdown`. -/
theorem batchWriter_inserts_in_order_witness :
    ((newLogSystem []).run demoLogEvents).2 = true ∧
      ((newLogSystem []).run demoLogEvents).1.shutdown.2.2 = true ∧
      (((newLogSystem []).run demoLogEvents).1.shutdown.1 = .ok () ∧
        ((newLogSystem []).run demoLogEvents).1.shutdown.2.1.table
          = [] ++ (newLogSystem []).accepted demoLogEvents ∧
        ((newLogSystem []).run demoLogEvents).1.shutdown.2.1.batch = [] ∧
        ((newLogSystem []).run demoLogEvents).1.shutdown.2.1.store.logChan.buf = [] ∧
        ∀ k, ((newLogSystem []).run (demoLogEvents.take k)).1.batch.length < 100) :=
  ⟨by decide, by decide, batchWriter_inserts_in_order [] demoLogEvents (by decide) (by decide)⟩

/-- C22, counterexample: a body of 4,097 bytes is recorded with 4,110 bytes,
more than 4,096, as request body and as response body. -/
theorem recorded_body_longer_than_4096 :
    (recordedRequestBody (some (List.replicate 4097 97))).length = 4110 ∧
      (recordedResponseBody (List.replicate 4097 97)).length = 4110 := by
  have h : 4096 < (List.replicate 4097 97).length := by
    rw [List.length_replicate]; omega
  exact ⟨truncateBody_long_length _ h, truncateBody_long_length _ h⟩

/-- C22, amended. The body recorded for a request or a response is at most
4,096 + 14 bytes long: a body of at most 4,096 bytes is recorded unchanged, and
a longer one as its first 4,096 bytes followed by the 14 bytes of the marker
`...(truncated)`. A request without a body is recorded as the empty string. -/
theorem recorded_body_truncated (b : List Nat) :
    recordedRequestBody (some b) = truncateBody b ∧ recordedRequestBody none = [] ∧
      recordedResponseBody b = truncateBody b ∧
      truncationMarker = "...(truncated)".toList.map Char.toNat ∧
      (truncateBody b).length ≤ 4096 + 14 ∧
      (b.length ≤ 4096 → truncateBody b = b) ∧
      (4096 < b.length →
        truncateBody b = b.take 4096 ++ truncationMarker ∧ (truncateBody b).length = 4096 + 14) := by
  refine ⟨rfl, rfl, rfl, rfl, ?_, truncateBody_short b, fun h =>
    ⟨truncateBody_long b h, truncateBody_long_length b h⟩⟩
  by_cases h : b.length ≤ 4096
  · rw [truncateBody_short b h]; omega
  · rw [truncateBody_long_length b (by omega)]

/-- C23, counterexample: the registry lists `nginx` with an empty tag. The
`Create` stores the row under the column default `latest`, so the lookup of
`("nginx", "")` never finds it: a second sync against the same listing inserts
one more row and returns 1, not 0. -/
theorem syncFromRegistry_empty_tag_twice :
    (syncFromRegistry demoImageDB emptyTagRegistry demoIds).1 = .ok 1 ∧
      (syncFromRegistry (syncFromRegistry demoImageDB emptyTagRegistry demoIds).2
          emptyTagRegistry (fun k => demoIds (k + 1))).1 = .ok 1 ∧
      (syncFromRegistry (syncFromRegistry demoImageDB emptyTagRegistry demoIds).2
          emptyTagRegistry (fun k => demoIds (k + 1))).2.dockerImages.map pairOf
        = [("nginx", "latest"), ("nginx", "latest"), ("nginx", "latest")] := by
  decide

/-- C23, amended. For every catalog and tag listing without an empty tag and
every image table, with generated ids that are distinct and new to the table:
`SyncFromRegistry` returns the number of rows it inserted, which is the number
of distinct listed `(repo, tag)` pairs without a matching row beforehand, and
the inserted rows carry exactly those pairs; the table is the old table
followed by the new rows; a repository whose tag list fails is skipped; and a
second sync against the same listing, with any ids, inserts nothing and
returns 0. -/
theorem syncFromRegistry_counts (db : DB) (registry : Registry) (repos : List String)
    (ids ids2 : Nat → String) (hcat : registry.catalog = .ok repos)
    (htags : ∀ p ∈ listedPairs registry, p.2 ≠ "")
    (hfresh : ∀ k, ids k ∉ db.dockerImages.map (·.id)) (hinj : Function.Injective ids) :
    ∃ rows : List DockerImage,
      syncFromRegistry db registry ids
        = (.ok rows.length, { db with dockerImages := db.dockerImages ++ rows }) ∧
      rows.length = (missingPairs db registry).length ∧
      (rows.map pairOf).Perm (missingPairs db registry) ∧
      (∀ r ∈ rows, r.registry = "localhost:5000" ∧ r.isAvailable = true) ∧
      (∀ (st : SyncState) (repo : String), registry.tags repo = none →
        syncRepo ids registry.tags st repo = st) ∧
      syncFromRegistry { db with dockerImages := db.dockerImages ++ rows } registry ids2
        = (.ok 0, { db with dockerImages := db.dockerImages ++ rows }) := by
  obtain ⟨rows, h1, h2, h3, _, h5⟩ := syncPairs_spec ids hinj (listedPairs registry)
    { db := db, syncedCount := 0, drawn := 0 } htags (fun k _ => hfresh k)
  have hperm : (rows.map pairOf).Perm (missingPairs db registry) := by
    rw [h2]; exact newPairs_perm_missing db registry
  refine ⟨rows, ?_, ?_, hperm, h5, ?_, ?_⟩
  · rw [syncFromRegistry_pairs db registry repos ids hcat, h1, h3]
    simp
  · rw [← List.length_map rows pairOf]; exact hperm.length_eq
  · intro st repo hnone
    unfold syncRepo
    rw [hnone]
  · rw [syncFromRegistry_pairs _ registry repos ids2 hcat, syncPairs_present]
    intro p hp
    show p ∈ List.map pairOf (db.dockerImages ++ rows)
    rw [List.map_append, List.mem_append, h2]
    by_cases hseen : p ∈ db.dockerImages.map pairOf
    · exact Or.inl hseen
    · exact Or.inr ((newPairs_mem _ _ _).2 ⟨hp, hseen⟩)

/-- C23 on a registry with a failing repository and a tag listed twice. -/
theorem syncFromRegistry_counts_witness :
    (∀ p ∈ listedPairs demoRegistry, p.2 ≠ "") ∧
      missingPairs demoImageDB demoRegistry = [("nginx", "1.25"), ("redis", "7")] ∧
      (syncFromRegistry demoImageDB demoRegistry demoIds).1 = .ok 2 ∧
      ∃ rows : List DockerImage,
        syncFromRegistry demoImageDB demoRegistry demoIds
          = (.ok rows.length,
             { demoImageDB with dockerImages := demoImageDB.dockerImages ++ rows }) ∧
        rows.length = (missingPairs demoImageDB demoRegistry).length ∧
        (rows.map pairOf).Perm (missingPairs demoImageDB demoRegistry) ∧
        (∀ r ∈ rows, r.registry = "localhost:5000" ∧ r.isAvailable = true) ∧
        (∀ (st : SyncState) (repo : String), demoRegistry.tags repo = none →
          syncRepo demoIds demoRegistry.tags st repo = st) ∧
        syncFromRegistry { demoImageDB with dockerImages := demoImageDB.dockerImages ++ rows }
            demoRegistry demoIds
          = (.ok 0, { demoImageDB with dockerImages := demoImageDB.dockerImages ++ rows }) :=
  ⟨by decide, by decide, by decide,
    syncFromRegistry_counts demoImageDB demoRegistry ["nginx", "broken", "redis"] demoIds
      demoIds rfl (by decide) demoIds_fresh demoIds_injective⟩

/-- C24, at the failing input: for the load output
`Loaded image: registry.example.com:5000/nginx:latest` the call cuts the
reference at the colon of the port, takes `registry.example.com` as name and
`5000/nginx:latest` as tag, and produces the registry tag
`localhost:5000/registry.example.com:5000/nginx:latest`, not
`localhost:5000/nginx:latest`. A prefix without a port is stripped, and an
output without a `Loaded image:` line fails after `docker load` alone. -/
theorem importFromTar_keeps_registry_port :
    (importFromTar demoImageDB "/tmp/upload.tar"
        { loadOutput := "Loaded image: registry.example.com:5000/nginx:latest\n"
          loadFails := false, tagFails := false, pushFails := false, newID := "img-9" }).1
      = .ok { imageName := "registry.example.com:5000/nginx:latest"
              registryTag := "localhost:5000/registry.example.com:5000/nginx:latest"
              pushed := true } ∧
    imageNameAndTag "registry.example.com:5000/nginx:latest"
      = ("registry.example.com", "5000/nginx:latest") ∧
    (importFromTar demoImageDB "/tmp/upload.tar"
        { loadOutput := "Loaded image: docker.io/library/nginx:latest\n"
          loadFails := false, tagFails := false, pushFails := false, newID := "img-9" }).1
      = .ok { imageName := "docker.io/library/nginx:latest"
              registryTag := "localhost:5000/nginx:latest", pushed := true } ∧
    (importFromTar demoImageDB "/tmp/upload.tar"
        { loadOutput := "Loaded image ID: sha256:0123abcd\n"
          loadFails := false, tagFails := false, pushFails := false, newID := "img-9" })
      = (.error "无法解析镜像名，docker load 输出: Loaded image ID: sha256:0123abcd\n",
         demoImageDB, [["docker", "load", "-i", "/tmp/upload.tar"]]) := by
  decide

/-- C25. For every admin id and username, where the library encodes and
decodes the segments of the token faithfully and verifies what it signed, and
the clock of the parse reads a second from the not-before reading on and
before the expiry: `GenerateAdminToken` returns a non-empty token, and
`ParseAdminToken` of it yields the same admin id and username with the expiry
24 hours after the reading taken for it. The empty string, a string without
exactly three segments, a token whose header or claims do not decode, and a
token whose signature does not verify under the key are rejected with an
error. -/
theorem parseAdminToken_round_trip (lib : JWTLib) (key : List Nat) (adminID username : String)
    (tExp tIat tNbf now : Int)
    (hlib : lib.RoundTrips
      { adminID := adminID, username := username, expiresAt := some (tExp + 24 * 3600)
        issuedAt := some tIat, notBefore := some tNbf } key)
    (hnbf : tNbf ≤ now) (hexp : now < tExp + 24 * 3600) :
    (∃ token, generateAdminToken lib key adminID username tExp tIat tNbf = .ok token ∧
      token ≠ "" ∧
      parseAdminToken lib key token now
        = .ok { adminID := adminID, username := username, expiresAt := some (tExp + 24 * 3600)
                issuedAt := some tIat, notBefore := some tNbf }) ∧
    (∃ m, parseAdminToken lib key "" now = .error m) ∧
    (∀ tok : String, (stringsSplit tok.toList '.').length ≠ 3 →
      ∃ m, parseAdminToken lib key tok now = .error m) ∧
    (∀ (tok : String) (header claimsSeg signature : List Char),
      stringsSplit tok.toList '.' = [header, claimsSeg, signature] →
      (lib.decodeHeader (String.mk header) = none ∨
        lib.decodeClaims (String.mk claimsSeg) = none) →
      ∃ m, parseAdminToken lib key tok now = .error m) ∧
    (∀ (tok : String) (header claimsSeg signature : List Char),
      stringsSplit tok.toList '.' = [header, claimsSeg, signature] →
      (∀ alg, lib.verify alg (String.mk header ++ "." ++ String.mk claimsSeg)
        (String.mk signature) key = false) →
      ∃ m, parseAdminToken lib key tok now = .error m) := by
  refine ⟨generateAdminToken_parse lib key adminID username tExp tIat tNbf now hlib hnbf hexp,
    ⟨_, rfl⟩, ?_, ?_, ?_⟩
  · intro tok hlen
    apply parseAdminToken_error_of_not_ok
    intro claims hok
    obtain ⟨h, c, s, alg, hs, _⟩ := parseAdminToken_ok lib key tok now claims hok
    rw [hs] at hlen
    exact hlen rfl
  · intro tok header claimsSeg signature hsplit hdec
    apply parseAdminToken_error_of_not_ok
    intro claims hok
    obtain ⟨h, c, s, alg, hs, hh, _, hc, _⟩ := parseAdminToken_ok lib key tok now claims hok
    rw [hsplit] at hs
    simp only [List.cons.injEq, and_true] at hs
    obtain ⟨rfl, rfl, rfl⟩ := hs
    rcases hdec with hd | hd
    · rw [hd] at hh; simp at hh
    · rw [hd] at hc; simp at hc
  · intro tok header claimsSeg signature hsplit hver
    apply parseAdminToken_error_of_not_ok
    intro claims hok
    obtain ⟨h, c, s, alg, hs, _, _, _, hv, _⟩ := parseAdminToken_ok lib key tok now claims hok
    rw [hsplit] at hs
    simp only [List.cons.injEq, and_true] at hs
    obtain ⟨rfl, rfl, rfl⟩ := hs
    rw [hver alg] at hv
    simp at hv

/-- C25 on the token of `TestGenerateAndParseAdminToken`, with a readable
stand-in for the encodings of the library. -/
theorem parseAdminToken_round_trip_witness :
    demoJWT.RoundTrips demoClaims [1, 2, 3] ∧
      parseAdminToken demoJWT [1, 2, 3]
          "HS256.admin-123|testadmin|1700086400|1700000000|1700000000.4027" 1700000005
        = .ok demoClaims ∧
      ∃ token, generateAdminToken demoJWT [1, 2, 3] "admin-123" "testadmin" 1700000000
          1700000000 1700000000 = .ok token ∧
        token ≠ "" ∧
        parseAdminToken demoJWT [1, 2, 3] token 1700000005 = .ok demoClaims :=
  ⟨by decide, by decide,
    (parseAdminToken_round_trip demoJWT [1, 2, 3] "admin-123" "testadmin" 1700000000
      1700000000 1700000000 1700000005 (by decide) (by decide) (by decide)).1⟩

/-- C26. For every admin table with unique usernames, every username and
password: `Login` succeeds if and only if a row with that username exists, is
active, and the password matches its stored hash. A successful login returns a
non-empty token and that row with `LastLoginAt` set to the clock reading. An
unknown username and a wrong password fail with the same message, a
deactivated admin fails with the disabled-account message, and a failed login
leaves the table unchanged. -/
theorem login_succeeds_iff (lib : JWTLib) (key : List Nat) (cmp : String → String → Bool)
    (admins : List Admin) (u pw : String) (now tExp tIat tNbf : Int)
    (huniq : usernamesUnique admins) :
    ((∃ token admin, (login lib key cmp admins u pw now tExp tIat tNbf).1 = .ok (token, admin)) ↔
      ∃ row ∈ admins, row.username = u ∧ row.isActive = true ∧
        cmp row.passwordHash pw = true) ∧
    (∀ token admin, (login lib key cmp admins u pw now tExp tIat tNbf).1 = .ok (token, admin) →
      token ≠ "" ∧ admin.lastLoginAt = some now ∧
        ∃ row ∈ admins, row.username = u ∧ admin = { row with lastLoginAt := some now }) ∧
    ((∀ a ∈ admins, a.username ≠ u) →
      login lib key cmp admins u pw now tExp tIat tNbf = (.error "用户名或密码错误", admins)) ∧
    (∀ row ∈ admins, row.username = u → row.isActive = true → cmp row.passwordHash pw = false →
      login lib key cmp admins u pw now tExp tIat tNbf = (.error "用户名或密码错误", admins)) ∧
    (∀ row ∈ admins, row.username = u → row.isActive = false →
      login lib key cmp admins u pw now tExp tIat tNbf = (.error "账号已被禁用", admins)) ∧
    ((∀ token admin, (login lib key cmp admins u pw now tExp tIat tNbf).1 ≠ .ok (token, admin)) →
      (login lib key cmp admins u pw now tExp tIat tNbf).2 = admins) := by
  rcases login_cases lib key cmp admins u pw now tExp tIat tNbf with
    ⟨hno, hl⟩ | ⟨row, hmem, hu, hact, hl⟩ | ⟨row, hmem, hu, hact, hc, hl⟩ |
    ⟨row, hmem, hu, hact, hc, token, htok, _, hl⟩
  · rw [hl]
    refine ⟨⟨?_, ?_⟩, ?_, ?_, ?_, ?_, ?_⟩
    · rintro ⟨_, _, h⟩; simp at h
    · rintro ⟨row, hmem, hu, _⟩; exact absurd hu (hno row hmem)
    · intro _ _ h; simp at h
    · intro _; rfl
    · intro _ _ _ _ _; rfl
    · intro row hmem hu; exact absurd hu (hno row hmem)
    · intro _; rfl
  · rw [hl]
    refine ⟨⟨?_, ?_⟩, ?_, ?_, ?_, ?_, ?_⟩
    · rintro ⟨_, _, h⟩; simp at h
    · rintro ⟨row2, hmem2, hu2, hact2, _⟩
      have := username_inj admins huniq row2 row hmem2 hmem (hu2.trans hu.symm)
      subst this
      rw [hact] at hact2; simp at hact2
    · intro _ _ h; simp at h
    · intro hno; exact absurd hu (hno row hmem)
    · intro row2 hmem2 hu2 hact2 _
      have := username_inj admins huniq row2 row hmem2 hmem (hu2.trans hu.symm)
      subst this
      rw [hact] at hact2; simp at hact2
    · intro _ _ _ _; rfl
    · intro _; rfl
  · rw [hl]
    refine ⟨⟨?_, ?_⟩, ?_, ?_, ?_, ?_, ?_⟩
    · rintro ⟨_, _, h⟩; simp at h
    · rintro ⟨row2, hmem2, hu2, _, hc2⟩
      have := username_inj admins huniq row2 row hmem2 hmem (hu2.trans hu.symm)
      subst this
      rw [hc] at hc2; simp at hc2
    · intro _ _ h; simp at h
    · intro hno; exact absurd hu (hno row hmem)
    · intro _ _ _ _ _; rfl
    · intro row2 hmem2 hu2 hact2
      have := username_inj admins huniq row2 row hmem2 hmem (hu2.trans hu.symm)
      subst this
      rw [hact] at hact2; simp at hact2
    · intro _; rfl
  · rw [hl]
    refine ⟨⟨?_, ?_⟩, ?_, ?_, ?_, ?_, ?_⟩
    · intro _; exact ⟨row, hmem, hu, hact, hc⟩
    · intro _; exact ⟨_, _, rfl⟩
    · intro token2 admin2 h
      simp only [Result.ok.injEq, Prod.mk.injEq] at h
      obtain ⟨rfl, rfl⟩ := h
      exact ⟨htok, rfl, row, hmem, hu, rfl⟩
    · intro hno; exact absurd hu (hno row hmem)
    · intro row2 hmem2 hu2 _ hc2
      have := username_inj admins huniq row2 row hmem2 hmem (hu2.trans hu.symm)
      subst this
      rw [hc] at hc2; simp at hc2
    · intro row2 hmem2 hu2 hact2
      have := username_inj admins huniq row2 row hmem2 hmem (hu2.trans hu.symm)
      subst this
      rw [hact] at hact2; simp at hact2
    · intro hne; exact absurd rfl (hne _ _)

/-- C26 on the table of `TestAdminService_Login_Success`. -/
theorem login_succeeds_iff_witness :
    usernamesUnique [demoAdmin] ∧
      (login demoJWT [1, 2, 3] demoCompare [demoAdmin] "testadmin" "Test@1234" 1700000000
          1700000000 1700000000 1700000000).1
        = .ok ("HS256.admin-123|testadmin|1700086400|1700000000|1700000000.4027",
            { demoAdmin with lastLoginAt := some 1700000000 }) ∧
      ((∃ token admin, (login demoJWT [1, 2, 3] demoCompare [demoAdmin] "testadmin" "Test@1234"
          1700000000 1700000000 1700000000 1700000000).1 = .ok (token, admin)) ↔
        ∃ row ∈ [demoAdmin], row.username = "testadmin" ∧ row.isActive = true ∧
          demoCompare row.passwordHash "Test@1234" = true) :=
  ⟨by decide, by decide,
    (login_succeeds_iff demoJWT [1, 2, 3] demoCompare [demoAdmin] "testadmin" "Test@1234"
      1700000000 1700000000 1700000000 1700000000 (by decide)).1⟩

/-- C27. For every id without an instance row, `killInstance` removes the id
from the expiry index and changes nothing else: every other entry of the
index, the instance hashes, the instance sets of the users, the store, the
containers and the pooled clients are as before, and the loop of the reaper
goes on with the ids that follow. -/
theorem killInstance_dangling_id (s : State) (id : String) (e : Env)
    (hrow : s.db.firstInstance id = none) :
    (killInstance s id e).redis.zset = kvDel s.redis.zset id ∧
      kvGet (killInstance s id e).redis.zset id = none ∧
      (∀ j, j ≠ id → kvGet (killInstance s id e).redis.zset j = kvGet s.redis.zset j) ∧
      (killInstance s id e).redis.hashes = s.redis.hashes ∧
      (killInstance s id e).redis.sets = s.redis.sets ∧
      (killInstance s id e).db = s.db ∧
      (killInstance s id e).containers = s.containers ∧
      (killInstance s id e).clients = s.clients ∧
      (killInstance s id e).ttlHours = s.ttlHours ∧
      ∀ (envOf : String → Env) (rest : List String),
        (id :: rest).foldl (fun st j => killInstance st j (envOf j)) s
          = rest.foldl (fun st j => killInstance st j (envOf j))
              { s with redis := { s.redis with zset := kvDel s.redis.zset id } } := by
  rw [killInstance_no_row s id e hrow]
  refine ⟨rfl, ?_, ?_, rfl, rfl, rfl, rfl, rfl, rfl, ?_⟩
  · rw [kvGet_kvDel]; simp
  · intro j hj
    rw [kvGet_kvDel]; simp [hj]
  · intro envOf rest
    rw [List.foldl_cons, killInstance_no_row s id (envOf id) hrow]

/-- C27 on the sample state once its instance row has been deleted. -/
theorem killInstance_dangling_id_witness :
    danglingState.db.firstInstance demoInstance.id = none ∧
      (killInstance danglingState demoInstance.id demoEnv2).redis.zset = [] ∧
      (killInstance danglingState demoInstance.id demoEnv2).redis.hashes
        = danglingState.redis.hashes ∧
      (killInstance danglingState demoInstance.id demoEnv2).containers
        = danglingState.containers :=
  ⟨by decide, by decide,
    (killInstance_dangling_id danglingState demoInstance.id demoEnv2 (by decide)).2.2.2.1,
    (killInstance_dangling_id danglingState demoInstance.id demoEnv2 (by decide)).2.2.2.2.2.2.1⟩

/-- C28. For the call of `StartContainer` that `StartInstance` makes with the
client of the chosen host, once the image is there, a port is allocated and the
engine answers the create request: the container is created with the flag as
its only environment entry `FLAG=<flag>`, with `<containerPort>/tcp` exposed
and bound to `0.0.0.0` and the allocated port, with the privileged bit of the
challenge, with the memory limit of the challenge when that is positive and
the limit of the client otherwise, and with the CPU limit chosen by the same
rule. A client that is new to the pool has the limits of the host row. -/
theorem startContainer_request (s : State) (u c : String) (ch : Challenge) (host : DockerHost)
    (e : Env) (cl : DockerClient) (s1 : State) (port : Int) (respID : String)
    (hgc : getOrCreateClient s host e = (.ok cl, s1))
    (himg : e.ensureImageFails = false)
    (hport : cl.allocatePort e.portRand = .ok port)
    (hcreate : e.containerCreate = some respID) :
    ∃ req : Container,
      (cl.startContainer s1 (resolveImageName s1.db ch)
          ["FLAG=" ++ generateFlag u e.now e.flagRand] ch.port ch.privileged ch.memoryLimit
          ch.cpuLimit e).2.containers = s1.containers ++ [(cl.endpoint, req)] ∧
      (∀ containerID port s2,
        cl.startContainer s1 (resolveImageName s1.db ch)
            ["FLAG=" ++ generateFlag u e.now e.flagRand] ch.port ch.privileged ch.memoryLimit
            ch.cpuLimit e = (.ok (containerID, port), s2) →
        startOnHost s u c ch host e
          = recordInstance s2 u c host cl (generateFlag u e.now e.flagRand) containerID port
              e) ∧
      (∀ m s2,
        cl.startContainer s1 (resolveImageName s1.db ch)
            ["FLAG=" ++ generateFlag u e.now e.flagRand] ch.port ch.privileged ch.memoryLimit
            ch.cpuLimit e = (.error m, s2) →
        startOnHost s u c ch host e = (.error ("failed to start container: " ++ m), s2)) ∧
      req.id = respID ∧ req.image = resolveImageName s1.db ch ∧
      req.env = ["FLAG=" ++ generateFlag u e.now e.flagRand] ∧
      req.exposedPort = toString ch.port ++ "/tcp" ∧
      req.hostIP = "0.0.0.0" ∧ req.hostPort = toString port ∧
      req.privileged = ch.privileged ∧
      req.memory = (if ch.memoryLimit > 0 then ch.memoryLimit else cl.memoryLimit) ∧
      req.cpu = (if floatPositive ch.cpuLimit then ch.cpuLimit else cl.cpuLimit) ∧
      (kvGet s.clients host.id = none →
        cl.memoryLimit = host.memoryLimit ∧ cl.cpuLimit = host.cpuLimit) := by
  refine ⟨_, startContainer_created cl s1 _ _ _ _ _ _ e port respID himg hport hcreate,
    (startOnHost_call s u c ch host e cl s1 hgc).1, (startOnHost_call s u c ch host e cl s1 hgc).2,
    rfl, rfl, rfl, ?_, rfl, ?_, rfl, rfl, rfl, ?_⟩
  · exact sprintf_port ch.port
  · exact sprintf_int port
  · intro hnone
    exact getOrCreateClient_new_limits s host e cl s1 hnone hgc

/-- C28 on the sample deployment. -/
theorem startContainer_request_witness :
    getOrCreateClient demoState demoHost demoEnv = (.ok demoClient, demoPooled) ∧
      demoEnv.ensureImageFails = false ∧
      demoClient.allocatePort demoEnv.portRand = .ok 32345 ∧
      demoEnv.containerCreate = some "cont1" ∧
      (startInstance demoState "u1" "c1" demoEnv).2.containers
        = [(demoClient.endpoint,
            { id := "cont1", image := "nginx:alpine"
              env := ["FLAG=flag\x7bu1_1700000000_01020304\x7d"]
              exposedPort := "80/tcp", hostIP := "0.0.0.0", hostPort := "32345"
              memory := 134217728, cpu := 0x3FE0000000000000, privileged := false
              running := true })] ∧
      ∃ req : Container,
        req.env = ["FLAG=" ++ generateFlag "u1" demoEnv.now demoEnv.flagRand] ∧
        req.exposedPort = toString demoChallenge.port ++ "/tcp" ∧
        req.hostIP = "0.0.0.0" ∧ req.hostPort = toString (32345 : Int) ∧
        req.privileged = demoChallenge.privileged :=
  ⟨by decide, by decide, by decide, by decide, by decide,
    (startContainer_request demoState "u1" "c1" demoChallenge demoHost demoEnv demoClient
      demoPooled 32345 "cont1" (by decide) (by decide) (by decide) (by decide)).imp
      (fun _ h => ⟨h.2.2.2.2.2.1, h.2.2.2.2.2.2.1, h.2.2.2.2.2.2.2.1, h.2.2.2.2.2.2.2.2.1,
        h.2.2.2.2.2.2.2.2.2.1⟩)⟩

/-- C29, at the failing input: with a reaper, a log cleaner and a log store
in any running state, the sequence `reaper.Stop()`, `logCleaner.Stop()`,
`logStore.Shutdown()` and the deferred `reaper.Stop()` panics in its last step,
because `Reaper.Stop` closes the stop channel a second time; `Stop` on a
stopped reaper is a panic, not a no-op. -/
theorem shutdownSequence_panics (retentionDays : Int) (table : List APILog)
    (evs : List LogEvent) :
    (shutdownSequence
        { reaper := newReaper, logCleaner := newLogCleaner retentionDays
          logs := ((newLogSystem table).run evs).1 }).1
      = .panic "deferred reaper.Stop: close of closed channel" ∧
    (newReaper.stop.2.stop).1 = .panic "close of closed channel" := by
  refine ⟨?_, by decide⟩
  have hr := run_running evs _ (newLogSystem_running table)
  have h1 := (shutdown_running _ hr).1
  unfold shutdownSequence
  simp only [Reaper.stop, newReaper, LogCleaner.stop, newLogCleaner, Bool.false_eq_true, if_false]
  generalize hsd : ((newLogSystem table).run evs).1.shutdown = sd at h1
  obtain ⟨r, l, f⟩ := sd
  simp only at h1
  subst h1
  simp

/-- C30, at the failing input: the user has a live instance of challenge `c1`
and the store has no row of `c1`. `VerifyFlag` with the flag of the instance
dereferences the nil challenge and panics; with any other flag it returns, so
the call is total only on the mismatch path. -/
theorem verifyFlag_dereferences_missing_challenge :
    liveIds orphanState.redis "u1" "c1" = [demoInstance.id] ∧
      orphanState.db.firstChallenge "c1" = none ∧
      (verifyFlag orphanState "u1" "c1" demoInstance.flag demoEnv2).1
        = .panic "invalid memory address or nil pointer dereference" ∧
      (verifyFlag orphanState "u1" "c1" "flag\x7bguess\x7d" demoEnv2).1
        = .ok (false, "Flag 错误，请重试。") := by
  decide

end CyberRange
